import Mathlib

/-!
Verification of the DistributedChess C++ engine against its specification.

This file shallowly embeds the engine core:
 - the bitboard `Board` of `src/Engine/Board.cpp` (with the class layout of
   `Board.h`): bitboards, occupancy, mailbox, castling rights, history stack,
   FEN setup, make/unmake, pseudo-legal and legal move generation;
 - the move encoding of `src/engine/Move.h` (a 16-bit word);
 - the search layer of `src/engine/Search.cpp`: evaluation with piece-square
   tables, the transposition table, quiescence search, negamax and the
   iterative-deepening driver, plus the opening book and the `/search`
   HTTP handler of the engine `main`.

Machine integers are modelled as `Nat`/`Int` with explicit wrap-around
(`% 2 ^ 64`, 16-bit truncation) where the C++ relies on fixed-width types.
Bitboards stay below `2 ^ 64`; `uint64` complement is xor with the all-ones
mask.  The C++ enumerates set bits of a word with `pop_lsb`
(count-trailing-zeros, ascending); `squaresOf` lists exactly those bits in the
same ascending order.
-/

set_option maxRecDepth 100000
set_option maxHeartbeats 4000000

namespace Chess

/-! ## Bit primitives (BitboardUtils.h) -/

abbrev Bitboard := Nat

def U64 : Nat := 2 ^ 64

def mask64 : Nat := U64 - 1

/-- `square_to_bitboard`: `1ULL << s`.  For `s = NO_SQUARE = 64` the C++ shift
is out of range (undefined); we take the 64-bit wrap, which yields `0`, so an
absent en-passant square matches no target square. -/
def sqbb (s : Nat) : Bitboard := (1 <<< s) % U64

/-- 64-bit complement `~x` (xor with the all-ones 64-bit mask). -/
def compl64 (x : Bitboard) : Bitboard := mask64 ^^^ x

/-- Ascending list of the set bits of a 64-bit word: the order in which the
C++ `while (bb) pop_lsb(bb)` loop visits them. -/
def squaresOf (bb : Bitboard) : List Nat :=
  (List.range 64).filter (fun i => bb.testBit i)

/-- `bitboard_to_square` (count trailing zeros); `64` when no bit is set,
matching x86 `tzcnt` on zero. -/
def ctz64 (bb : Bitboard) : Nat :=
  ((List.range 64).find? (fun i => bb.testBit i)).getD 64

/-- `__builtin_popcountll` on a 64-bit word. -/
def popcount64 (bb : Bitboard) : Nat :=
  (List.range 64).countP (fun i => bb.testBit i)

/-! ## Basic types (Board.h) -/

inductive Color : Type where
  | WHITE : Color
  | BLACK : Color
deriving DecidableEq, Repr, Fintype

open Color

def Color.other : Color → Color
  | WHITE => BLACK
  | BLACK => WHITE

inductive PieceType : Type where
  | PAWN | KNIGHT | BISHOP | ROOK | QUEEN | KING | NO_PIECE_TYPE
deriving DecidableEq, Repr, Fintype

open PieceType

/-- The six real piece kinds, in enum order. -/
def pieceKinds : List PieceType := [PAWN, KNIGHT, BISHOP, ROOK, QUEEN, KING]

structure Piece : Type where
  type : PieceType
  color : Color
deriving DecidableEq, Repr

structure CastlingRights : Type where
  white_king_side : Bool
  white_queen_side : Bool
  black_king_side : Bool
  black_queen_side : Bool
deriving DecidableEq, Repr

/-- Square constants (little-endian rank-file, a1 = 0). -/
def a1 : Nat := 0
def b1 : Nat := 1
def c1 : Nat := 2
def d1 : Nat := 3
def e1 : Nat := 4
def f1 : Nat := 5
def g1 : Nat := 6
def h1 : Nat := 7
def a8 : Nat := 56
def b8 : Nat := 57
def c8 : Nat := 58
def d8 : Nat := 59
def e8 : Nat := 60
def f8 : Nat := 61
def g8 : Nat := 62
def h8 : Nat := 63
def NO_SQUARE : Nat := 64

/-- `UndoInfo`: irreversible state pushed on the history stack.  The copy
constructor used by `Board::move` copies only `entry`; every other field
takes its default. -/
structure UndoInfo : Type where
  entry : Bitboard := 0
  captured : Piece := ⟨NO_PIECE_TYPE, WHITE⟩
  epsq : Nat := NO_SQUARE
  castling_rights : CastlingRights := ⟨true, true, true, true⟩
  halfmove_clock : Int := 0
  full_move_counter : Nat := 1
  zobrist_key : Nat := 0
deriving DecidableEq, Repr

/-- `UndoInfo(const UndoInfo &prev)`: copies `entry` only. -/
def UndoInfo.copyEntry (prev : UndoInfo) : UndoInfo := { entry := prev.entry }

/-! ## Move encoding (Move.h): a 16-bit word `flags<<12 | from<<6 | to`. -/

namespace MF

def QUIET : Nat := 0b0000
def DOUBLE_PUSH : Nat := 0b0001
def OO : Nat := 0b0010
def OOO : Nat := 0b0011
def CAPTURE : Nat := 0b1000
def EN_PASSANT : Nat := 0b1010
def PR_KNIGHT : Nat := 0b0100
def PR_BISHOP : Nat := 0b0101
def PR_ROOK : Nat := 0b0110
def PR_QUEEN : Nat := 0b0111
def PC_KNIGHT : Nat := 0b1100
def PC_BISHOP : Nat := 0b1101
def PC_ROOK : Nat := 0b1110
def PC_QUEEN : Nat := 0b1111

end MF

structure Move : Type where
  raw : Nat
deriving DecidableEq, Repr

/-- `Move(from, to, flags)`; the result is stored in a `uint16_t`. -/
def mkMove (fromSq toSq flags : Nat) : Move :=
  ⟨((flags <<< 12) ||| (fromSq <<< 6) ||| toSq) % 2 ^ 16⟩

def Move.toSq (m : Move) : Nat := m.raw &&& 0x3f

def Move.fromSq (m : Move) : Nat := (m.raw >>> 6) &&& 0x3f

def Move.flags (m : Move) : Nat := (m.raw >>> 12) &&& 0xf

def Move.to_from (m : Move) : Nat := m.raw &&& 0xffff

def Move.is_capture (m : Move) : Bool := ((m.raw >>> 12) &&& MF.CAPTURE) != 0

/-- The default `Move()` (a null move, `a1a1`). -/
def nullMove : Move := ⟨0⟩

/-- `Move::to_uci`. -/
def Move.to_uci (m : Move) : String :=
  let squareToStr : Nat → String := fun sq =>
    String.mk [Char.ofNat ('a'.toNat + sq % 8), Char.ofNat ('1'.toNat + sq / 8)]
  let base := squareToStr m.fromSq ++ squareToStr m.toSq
  if m.flags = MF.PR_QUEEN ∨ m.flags = MF.PC_QUEEN then base ++ "q"
  else if m.flags = MF.PR_ROOK ∨ m.flags = MF.PC_ROOK then base ++ "r"
  else if m.flags = MF.PR_BISHOP ∨ m.flags = MF.PC_BISHOP then base ++ "b"
  else if m.flags = MF.PR_KNIGHT ∨ m.flags = MF.PC_KNIGHT then base ++ "n"
  else base

/-! ## Attack tables (Board.cpp, consteval builders).

Each C++ table entry is produced by a closed-form expression or a small loop
over the entry's indices; we define the entry directly as a function of those
indices. -/

def notAFile : Bitboard := 0xfefefefefefefefe
def notHFile : Bitboard := 0x7f7f7f7f7f7f7f7f
def notABFile : Bitboard := 0xfcfcfcfcfcfcfcfc
def notGHFile : Bitboard := 0x3f3f3f3f3f3f3f3f

def sl (x : Bitboard) (n : Nat) : Bitboard := (x <<< n) % U64

/-- `PAWN_PUSHES[color][sq]`. -/
def pawnPushes (c : Color) (sq : Nat) : Bitboard :=
  let bb := sqbb sq
  match c with
  | WHITE => sl bb 8 ||| (if bb &&& 0xFF00 ≠ 0 then sl bb 16 else 0)
  | BLACK => (bb >>> 8) ||| (if bb &&& 0xFF000000000000 ≠ 0 then bb >>> 16 else 0)

/-- `PAWN_ATTACKS[color][sq]`. -/
def pawnAttacks (c : Color) (sq : Nat) : Bitboard :=
  let bb := sqbb sq
  match c with
  | WHITE => (sl bb 7 &&& notHFile) ||| (sl bb 9 &&& notAFile)
  | BLACK => ((bb >>> 9) &&& notHFile) ||| ((bb >>> 7) &&& notAFile)

/-- `KNIGHT_ATTACKS[sq]`. -/
def knightAttacks (sq : Nat) : Bitboard :=
  let bb := sqbb sq
  (sl bb 17 &&& notAFile) ||| (sl bb 15 &&& notHFile) |||
  (sl bb 10 &&& notABFile) ||| (sl bb 6 &&& notGHFile) |||
  ((bb >>> 17) &&& notHFile) ||| ((bb >>> 15) &&& notAFile) |||
  ((bb >>> 10) &&& notGHFile) ||| ((bb >>> 6) &&& notABFile)

/-- `KING_ATTACKS[sq]`. -/
def kingAttacks (sq : Nat) : Bitboard :=
  let bb := sqbb sq
  let notFirstRank := compl64 0xFF
  let notLastRank := compl64 0xFF00000000000000
  (sl bb 9 &&& notAFile &&& notFirstRank) ||| (sl bb 8 &&& notFirstRank) |||
  (sl bb 7 &&& notHFile &&& notFirstRank) |||
  (sl bb 1 &&& notAFile) ||| ((bb >>> 1) &&& notHFile) |||
  ((bb >>> 7) &&& notAFile &&& notLastRank) ||| ((bb >>> 8) &&& notLastRank) |||
  ((bb >>> 9) &&& notHFile &&& notLastRank)

/-- One diagonal/straight ray of a relevant-occupancy mask: steps `k = 1, 2, …`
from `(r, f)` along `(dr, df)` while the next square avoids the board edge,
as in the `init_bishop_masks` / `init_rook_masks` loops. -/
def maskRay (r f : Int) (dr df : Int) : Bitboard :=
  (List.range 8).foldl
    (fun acc j =>
      let r2 := r + dr * (j + 1)
      let f2 := f + df * (j + 1)
      let inb : Bool :=
        (if dr = 1 then r2 < 7 else if dr = -1 then 0 < r2 else 0 ≤ r2 ∧ r2 < 8) ∧
        (if df = 1 then f2 < 7 else if df = -1 then 0 < f2 else 0 ≤ f2 ∧ f2 < 8)
      if inb then acc ||| sqbb (r2 * 8 + f2).toNat else acc)
    0

/-- `BISHOP_MASKS[sq]`. -/
def bishopMask (sq : Nat) : Bitboard :=
  let r : Int := sq / 8
  let f : Int := sq % 8
  maskRay r f 1 1 ||| maskRay r f 1 (-1) ||| maskRay r f (-1) 1 ||| maskRay r f (-1) (-1)

/-- `ROOK_MASKS[sq]`. -/
def rookMask (sq : Nat) : Bitboard :=
  let r : Int := sq / 8
  let f : Int := sq % 8
  maskRay r f 1 0 ||| maskRay r f (-1) 0 ||| maskRay r f 0 1 ||| maskRay r f 0 (-1)

/-- One attack ray with blockers: walks from `(r, f)` along `(dr, df)` staying
on the board, including each square reached and stopping at (and including)
the first occupied square — the loop body of the attack-table builders. -/
def attackRay (occ : Bitboard) (r f dr df : Int) : Nat → Bitboard
  | 0 => 0
  | fuel + 1 =>
    let r2 := r + dr
    let f2 := f + df
    if 0 ≤ r2 ∧ r2 < 8 ∧ 0 ≤ f2 ∧ f2 < 8 then
      let s := (r2 * 8 + f2).toNat
      if occ &&& sqbb s ≠ 0 then sqbb s
      else sqbb s ||| attackRay occ r2 f2 dr df fuel
    else 0

/-- Bishop attacks from `sq` with blocker set `occ` (the value the C++ table
stores for the occupancy configuration `occ`). -/
def bishopAttacksOcc (sq : Nat) (occ : Bitboard) : Bitboard :=
  let r : Int := sq / 8
  let f : Int := sq % 8
  attackRay occ r f 1 1 8 ||| attackRay occ r f 1 (-1) 8 |||
  attackRay occ r f (-1) 1 8 ||| attackRay occ r f (-1) (-1) 8

/-- Rook attacks from `sq` with blocker set `occ`. -/
def rookAttacksOcc (sq : Nat) (occ : Bitboard) : Bitboard :=
  let r : Int := sq / 8
  let f : Int := sq % 8
  attackRay occ r f 1 0 8 ||| attackRay occ r f (-1) 0 8 |||
  attackRay occ r f 0 1 8 ||| attackRay occ r f 0 (-1) 8

/-- Deposit the low bits of `idx` into the set-bit positions of `mask`
(ascending), as in the occupancy enumeration of the table builders. -/
def deposit (mask : Bitboard) (idx : Nat) : Bitboard :=
  ((squaresOf mask).zip (List.range 64)).foldl
    (fun occ p => if idx.testBit p.2 then occ ||| sqbb p.1 else occ) 0

/-- `BISHOP_ATTACKS[sq][idx]`. -/
def BISHOP_ATTACKS (sq idx : Nat) : Bitboard :=
  bishopAttacksOcc sq (deposit (bishopMask sq) idx)

/-- `ROOK_ATTACKS[sq][idx]`. -/
def ROOK_ATTACKS (sq idx : Nat) : Bitboard :=
  rookAttacksOcc sq (deposit (rookMask sq) idx)

/-- `Board::get_occupancy_index`: compact the blockers `occBoth ∩ mask` into
the low bits, in ascending order of the set bits of `mask`. -/
def occIndex (mask occBoth : Bitboard) : Nat :=
  ((squaresOf mask).zip (List.range 64)).foldl
    (fun acc p => if (occBoth &&& mask).testBit p.1 then acc ||| (1 <<< p.2) else acc) 0

/-! ## The Board (Board.h together with Board.cpp). -/

/-- The `Board` class state.  `occ_white`, `occ_black`, `occ_both` are the
three cells of `occupancy[3]`; `mailbox` and `history` are modelled as total
functions (the C++ arrays have 64 and 256 cells; no theorem below depends on
an out-of-range cell). -/
structure Board : Type where
  bitboards : Color → PieceType → Bitboard
  occ_white : Bitboard
  occ_black : Bitboard
  occ_both : Bitboard
  mailbox : Nat → Piece
  player_to_move : Color
  castling_rights : CastlingRights
  game_ply : Nat
  full_move_counter : Nat
  halfmove_clock : Int
  history : Nat → UndoInfo

/-- `occupancy[c]` for a `Color` index. -/
def Board.occof (b : Board) (c : Color) : Bitboard :=
  match c with
  | WHITE => b.occ_white
  | BLACK => b.occ_black

/-- The default-constructed `Board()`. -/
def Board.init : Board where
  bitboards := fun _ _ => 0
  occ_white := 0
  occ_black := 0
  occ_both := 0
  mailbox := fun _ => ⟨NO_PIECE_TYPE, WHITE⟩
  player_to_move := WHITE
  castling_rights := ⟨true, true, true, true⟩
  game_ply := 0
  full_move_counter := 1
  halfmove_clock := 0
  history := fun _ => {}

def Board.get_piece_type_on_square (b : Board) (s : Nat) : PieceType :=
  (b.mailbox s).type

def Board.get_piece_color_on_square (b : Board) (s : Nat) : Color :=
  (b.mailbox s).color

def Board.get_player_to_move (b : Board) : Color := b.player_to_move

def Board.get_halfmove_clock (b : Board) : Int := b.halfmove_clock

/-- Functional update of one bitboard cell. -/
def updBB (bb : Color → PieceType → Bitboard) (c : Color) (k : PieceType)
    (v : Bitboard) : Color → PieceType → Bitboard :=
  fun c2 k2 => if c2 = c ∧ k2 = k then v else bb c2 k2

/-- Functional update of one mailbox cell. -/
def updMB (mb : Nat → Piece) (s : Nat) (p : Piece) : Nat → Piece :=
  fun s2 => if s2 = s then p else mb s2

/-- Functional update of one history frame. -/
def updHist (h : Nat → UndoInfo) (i : Nat) (u : UndoInfo) : Nat → UndoInfo :=
  fun j => if j = i then u else h j

/-- Update `occupancy[c]`. -/
def Board.setOcc (b : Board) (c : Color) (v : Bitboard) : Board :=
  match c with
  | WHITE => { b with occ_white := v }
  | BLACK => { b with occ_black := v }

/-- `Board::put_piece` (the debug assert aside, it unconditionally ORs the
square bit in and writes the mailbox). -/
def Board.put_piece (b : Board) (s : Nat) (p : Piece) : Board :=
  let bb := sqbb s
  let b := { b with bitboards := updBB b.bitboards p.color p.type (b.bitboards p.color p.type ||| bb) }
  let b := b.setOcc p.color (b.occof p.color ||| bb)
  { b with occ_both := b.occ_both ||| bb, mailbox := updMB b.mailbox s p }

/-- `Board::remove_piece`: clears the piece's bit and resets only the mailbox
`type` field (the `color` byte of the emptied square keeps the removed
piece's color). -/
def Board.remove_piece (b : Board) (s : Nat) : Board :=
  let p := b.mailbox s
  let bb := sqbb s
  let b := { b with bitboards := updBB b.bitboards p.color p.type (b.bitboards p.color p.type &&& compl64 bb) }
  let b := b.setOcc p.color (b.occof p.color &&& compl64 bb)
  { b with occ_both := b.occ_both &&& compl64 bb,
           mailbox := updMB b.mailbox s ⟨NO_PIECE_TYPE, p.color⟩ }

/-- `Board::make_move` (destination may hold a piece). -/
def Board.make_move (b : Board) (fromSq toSq : Nat) : Board :=
  let movingPiece := b.mailbox fromSq
  let b := if (b.mailbox toSq).type ≠ NO_PIECE_TYPE then b.remove_piece toSq else b
  (b.remove_piece fromSq).put_piece toSq movingPiece

/-- `Board::make_quiet_move` (no piece at the destination). -/
def Board.make_quiet_move (b : Board) (fromSq toSq : Nat) : Board :=
  let movingPiece := b.mailbox fromSq
  (b.remove_piece fromSq).put_piece toSq movingPiece

/-- `Board::relative_dir`. -/
def Board.relative_dir (b : Board) (dir : Int) : Int :=
  if b.player_to_move = WHITE then dir else -dir

/-- Square arithmetic `Square(s + d)` on enum values. -/
def addDir (s : Nat) (d : Int) : Nat := ((s : Int) + d).toNat

def NORTH : Int := 8
def SOUTH : Int := -8

/-! ### Board::move / Board::undo_move -/

/-- The castling-rights update at the top of `Board::move` (king move, rook
move from a corner, rook captured on a corner). -/
def castlingUpdate (b : Board) (fromSq toSq : Nat) : CastlingRights :=
  let cr := b.castling_rights
  let cr :=
    match b.get_piece_type_on_square fromSq with
    | KING =>
      if b.player_to_move = WHITE then
        { cr with white_king_side := false, white_queen_side := false }
      else
        { cr with black_king_side := false, black_queen_side := false }
    | ROOK =>
      if b.player_to_move = WHITE then
        let cr := if fromSq = a1 then { cr with white_queen_side := false } else cr
        if fromSq = h1 then { cr with white_king_side := false } else cr
      else
        let cr := if fromSq = a8 then { cr with black_queen_side := false } else cr
        if fromSq = h8 then { cr with black_king_side := false } else cr
    | _ => cr
  if b.get_piece_type_on_square toSq = ROOK then
    if b.player_to_move = WHITE then
      let cr := if toSq = a8 then { cr with black_queen_side := false } else cr
      if toSq = h8 then { cr with black_king_side := false } else cr
    else
      let cr := if toSq = a1 then { cr with white_queen_side := false } else cr
      if toSq = h1 then { cr with white_king_side := false } else cr
  else cr

/-- `Board::move`. -/
def Board.move (b : Board) (m : Move) : Board :=
  let fromSq := m.fromSq
  let toSq := m.toSq
  let type := m.flags
  let g := b.game_ply + 1
  let frame := { (b.history (g - 1)).copyEntry with
                 entry := (b.history (g - 1)).entry ||| sqbb toSq ||| sqbb fromSq }
  let piece_type := b.get_piece_type_on_square fromSq
  let cr := castlingUpdate b fromSq toSq
  let b1 := { b with game_ply := g, history := updHist b.history g frame,
                     castling_rights := cr }
  -- dispatch on the move flag
  let dispatch : Board :=
    if type = MF.QUIET then b1.make_quiet_move fromSq toSq
    else if type = MF.DOUBLE_PUSH then
      let b2 := b1.make_quiet_move fromSq toSq
      let fr := { b2.history g with epsq := addDir fromSq (b.relative_dir NORTH) }
      { b2 with history := updHist b2.history g fr }
    else if type = MF.OO then
      if b.player_to_move = WHITE then (b1.make_quiet_move e1 g1).make_quiet_move h1 f1
      else (b1.make_quiet_move e8 g8).make_quiet_move h8 f8
    else if type = MF.OOO then
      if b.player_to_move = WHITE then (b1.make_quiet_move e1 c1).make_quiet_move a1 d1
      else (b1.make_quiet_move e8 c8).make_quiet_move a8 d8
    else if type = MF.EN_PASSANT then
      (b1.make_quiet_move fromSq toSq).remove_piece (addDir toSq (b.relative_dir SOUTH))
    else if type = MF.PR_KNIGHT then
      (b1.remove_piece fromSq).put_piece toSq ⟨KNIGHT, b.player_to_move⟩
    else if type = MF.PR_BISHOP then
      (b1.remove_piece fromSq).put_piece toSq ⟨BISHOP, b.player_to_move⟩
    else if type = MF.PR_ROOK then
      (b1.remove_piece fromSq).put_piece toSq ⟨ROOK, b.player_to_move⟩
    else if type = MF.PR_QUEEN then
      (b1.remove_piece fromSq).put_piece toSq ⟨QUEEN, b.player_to_move⟩
    else if type = MF.PC_KNIGHT ∨ type = MF.PC_BISHOP ∨ type = MF.PC_ROOK ∨
            type = MF.PC_QUEEN then
      let b2 := b1.remove_piece fromSq
      let fr := { b2.history g with captured := b2.mailbox toSq }
      let b2 := { b2 with history := updHist b2.history g fr }
      let b2 := b2.remove_piece toSq
      let promoted : PieceType :=
        if type = MF.PC_KNIGHT then KNIGHT else if type = MF.PC_BISHOP then BISHOP
        else if type = MF.PC_ROOK then ROOK else QUEEN
      b2.put_piece toSq ⟨promoted, b.player_to_move⟩
    else if type = MF.CAPTURE then
      let fr := { b1.history g with captured := b1.mailbox toSq }
      let b2 := { b1 with history := updHist b1.history g fr }
      b2.make_move fromSq toSq
    else b1
  let fr3 := { dispatch.history g with castling_rights := dispatch.castling_rights }
  let b3 := { dispatch with history := updHist dispatch.history g fr3 }
  let hm : Int := if piece_type = PAWN ∨ (type &&& MF.CAPTURE) ≠ 0 then 0
                  else b.halfmove_clock + 1
  let fm : Nat := if b.player_to_move = BLACK then (b.full_move_counter + 1) % 2 ^ 16
                  else b.full_move_counter
  let b4 := { b3 with halfmove_clock := hm, full_move_counter := fm }
  let fr5 := { b4.history g with halfmove_clock := hm, full_move_counter := fm }
  let b5 := { b4 with history := updHist b4.history g fr5 }
  { b5 with player_to_move := b.player_to_move.other }

/-- `Board::undo_move`. -/
def Board.undo_move (b : Board) (m : Move) : Board :=
  let fromSq := m.fromSq
  let toSq := m.toSq
  let type := m.flags
  let b := { b with player_to_move := b.player_to_move.other }
  let b1 :=
    if type = MF.QUIET ∨ type = MF.DOUBLE_PUSH then b.make_quiet_move toSq fromSq
    else if type = MF.OO then
      if b.player_to_move = WHITE then (b.make_quiet_move g1 e1).make_quiet_move f1 h1
      else (b.make_quiet_move g8 e8).make_quiet_move f8 h8
    else if type = MF.OOO then
      if b.player_to_move = WHITE then (b.make_quiet_move c1 e1).make_quiet_move d1 a1
      else (b.make_quiet_move c8 e8).make_quiet_move d8 a8
    else if type = MF.EN_PASSANT then
      (b.make_quiet_move toSq fromSq).put_piece (addDir toSq (b.relative_dir SOUTH))
        ⟨PAWN, b.player_to_move.other⟩
    else if type = MF.PR_KNIGHT ∨ type = MF.PR_BISHOP ∨ type = MF.PR_ROOK ∨
            type = MF.PR_QUEEN then
      (b.remove_piece toSq).put_piece fromSq ⟨PAWN, b.player_to_move⟩
    else if type = MF.PC_KNIGHT ∨ type = MF.PC_BISHOP ∨ type = MF.PC_ROOK ∨
            type = MF.PC_QUEEN then
      let b2 := b.remove_piece toSq
      let b2 := b2.put_piece toSq (b.history b.game_ply).captured
      b2.put_piece fromSq ⟨PAWN, b.player_to_move⟩
    else if type = MF.CAPTURE then
      (b.make_quiet_move toSq fromSq).put_piece toSq (b.history b.game_ply).captured
    else b
  let g := b1.game_ply - 1
  { b1 with game_ply := g,
            castling_rights := (b1.history g).castling_rights,
            halfmove_clock := (b1.history g).halfmove_clock,
            full_move_counter := (b1.history g).full_move_counter }

/-! ### Move generation (Board.cpp) -/

/-- The shared emission loop of the knight / bishop / rook / queen generators
and the first half of the king generator: each target square becomes a
capture if an enemy piece sits there, else a quiet move. -/
def emitLoop (b : Board) (fromSq : Nat) (targets : Bitboard) : List Move :=
  let enemy := b.player_to_move.other
  (squaresOf targets).map (fun toSq =>
    if (b.occof enemy).testBit toSq then mkMove fromSq toSq MF.CAPTURE
    else mkMove fromSq toSq MF.QUIET)

/-- `Board::generate_pawn_moves`. -/
def Board.generate_pawn_moves (b : Board) (fromSq : Nat) : List Move :=
  let pushes_bb := pawnPushes b.player_to_move fromSq
  let attacks_bb := pawnAttacks b.player_to_move fromSq
  let enemy := b.player_to_move.other
  let from_bb := sqbb fromSq
  let rank2 : Bitboard := 0x000000000000FF00
  let rank7 : Bitboard := 0x00FF000000000000
  let dir := b.relative_dir NORTH
  let pushPart : List Move :=
    if (b.player_to_move = WHITE ∧ from_bb &&& rank2 ≠ 0) ∨
       (b.player_to_move = BLACK ∧ from_bb &&& rank7 ≠ 0) then
      let firstSquare := addDir fromSq dir
      let secondSquare := addDir firstSquare dir
      if sqbb firstSquare &&& b.occ_both = 0 then
        mkMove fromSq firstSquare MF.QUIET ::
          (if sqbb secondSquare &&& b.occ_both = 0 then
            [mkMove fromSq secondSquare MF.DOUBLE_PUSH] else [])
      else []
    else if (b.player_to_move = WHITE ∧ from_bb &&& rank7 ≠ 0) ∨
            (b.player_to_move = BLACK ∧ from_bb &&& rank2 ≠ 0) then
      if pushes_bb &&& b.occ_both = 0 then
        [mkMove fromSq (addDir fromSq dir) MF.PR_KNIGHT,
         mkMove fromSq (addDir fromSq dir) MF.PR_BISHOP,
         mkMove fromSq (addDir fromSq dir) MF.PR_ROOK,
         mkMove fromSq (addDir fromSq dir) MF.PR_QUEEN]
      else []
    else
      if pushes_bb &&& b.occ_both = 0 then
        [mkMove fromSq (ctz64 pushes_bb) MF.QUIET]
      else []
  let attackPart : List Move :=
    if (b.player_to_move = WHITE ∧ from_bb &&& rank7 ≠ 0) ∨
       (b.player_to_move = BLACK ∧ from_bb &&& rank2 ≠ 0) then
      (squaresOf attacks_bb).flatMap (fun toSq =>
        if (sqbb toSq &&& b.occof enemy) ≠ 0 then
          [mkMove fromSq toSq MF.PC_KNIGHT, mkMove fromSq toSq MF.PC_BISHOP,
           mkMove fromSq toSq MF.PC_ROOK, mkMove fromSq toSq MF.PC_QUEEN]
        else [])
    else
      (squaresOf attacks_bb).flatMap (fun toSq =>
        if (sqbb toSq &&& b.occof enemy) ≠ 0 then
          [mkMove fromSq toSq MF.CAPTURE]
        else if (sqbb toSq &&& sqbb (b.history b.game_ply).epsq) ≠ 0 then
          [mkMove fromSq toSq MF.EN_PASSANT]
        else [])
  pushPart ++ attackPart

/-- `Board::generate_knight_moves`. -/
def Board.generate_knight_moves (b : Board) (fromSq : Nat) : List Move :=
  emitLoop b fromSq (knightAttacks fromSq &&& compl64 (b.occof b.player_to_move))

/-- `Board::generate_bishop_moves`. -/
def Board.generate_bishop_moves (b : Board) (fromSq : Nat) : List Move :=
  let occ_idx := occIndex (bishopMask fromSq) b.occ_both
  emitLoop b fromSq (BISHOP_ATTACKS fromSq occ_idx &&& compl64 (b.occof b.player_to_move))

/-- `Board::generate_rook_moves`. -/
def Board.generate_rook_moves (b : Board) (fromSq : Nat) : List Move :=
  let occ_idx := occIndex (rookMask fromSq) b.occ_both
  emitLoop b fromSq (ROOK_ATTACKS fromSq occ_idx &&& compl64 (b.occof b.player_to_move))

/-- `Board::generate_queen_moves`. -/
def Board.generate_queen_moves (b : Board) (fromSq : Nat) : List Move :=
  let bAtt := BISHOP_ATTACKS fromSq (occIndex (bishopMask fromSq) b.occ_both)
  let rAtt := ROOK_ATTACKS fromSq (occIndex (rookMask fromSq) b.occ_both)
  emitLoop b fromSq ((bAtt ||| rAtt) &&& compl64 (b.occof b.player_to_move))

/-- `Board::is_square_under_attack`. -/
def Board.is_square_under_attack (b : Board) (square : Nat)
    (player_under_attack : Color) : Bool :=
  let attacker := player_under_attack.other
  if pawnAttacks player_under_attack square &&& b.bitboards attacker PAWN ≠ 0 then true
  else if knightAttacks square &&& b.bitboards attacker KNIGHT ≠ 0 then true
  else if kingAttacks square &&& b.bitboards attacker KING ≠ 0 then true
  else
    let bishop_attacks := BISHOP_ATTACKS square (occIndex (bishopMask square) b.occ_both)
      &&& compl64 (b.occof player_under_attack)
    let rook_attacks := ROOK_ATTACKS square (occIndex (rookMask square) b.occ_both)
      &&& compl64 (b.occof player_under_attack)
    let queen_attacks := bishop_attacks ||| rook_attacks
    if bishop_attacks &&& b.bitboards attacker BISHOP ≠ 0 then true
    else if rook_attacks &&& b.bitboards attacker ROOK ≠ 0 then true
    else if queen_attacks &&& b.bitboards attacker QUEEN ≠ 0 then true
    else false

/-- `Board::is_in_check`. -/
def Board.is_in_check (b : Board) (player : Color) : Bool :=
  b.is_square_under_attack (ctz64 (b.bitboards player KING)) player

/-- `Board::generate_king_moves` (normal moves, then the castling block). -/
def Board.generate_king_moves (b : Board) (fromSq : Nat) : List Move :=
  let normal := emitLoop b fromSq
    (kingAttacks fromSq &&& compl64 (b.occof b.player_to_move))
  let castles : List Move :=
    if b.player_to_move = WHITE then
      (if b.castling_rights.white_king_side ∧
          (b.mailbox f1).type = NO_PIECE_TYPE ∧ (b.mailbox g1).type = NO_PIECE_TYPE ∧
          b.is_square_under_attack e1 WHITE = false ∧
          b.is_square_under_attack f1 WHITE = false ∧
          b.is_square_under_attack g1 WHITE = false then
        [mkMove e1 g1 MF.OO] else []) ++
      (if b.castling_rights.white_queen_side ∧
          (b.mailbox b1).type = NO_PIECE_TYPE ∧ (b.mailbox d1).type = NO_PIECE_TYPE ∧
          (b.mailbox c1).type = NO_PIECE_TYPE ∧
          b.is_square_under_attack e1 WHITE = false ∧
          b.is_square_under_attack d1 WHITE = false ∧
          b.is_square_under_attack c1 WHITE = false then
        [mkMove e1 c1 MF.OOO] else [])
    else
      (if b.castling_rights.black_king_side ∧
          (b.mailbox f8).type = NO_PIECE_TYPE ∧ (b.mailbox g8).type = NO_PIECE_TYPE ∧
          b.is_square_under_attack e8 BLACK = false ∧
          b.is_square_under_attack f8 BLACK = false ∧
          b.is_square_under_attack g8 BLACK = false then
        [mkMove e8 g8 MF.OO] else []) ++
      (if b.castling_rights.black_queen_side ∧
          (b.mailbox b8).type = NO_PIECE_TYPE ∧ (b.mailbox d8).type = NO_PIECE_TYPE ∧
          (b.mailbox c8).type = NO_PIECE_TYPE ∧
          b.is_square_under_attack e8 BLACK = false ∧
          b.is_square_under_attack d8 BLACK = false ∧
          b.is_square_under_attack c8 BLACK = false then
        [mkMove e8 c8 MF.OOO] else [])
  normal ++ castles

/-- `Board::generate_pseudo_legal_moves`. -/
def Board.generate_pseudo_legal_moves (b : Board) : List Move :=
  let us := b.player_to_move
  (squaresOf (b.bitboards us PAWN)).flatMap b.generate_pawn_moves ++
  (squaresOf (b.bitboards us KNIGHT)).flatMap b.generate_knight_moves ++
  (squaresOf (b.bitboards us BISHOP)).flatMap b.generate_bishop_moves ++
  (squaresOf (b.bitboards us ROOK)).flatMap b.generate_rook_moves ++
  (squaresOf (b.bitboards us QUEEN)).flatMap b.generate_queen_moves ++
  b.generate_king_moves (ctz64 (b.bitboards us KING))

/-- `Board::get_legal_moves`: pseudo-legal moves filtered by the make /
king-in-check test / unmake loop.  The C++ mutates the board and undoes each
move; we test the applied position directly, which visits the same moves in
the same order and keeps the same ones. -/
def Board.get_legal_moves (b : Board) : List Move :=
  b.generate_pseudo_legal_moves.filter (fun m =>
    let b2 := b.move m
    let us := b2.player_to_move.other
    ¬ b2.is_in_check us)

/-- `Board::get_legal_captures`. -/
def Board.get_legal_captures (b : Board) : List Move :=
  (b.generate_pseudo_legal_moves.filter (fun m => m.is_capture)).filter (fun m =>
    let b2 := b.move m
    let us := b2.player_to_move.other
    ¬ b2.is_in_check us)

/-- `Board::is_insufficient_material`. -/
def Board.is_insufficient_material (b : Board) : Bool :=
  let white_count := popcount64 b.occ_white
  let black_count := popcount64 b.occ_black
  if white_count = 1 ∧ black_count = 1 then true
  else if white_count = 2 ∧ black_count = 1 ∧ b.bitboards WHITE KNIGHT ≠ 0 then true
  else if white_count = 1 ∧ black_count = 2 ∧ b.bitboards BLACK KNIGHT ≠ 0 then true
  else if white_count = 2 ∧ black_count = 1 ∧ b.bitboards WHITE BISHOP ≠ 0 then true
  else if white_count = 1 ∧ black_count = 2 ∧ b.bitboards BLACK BISHOP ≠ 0 then true
  else false

/-! ### FEN parsing (Board::setup_with_fen) -/

/-- Character-list splitter (keeps every field, including empty ones and a
trailing empty field). -/
def splitCharsGo (delim : Char) : List Char → List Char → List (List Char)
  | [], cur => [cur.reverse]
  | c :: rest, cur =>
    if c = delim then cur.reverse :: splitCharsGo delim rest []
    else splitCharsGo delim rest (c :: cur)

/-- Splitting with `std::getline(stream, token, delim)`: an empty input
yields no token, and a trailing delimiter yields no trailing empty token
(`getline` fails once it extracts no characters at all). -/
def cppSplit (s : String) (delim : Char) : List String :=
  if s.data = [] then []
  else
    let parts := (splitCharsGo delim s.data []).map String.mk
    if s.data.getLast? = some delim then parts.dropLast else parts

/-- `std::stoi`: optional sign, then at least one digit; parsing stops at the
first non-digit and throws (`none`) when no digit was consumed. -/
def cppStoi (s : String) : Option Int :=
  let cs := s.data.dropWhile (fun c => c = ' ')
  let signAndRest : Int × List Char :=
    match cs with
    | '-' :: rest => (-1, rest)
    | '+' :: rest => (1, rest)
    | _ => (1, cs)
  let digits := signAndRest.2.takeWhile (fun c => c.isDigit)
  if digits = [] then none
  else some (signAndRest.1 * (digits.foldl (fun acc c => acc * 10 + ((c.toNat : Int) - 48)) 0))

/-- `SquareMap.at`: the 64 keys "a1" … "h8"; any other string throws. -/
def squareMapAt (s : String) : Option Nat :=
  match s.data with
  | [cf, cr] =>
    if 'a' ≤ cf ∧ cf ≤ 'h' ∧ '1' ≤ cr ∧ cr ≤ '8' then
      some ((cr.toNat - '1'.toNat) * 8 + (cf.toNat - 'a'.toNat))
    else none
  | _ => none

def whitePiecesString : List Char := ['P', 'N', 'B', 'R', 'Q', 'K']
def blackPiecesString : List Char := ['p', 'n', 'b', 'r', 'q', 'k']

def pieceTypeOfIdx (i : Nat) : PieceType :=
  match i with
  | 0 => PAWN | 1 => KNIGHT | 2 => BISHOP | 3 => ROOK | 4 => QUEEN | 5 => KING
  | _ => NO_PIECE_TYPE

/-- One placement character of the FEN board field, acting on the pair of the
board under construction and the running square counter. -/
def placeChar (st : Board × Nat) (c : Char) : Board × Nat :=
  let b := st.1
  let square := st.2
  match whitePiecesString.indexOf? c with
  | some ti =>
    let bb := sqbb square
    let t := pieceTypeOfIdx ti
    ({ b with bitboards := updBB b.bitboards WHITE t (b.bitboards WHITE t ||| bb),
              occ_white := b.occ_white ||| bb,
              occ_both := b.occ_both ||| bb,
              mailbox := updMB b.mailbox square ⟨t, WHITE⟩ }, square + 1)
  | none =>
    match blackPiecesString.indexOf? c with
    | some ti =>
      let bb := sqbb square
      let t := pieceTypeOfIdx ti
      ({ b with bitboards := updBB b.bitboards BLACK t (b.bitboards BLACK t ||| bb),
                occ_black := b.occ_black ||| bb,
                occ_both := b.occ_both ||| bb,
                mailbox := updMB b.mailbox square ⟨t, BLACK⟩ }, square + 1)
    | none =>
      let empty_squares := c.toNat - '0'.toNat
      ((List.range empty_squares).foldl
        (fun b2 i => { b2 with mailbox := updMB b2.mailbox (square + i) ⟨NO_PIECE_TYPE, WHITE⟩ })
        b, square + empty_squares)

/-- `Board::setup_with_fen`.  C++ exceptions (`std::stoi`, `SquareMap.at`)
are modelled with `Except Unit`; fewer than six fields returns early with the
board untouched. -/
def Board.setup_with_fen (b : Board) (fen : String) : Except Unit Board :=
  let tokens := cppSplit fen ' '
  if tokens.length < 6 then .ok b
  else
    let ranks := (cppSplit (tokens.getD 0 "") '/').reverse
    let chars := ranks.flatMap String.data
    let b := (chars.foldl placeChar (b, 0)).1
    let b := { b with player_to_move := if tokens.getD 1 "" = "w" then WHITE else BLACK }
    let cr := (tokens.getD 2 "").data.foldl
      (fun (cr : CastlingRights) c =>
        if c = 'K' then { cr with white_king_side := true }
        else if c = 'Q' then { cr with white_queen_side := true }
        else if c = 'k' then { cr with black_king_side := true }
        else if c = 'q' then { cr with black_queen_side := true }
        else cr)
      ⟨false, false, false, false⟩
    let b := { b with castling_rights := cr, game_ply := 0 }
    match cppStoi (tokens.getD 4 "") with
    | none => .error ()
    | some hm =>
      match cppStoi (tokens.getD 5 "") with
      | none => .error ()
      | some fm =>
        let b := { b with halfmove_clock := hm,
                          full_move_counter := (fm % 2 ^ 16).toNat }
        let epRes : Except Unit Nat :=
          if tokens.getD 3 "" = "-" then .ok NO_SQUARE
          else match squareMapAt (tokens.getD 3 "") with
               | some sq => .ok sq
               | none => .error ()
        match epRes with
        | .error () => .error ()
        | .ok ep =>
          let h0 := b.history 0
          let fr := { h0 with epsq := ep, castling_rights := b.castling_rights, halfmove_clock := b.halfmove_clock, full_move_counter := b.full_move_counter }
          .ok { b with history := updHist b.history 0 fr }

/-! ## Evaluation (Search.cpp): material values and piece-square tables. -/

def PIECE_VALUE : PieceType → Int
  | PAWN => 100
  | KNIGHT => 320
  | BISHOP => 330
  | ROOK => 500
  | QUEEN => 900
  | KING => 20000
  | NO_PIECE_TYPE => 0

def PAWN_PST : List Int :=
  [ 0,  0,  0,  0,  0,  0,  0,  0,
    5, 10, 10,-20,-20, 10, 10,  5,
    5, -5,-10,  0,  0,-10, -5,  5,
    0,  0,  0, 20, 20,  0,  0,  0,
    5,  5, 10, 25, 25, 10,  5,  5,
   10, 10, 20, 30, 30, 20, 10, 10,
   50, 50, 50, 50, 50, 50, 50, 50,
    0,  0,  0,  0,  0,  0,  0,  0]

def KNIGHT_PST : List Int :=
  [-50,-40,-30,-30,-30,-30,-40,-50,
   -40,-20,  0,  5,  5,  0,-20,-40,
   -30,  5, 10, 15, 15, 10,  5,-30,
   -30,  0, 15, 20, 20, 15,  0,-30,
   -30,  5, 15, 20, 20, 15,  5,-30,
   -30,  0, 10, 15, 15, 10,  0,-30,
   -40,-20,  0,  0,  0,  0,-20,-40,
   -50,-40,-30,-30,-30,-30,-40,-50]

def BISHOP_PST : List Int :=
  [-20,-10,-10,-10,-10,-10,-10,-20,
   -10,  5,  0,  0,  0,  0,  5,-10,
   -10, 10, 10, 10, 10, 10, 10,-10,
   -10,  0, 10, 10, 10, 10,  0,-10,
   -10,  5,  5, 10, 10,  5,  5,-10,
   -10,  0,  5, 10, 10,  5,  0,-10,
   -10,  0,  0,  0,  0,  0,  0,-10,
   -20,-10,-10,-10,-10,-10,-10,-20]

def ROOK_PST : List Int :=
  [  0,  0,  0,  5,  5,  0,  0,  0,
    -5,  0,  0,  0,  0,  0,  0, -5,
    -5,  0,  0,  0,  0,  0,  0, -5,
    -5,  0,  0,  0,  0,  0,  0, -5,
    -5,  0,  0,  0,  0,  0,  0, -5,
    -5,  0,  0,  0,  0,  0,  0, -5,
     5, 10, 10, 10, 10, 10, 10,  5,
     0,  0,  0,  0,  0,  0,  0,  0]

def QUEEN_PST : List Int :=
  [-20,-10,-10, -5, -5,-10,-10,-20,
   -10,  0,  5,  0,  0,  0,  0,-10,
   -10,  5,  5,  5,  5,  5,  0,-10,
     0,  0,  5,  5,  5,  5,  0, -5,
    -5,  0,  5,  5,  5,  5,  0, -5,
   -10,  0,  5,  5,  5,  5,  0,-10,
   -10,  0,  0,  0,  0,  0,  0,-10,
   -20,-10,-10, -5, -5,-10,-10,-20]

def KING_PST : List Int :=
  [ 20, 30, 10,  0,  0, 10, 30, 20,
    20, 20,  0,  0,  0,  0, 20, 20,
   -10,-20,-20,-20,-20,-20,-20,-10,
   -20,-30,-30,-40,-40,-30,-30,-20,
   -30,-40,-40,-50,-50,-40,-40,-30,
   -30,-40,-40,-50,-50,-40,-40,-30,
   -30,-40,-40,-50,-50,-40,-40,-30,
   -30,-40,-40,-50,-50,-40,-40,-30]

/-- `PST[pt][sq]`. -/
def pstTable (pt : PieceType) (sq : Nat) : Int :=
  (match pt with
   | PAWN => PAWN_PST
   | KNIGHT => KNIGHT_PST
   | BISHOP => BISHOP_PST
   | ROOK => ROOK_PST
   | QUEEN => QUEEN_PST
   | KING => KING_PST
   | NO_PIECE_TYPE => []).getD sq 0

/-- `flip_square` (mirror a square vertically). -/
def flip_square (s : Nat) : Nat := s ^^^ 56

/-- `evaluate(board, 0)`: the static evaluation with `noise = 0` (the noise
branch adds nothing). -/
def evaluate (b : Board) : Int :=
  let score := (List.range 64).foldl
    (fun score sq =>
      let pt := b.get_piece_type_on_square sq
      if pt = NO_PIECE_TYPE then score
      else
        let c := b.get_piece_color_on_square sq
        let pst_sq := if c = WHITE then sq else flip_square sq
        let value := PIECE_VALUE pt + pstTable pt pst_sq
        if c = WHITE then score + value else score - value)
    0
  if b.get_player_to_move = WHITE then score else -score

/-- `evaluate(board, noise)` with the `rand()` draw of the noise branch made
explicit as the argument `r`. -/
def evaluateN (b : Board) (noise : Int) (r : Nat) : Int :=
  evaluate b + (if noise > 0 then (r : Int) % (noise * 2 + 1) - noise else 0)

/-! ## Transposition table (Search.h / Search.cpp). -/

inductive TTFlag : Type where
  | TT_EXACT | TT_ALPHA | TT_BETA
deriving DecidableEq, Repr

open TTFlag

/-- Two's-complement truncation to `int16_t`. -/
def i16 (z : Int) : Int :=
  let m := z % 65536
  if 32768 ≤ m then m - 65536 else m

/-- Two's-complement truncation to `int8_t`. -/
def i8 (z : Int) : Int :=
  let m := z % 256
  if 128 ≤ m then m - 256 else m

/-- A table entry; `score` and `depth` hold the already-truncated `int16_t` /
`int8_t` payloads.  The zero-initialised static array gives the default. -/
structure TTEntry : Type where
  key : Nat := 0
  score : Int := 0
  depth : Int := 0
  best_move_raw : Nat := 0
  flag : TTFlag := TT_EXACT
deriving DecidableEq, Repr

def TT_SIZE : Nat := 2 ^ 24

abbrev TTable := Nat → TTEntry

def ttEmpty : TTable := fun _ => {}

def tt_index (key : Nat) : Nat := key &&& (TT_SIZE - 1)

def updTT (tt : TTable) (i : Nat) (e : TTEntry) : TTable :=
  fun j => if j = i then e else tt j

/-- `tt_store`. -/
def tt_store (tt : TTable) (key : Nat) (score : Int) (depth : Int) (best : Move)
    (flag : TTFlag) (ply : Nat) : TTable :=
  let stored_score : Int :=
    if score > 90000 then score + ply
    else if score < -90000 then score - ply
    else score
  let e := tt (tt_index key)
  if e.key ≠ key ∨ depth ≥ e.depth then
    updTT tt (tt_index key)
      ⟨key, i16 stored_score, i8 depth, best.to_from, flag⟩
  else tt

/-- `tt_probe`: the pair of the usable score (when the entry applies) and the
hash move (set whenever the key matches, else the caller's default `Move()`). -/
def tt_probe (tt : TTable) (key : Nat) (depth : Int) (alpha beta : Int)
    (ply : Nat) : Option Int × Move :=
  let e := tt (tt_index key)
  if e.key ≠ key then (none, nullMove)
  else
    let hash_move : Move := ⟨e.best_move_raw⟩
    if e.depth < depth then (none, hash_move)
    else
      let tt_score :=
        if e.score > 90000 then e.score - ply
        else if e.score < -90000 then e.score + ply
        else e.score
      if e.flag = TT_EXACT then (some tt_score, hash_move)
      else if e.flag = TT_BETA ∧ tt_score ≥ beta then (some tt_score, hash_move)
      else if e.flag = TT_ALPHA ∧ tt_score ≤ alpha then (some tt_score, hash_move)
      else (none, hash_move)

/-! ## Zobrist hashing and null moves.

`Board.h` declares `get_hash`, `make_null_move`, `undo_null_move` and
`has_non_pawn_material`, but their implementations are not in the sources;
they are modelled from the spec. -/

/-- Modelled from the spec: the fixed table of pseudo-random Zobrist keys
(one per (color, kind, square), one for black-to-move, one per castling
right, one per en-passant file); the values themselves are unspecified, so
the whole development is parametric in them. -/
structure ZKeys : Type where
  pieceKey : Color → PieceType → Nat → Nat
  blackKey : Nat
  castleWK : Nat
  castleWQ : Nat
  castleBK : Nat
  castleBQ : Nat
  epKey : Nat → Nat

/-- Modelled from the spec: `Board::get_hash` — the xor of the Zobrist keys
of every occupant, the side key when black is to move, the keys of the set
castling rights, and the en-passant-file key when the target is set (the
incrementally maintained hash equals this recomputation, spec §8 item 2). -/
def zhash (zk : ZKeys) (b : Board) : Nat :=
  let h := (List.range 64).foldl
    (fun h sq =>
      let p := b.mailbox sq
      if p.type ≠ NO_PIECE_TYPE then h ^^^ zk.pieceKey p.color p.type sq else h)
    0
  let h := if b.player_to_move = BLACK then h ^^^ zk.blackKey else h
  let h := if b.castling_rights.white_king_side then h ^^^ zk.castleWK else h
  let h := if b.castling_rights.white_queen_side then h ^^^ zk.castleWQ else h
  let h := if b.castling_rights.black_king_side then h ^^^ zk.castleBK else h
  let h := if b.castling_rights.black_queen_side then h ^^^ zk.castleBQ else h
  let ep := (b.history b.game_ply).epsq
  if ep ≠ NO_SQUARE then h ^^^ zk.epKey (ep % 8) else h

/-- Modelled from the spec: `Board::has_non_pawn_material` — whether the side
has any piece besides pawns and the king. -/
def Board.has_non_pawn_material (b : Board) (c : Color) : Bool :=
  (b.bitboards c KNIGHT ||| b.bitboards c BISHOP |||
   b.bitboards c ROOK ||| b.bitboards c QUEEN) ≠ 0

/-- Modelled from the spec: `Board::make_null_move` — push a history frame
with a cleared en-passant target, flip the side to move, bump the ply (the
hash side-key toggle is implicit in `zhash` of the flipped position).  In the
pure embedding the matching `undo_null_move` is not needed: the caller keeps
the original board. -/
def Board.make_null_move (b : Board) : Board :=
  let g := b.game_ply + 1
  let fr := { (b.history (g - 1)).copyEntry with
              epsq := NO_SQUARE, castling_rights := b.castling_rights,
              halfmove_clock := b.halfmove_clock,
              full_move_counter := b.full_move_counter }
  { b with game_ply := g, history := updHist b.history g fr,
           player_to_move := b.player_to_move.other }

/-! ## Search context and move ordering (Search.cpp). -/

/-- `SearchContext` (nodes, killers, history scores, path hashes) together
with the process-wide transposition-table array, threaded as one state. -/
structure SState : Type where
  nodes : Nat
  killers : Nat → Move × Move
  hist : Color → Nat → Nat → Int
  path_hashes : Nat → Nat
  tt : TTable

def updKillers (k : Nat → Move × Move) (i : Nat) (v : Move × Move) :
    Nat → Move × Move :=
  fun j => if j = i then v else k j

def updHistScore (h : Color → Nat → Nat → Int) (c : Color) (f t : Nat)
    (v : Int) : Color → Nat → Nat → Int :=
  fun c2 f2 t2 => if c2 = c ∧ f2 = f ∧ t2 = t then v else h c2 f2 t2

def updPath (p : Nat → Nat) (i : Nat) (v : Nat) : Nat → Nat :=
  fun j => if j = i then v else p j

/-- `score_move`. -/
def score_move (m : Move) (b : Board) (st : SState) (ply : Nat)
    (hash_move : Move) : Int :=
  if m.to_from = hash_move.to_from ∧ hash_move.to_from ≠ 0 then 10000000
  else if m.is_capture then
    let attacker := b.get_piece_type_on_square m.fromSq
    let victim := b.get_piece_type_on_square m.toSq
    let victim := if victim = NO_PIECE_TYPE then PAWN else victim
    1000000 + PIECE_VALUE victim - PIECE_VALUE attacker
  else if ply < 64 ∧ m.to_from = (st.killers ply).1.to_from then 900000
  else if ply < 64 ∧ m.to_from = (st.killers ply).2.to_from then 800000
  else st.hist b.player_to_move m.fromSq m.toSq

/-- The inner scan of the selection sort: the index of the first occurrence
of the maximal score. -/
def findBestIdx (l : List (Move × Int)) : Nat :=
  (l.enum.foldl
    (fun acc p => if p.2.2 > acc.2 then (p.1, p.2.2) else acc)
    (0, (l.headD (nullMove, 0)).2)).1

/-- `order_moves_scored`: selection sort, swapping the segment head with the
first maximal element (the displaced head lands at that element's slot). -/
def selSortGo : Nat → List (Move × Int) → List (Move × Int)
  | 0, l => l
  | _ + 1, [] => []
  | fuel + 1, x :: xs =>
    let pairs := x :: xs
    let bi := findBestIdx pairs
    if bi = 0 then x :: selSortGo fuel xs
    else
      let y := pairs.getD bi x
      y :: selSortGo fuel ((pairs.set bi x).drop 1)

def order_moves_scored (l : List (Move × Int)) : List (Move × Int) :=
  selSortGo l.length l

/-! ## Quiescence search (Search.cpp, noise = 0). -/

def DELTA_MARGIN : Int := 900

/-- The MVV-LVA score of a capture in `quiescence_search`. -/
def qCaptureScore (b : Board) (m : Move) : Int :=
  let attacker := b.get_piece_type_on_square m.fromSq
  let victim := b.get_piece_type_on_square m.toSq
  let victim := if victim = NO_PIECE_TYPE then PAWN else victim
  PIECE_VALUE victim - PIECE_VALUE attacker

/-- One step of the quiescence capture loop, over the accumulator
`(alpha, state, done)`; `done` models the early `return beta` and `recur` is
the recursive quiescence call. -/
def qStep (recur : Board → Int → Int → SState → Option (Int × SState))
    (b : Board) (beta : Int) (acc : Option (Int × SState × Bool)) (m : Move) :
    Option (Int × SState × Bool) :=
  match acc with
  | none => none
  | some (alpha, st, done) =>
    if done then some (alpha, st, done)
    else
      match recur (b.move m) (-beta) (-alpha) st with
      | none => none
      | some (s, st2) =>
        let score := -s
        if score ≥ beta then some (beta, st2, true)
        else if score > alpha then some (score, st2, false)
        else some (alpha, st2, false)

/-- `quiescence_search` with a fuel bound on the recursion depth (the C++
recursion is bounded by the finite capture chains of a real game; `none`
means the fuel ran out). -/
def quiescence : Nat → Board → Int → Int → SState → Option (Int × SState)
  | 0, _, _, _, _ => none
  | fuel + 1, b, alpha, beta, st =>
    let st := { st with nodes := st.nodes + 1 }
    let stand_pat := evaluate b
    if stand_pat ≥ beta then some (beta, st)
    else
      let alpha := if stand_pat > alpha then stand_pat else alpha
      if stand_pat + DELTA_MARGIN < alpha then some (alpha, st)
      else
        let captures := b.get_legal_captures
        let scored := captures.map (fun m => (m, qCaptureScore b m))
        let ordered := (order_moves_scored scored).map Prod.fst
        let res := ordered.foldl
          (qStep (fun b2 a2 b3 st2 => quiescence fuel b2 a2 b3 st2) b beta)
          (some (alpha, st, false))
        res.map (fun r => (r.1, r.2.1))

/-! ## Negamax (Search.cpp). -/

/-- The in-search repetition scan: indices `ply - 2, ply - 4, …, 0` of the
path-hash array, compared against the current hash. -/
def pathRepeat (ph : Nat → Nat) : Nat → Nat → Bool
  | 0, _ => false
  | 1, _ => false
  | n + 2, h => (ph n == h) || pathRepeat ph n h

def INT_MIN : Int := -2147483648

def INT_MAX : Int := 2147483647

/-- The per-move loop state of `negamax`: current alpha, best score, best
move, TT flag, search state, and whether a beta cutoff broke the loop. -/
structure NMLoop : Type where
  alpha : Int
  best : Int
  best_move : Move
  tt_flag : TTFlag
  st : SState
  done : Bool

/-- The PVS search of one move in the negamax loop: full window for the
first move, else a null-window probe with the LMR reduction, the full-depth
re-search after a reduced fail-high, and the full-window re-search; `recur`
is the recursive negamax call. -/
def nmSearched
    (recur : Board → Int → Int → Int → SState → Nat → Bool → Option (Int × SState))
    (b : Board) (depth beta : Int) (in_check : Bool) (ply : Nat)
    (l : NMLoop) (p : Nat × Move) : Option (Int × SState) :=
  let i := p.1
  let m := p.2
  let is_capture := m.is_capture
  let is_killer := ply < 64 ∧
    (m.to_from = (l.st.killers ply).1.to_from ∨
     m.to_from = (l.st.killers ply).2.to_from)
  let b2 := b.move m
  let gives_check := b2.is_in_check b2.player_to_move
  let do_lmr := i ≥ 3 ∧ depth ≥ 3 ∧ ¬in_check ∧
    ¬is_capture ∧ ¬is_killer ∧ ¬gives_check
  let reduction : Int := if do_lmr then (if i ≥ 6 then 2 else 1) else 0
  if i = 0 then
    match recur b2 (depth - 1) (-beta) (-l.alpha) l.st (ply + 1) false with
    | none => none
    | some (s, st2) => some (-s, st2)
  else
    match recur b2 (depth - 1 - reduction) (-l.alpha - 1) (-l.alpha) l.st
        (ply + 1) false with
    | none => none
    | some (s1, st1) =>
      let score := -s1
      let step2 : Option (Int × SState) :=
        if reduction > 0 ∧ score > l.alpha then
          match recur b2 (depth - 1) (-l.alpha - 1) (-l.alpha) st1
              (ply + 1) false with
          | none => none
          | some (s2, st2) => some (-s2, st2)
        else some (score, st1)
      match step2 with
      | none => none
      | some (score, st2) =>
        if score > l.alpha ∧ score < beta then
          match recur b2 (depth - 1) (-beta) (-l.alpha) st2 (ply + 1) false with
          | none => none
          | some (s3, st3) => some (-s3, st3)
        else some (score, st2)

/-- The post-search bookkeeping of one negamax loop step: track best score
and move, raise alpha, and on a beta cutoff set the TT flag, promote the
killers and bump the history score of a quiet move, and mark the loop done. -/
def nmUpdate (b : Board) (depth beta : Int) (ply : Nat) (l : NMLoop) (m : Move)
    (score : Int) (st2 : SState) : NMLoop :=
  let is_capture := m.is_capture
  let best := if score > l.best then score else l.best
  let best_move := if score > l.best then m else l.best_move
  let alpha2 := if score > l.alpha then score else l.alpha
  let tt_flag := if score > l.alpha then TT_EXACT else l.tt_flag
  if alpha2 ≥ beta then
    let st3 :=
      if ¬is_capture ∧ ply < 64 then
        let k := st2.killers ply
        let k2 := if m.to_from ≠ k.1.to_from then (m, k.1) else k
        let st2 := { st2 with killers := updKillers st2.killers ply k2 }
        let mover := b.player_to_move
        let bonus := depth * depth
        let h0 := st2.hist mover m.fromSq m.toSq + bonus
        let h1 := if h0 > 1000000 then 1000000 else h0
        { st2 with hist := updHistScore st2.hist mover m.fromSq m.toSq h1 }
      else st2
    ⟨alpha2, best, best_move, TT_BETA, st3, true⟩
  else ⟨alpha2, best, best_move, tt_flag, st2, false⟩

/-- One step of the negamax move loop over the indexed move list. -/
def nmStep (recur : Board → Int → Int → Int → SState → Nat → Bool → Option (Int × SState))
    (b : Board) (depth beta : Int) (in_check : Bool) (ply : Nat)
    (acc : Option NMLoop) (p : Nat × Move) : Option NMLoop :=
  match acc with
  | none => none
  | some l =>
    if l.done then some l
    else
      match nmSearched recur b depth beta in_check ply l p with
      | none => none
      | some (score, st2) => some (nmUpdate b depth beta ply l p.2 score st2)

/-- `negamax` with an explicit fuel bound on the recursion (the C++ recursion
is bounded by depth plus check extensions plus quiescence; `none` means the
fuel ran out).  Noise is 0 (the only configuration the claims exercise). -/
def negamax (zk : ZKeys) : Nat → Board → Int → Int → Int → SState → Nat →
    Bool → Option (Int × SState)
  | 0, _, _, _, _, _, _, _ => none
  | fuel + 1, b, depth, alpha, beta, st, ply, no_null =>
    let in_check := b.is_in_check b.player_to_move
    if depth ≤ 0 ∧ ¬in_check then quiescence fuel b alpha beta st
    else
      let depth := if depth ≤ 0 ∧ in_check then 1 else depth
      let st := { st with nodes := st.nodes + 1 }
      let is_pv := beta - alpha > 1
      let hash := zhash zk b
      if pathRepeat st.path_hashes ply hash then some (0, st)
      else
        let st := { st with path_hashes := updPath st.path_hashes ply hash }
        if b.halfmove_clock ≥ 100 ∨ b.is_insufficient_material then some (0, st)
        else
          let probe := tt_probe st.tt hash depth alpha beta ply
          match probe.1 with
          | some tt_score => some (tt_score, st)
          | none =>
            let hash_move := probe.2
            -- null-move pruning: on a cutoff return beta, otherwise continue
            -- with the context as mutated by the null-window search
            let nullStep : Option (Except (Int × SState) SState) :=
              if ¬in_check ∧ depth ≥ 3 ∧ ¬is_pv ∧ ¬no_null ∧
                 b.has_non_pawn_material b.player_to_move then
                match negamax zk fuel b.make_null_move (depth - 1 - 3) (-beta)
                    (-beta + 1) st (ply + 1) true with
                | none => none
                | some (s, st2) =>
                  let null_score := -s
                  if null_score ≥ beta then some (.error (beta, st2))
                  else some (.ok st2)
              else some (.ok st)
            match nullStep with
            | none => none
            | some (.error r) => some r
            | some (.ok st) =>
              let moves := b.get_legal_moves
              if moves.length = 0 then
                if in_check then some (-100000 + ply, st) else some (0, st)
              else
                let scored := moves.map (fun m => (m, score_move m b st ply hash_move))
                let ordered := (order_moves_scored scored).map Prod.fst
                let init : NMLoop :=
                  ⟨alpha, INT_MIN, ordered.headD nullMove, TT_ALPHA, st, false⟩
                let looped := ordered.enum.foldl
                  (nmStep (fun b2 d2 a2 b3 st2 p2 n2 => negamax zk fuel b2 d2 a2 b3 st2 p2 n2)
                    b depth beta in_check ply)
                  (some init)
                match looped with
                | none => none
                | some l =>
                  let tt2 := tt_store l.st.tt hash l.best depth l.best_move l.tt_flag ply
                  some (l.best, { l.st with tt := tt2 })

/-! ## Top-level iterative deepening (Search.cpp `search`). -/

structure SearchResult : Type where
  best_move : Move
  score : Int
  nodes : Nat
deriving DecidableEq, Repr

/-- One step of the root move loop: PVS over an indexed root move with no
beta cutoff (beta stays `INT_MAX`), carrying
`(alpha, best_score, best_move, state)`. -/
def rootStep (zk : ZKeys) (fuel : Nat) (b : Board) (d beta : Int)
    (acc : Option (Int × Int × Move × SState)) (p : Nat × Move) :
    Option (Int × Int × Move × SState) :=
  match acc with
  | none => none
  | some (alpha, best_score, best_move, st) =>
    let i := p.1
    let m := p.2
    let b2 := b.move m
    let searched : Option (Int × SState) :=
      if i = 0 then
        match negamax zk fuel b2 (d - 1) (-beta) (-alpha) st 1 false with
        | none => none
        | some (s, st2) => some (-s, st2)
      else
        match negamax zk fuel b2 (d - 1) (-alpha - 1) (-alpha) st 1 false with
        | none => none
        | some (s1, st1) =>
          let score := -s1
          if score > alpha ∧ score < beta then
            match negamax zk fuel b2 (d - 1) (-beta) (-alpha) st1 1 false with
            | none => none
            | some (s2, st2) => some (-s2, st2)
          else some (score, st1)
    match searched with
    | none => none
    | some (score, st2) =>
      let best_score2 := if score > best_score then score else best_score
      let best_move2 := if score > best_score then m else best_move
      let alpha2 := if score > alpha then score else alpha
      some (alpha2, best_score2, best_move2, st2)

/-- The root loop of one deepening iteration. -/
def rootLoop (zk : ZKeys) (fuel : Nat) (b : Board) (d : Int) (beta : Int)
    (ordered : List Move) (alpha0 : Int) (best_move0 : Move) (st0 : SState) :
    Option (Int × Int × Move × SState) :=
  ordered.enum.foldl (rootStep zk fuel b d beta)
    (some (alpha0, INT_MIN, best_move0, st0))

/-- One iteration of the deepening loop (`d = dIdx + 1`): reset the node
counter, reorder the root moves with the hash move from the table, run the
root loop, accumulate the node count and store the root entry. -/
def idStep (zk : ZKeys) (fuel : Nat) (b : Board)
    (acc : Option (List Move × SearchResult × SState)) (dIdx : Nat) :
    Option (List Move × SearchResult × SState) :=
  match acc with
  | none => none
  | some (moves, res, st) =>
    let d : Int := (dIdx : Int) + 1
    let st := { st with nodes := 0 }
    let alpha := INT_MIN + 1
    let beta := INT_MAX
    let best_move0 := moves.headD nullMove
    let hash := zhash zk b
    let hash_move := (tt_probe st.tt hash 0 alpha beta 0).2
    let scored := moves.map (fun m => (m, score_move m b st 0 hash_move))
    let ordered := (order_moves_scored scored).map Prod.fst
    match rootLoop zk fuel b d beta ordered alpha best_move0 st with
    | none => none
    | some (_, best_score, best_move, st2) =>
      let res2 : SearchResult := ⟨best_move, best_score, res.nodes + st2.nodes⟩
      let st3 := { st2 with tt := tt_store st2.tt hash best_score d best_move TT_EXACT 0 }
      some (ordered, res2, st3)

/-- `search(board, depth, 0)`: iterative deepening.  The root move array is
reordered in place each iteration and persists across iterations, as does
the transposition table; the per-search context is created fresh with the
root hash seeded into `path_hashes[0]`. -/
def searchFn (zk : ZKeys) (fuel : Nat) (b : Board) (depth : Nat)
    (tt0 : TTable) : Option (SearchResult × TTable) :=
  let moves0 := b.get_legal_moves
  if moves0.length = 0 then
    some (⟨nullMove, if b.is_in_check b.player_to_move then -100000 else 0, 0⟩, tt0)
  else
    let st0 : SState :=
      { nodes := 0, killers := fun _ => (nullMove, nullMove),
        hist := fun _ _ _ => 0,
        path_hashes := updPath (fun _ => 0) 0 (zhash zk b),
        tt := tt0 }
    match (List.range depth).foldl (idStep zk fuel b)
        (some (moves0, ⟨nullMove, INT_MIN, 0⟩, st0)) with
    | none => none
    | some (_, res, st) => some (res, st.tt)

/-! ## Opening book (Search.cpp). -/

def OPENING_BOOK : List (String × List String) :=
  [("rnbqkbnr/pppppppp/8/8/8/8/PPPPPPPP/RNBQKBNR w KQkq -",
    ["e2e4", "d2d4", "g1f3", "c2c4"]),
   ("rnbqkbnr/pppppppp/8/8/4P3/8/PPPP1PPP/RNBQKBNR b KQkq -",
    ["e7e5", "c7c5", "e7e6", "d7d5", "g8f6", "d7d6"]),
   ("rnbqkbnr/pppppppp/8/8/3P4/8/PPP1PPPP/RNBQKBNR b KQkq -",
    ["d7d5", "g8f6", "e7e6", "g7g6"]),
   ("rnbqkbnr/pppppppp/8/8/8/5N2/PPPPPPPP/RNBQKB1R b KQkq -",
    ["d7d5", "g8f6", "c7c5"]),
   ("rnbqkbnr/pppppppp/8/8/2P5/8/PP1PPPPP/RNBQKBNR b KQkq -",
    ["e7e5", "g8f6", "c7c5"]),
   ("rnbqkbnr/pppp1ppp/8/4p3/4P3/8/PPPP1PPP/RNBQKBNR w KQkq -",
    ["g1f3", "f1c4", "b1c3"]),
   ("rnbqkbnr/pppp1ppp/8/4p3/4P3/5N2/PPPP1PPP/RNBQKB1R b KQkq -",
    ["b8c6", "g8f6", "d7d6"]),
   ("r1bqkbnr/pppp1ppp/2n5/4p3/4P3/5N2/PPPP1PPP/RNBQKB1R w KQkq -",
    ["f1b5", "f1c4", "d2d4"]),
   ("r1bqkbnr/pppp1ppp/2n5/4p3/2B1P3/5N2/PPPP1PPP/RNBQK2R b KQkq -",
    ["f8c5", "g8f6"]),
   ("r1bqkbnr/pppp1ppp/2n5/1B2p3/4P3/5N2/PPPP1PPP/RNBQK2R b KQkq -",
    ["a7a6", "g8f6", "d7d6"]),
   ("rnbqkbnr/pp1ppppp/8/2p5/4P3/8/PPPP1PPP/RNBQKBNR w KQkq -",
    ["g1f3", "b1c3", "c2c3"]),
   ("rnbqkbnr/pp1ppppp/8/2p5/4P3/5N2/PPPP1PPP/RNBQKB1R b KQkq -",
    ["d7d6", "b8c6", "e7e6"]),
   ("rnbqkbnr/pp2pppp/3p4/2p5/4P3/5N2/PPPP1PPP/RNBQKB1R w KQkq -",
    ["d2d4"]),
   ("r1bqkbnr/pp1ppppp/2n5/2p5/4P3/5N2/PPPP1PPP/RNBQKB1R w KQkq -",
    ["d2d4", "f1b5"]),
   ("rnbqkbnr/pp1p1ppp/4p3/2p5/4P3/5N2/PPPP1PPP/RNBQKB1R w KQkq -",
    ["d2d4"]),
   ("rnbqkbnr/pppp1ppp/4p3/8/4P3/8/PPPP1PPP/RNBQKBNR w KQkq -",
    ["d2d4", "g1f3"]),
   ("rnbqkbnr/pppp1ppp/4p3/8/3PP3/8/PPP2PPP/RNBQKBNR b KQkq -",
    ["d7d5"]),
   ("rnbqkbnr/ppp1pppp/8/3p4/4P3/8/PPPP1PPP/RNBQKBNR w KQkq -",
    ["e4d5"]),
   ("rnbqkb1r/pppppppp/5n2/8/4P3/8/PPPP1PPP/RNBQKBNR w KQkq -",
    ["e4e5", "b1c3"]),
   ("rnbqkbnr/ppp1pppp/3p4/8/4P3/8/PPPP1PPP/RNBQKBNR w KQkq -",
    ["d2d4", "g1f3"]),
   ("rnbqkbnr/ppp1pppp/8/3p4/3P4/8/PPP1PPPP/RNBQKBNR w KQkq -",
    ["c2c4", "g1f3", "c1f4"]),
   ("rnbqkbnr/ppp1pppp/8/3p4/2PP4/8/PP2PPPP/RNBQKBNR b KQkq -",
    ["e7e6", "c7c6", "d5c4"]),
   ("rnbqkbnr/ppp2ppp/4p3/3p4/2PP4/8/PP2PPPP/RNBQKBNR w KQkq -",
    ["b1c3", "g1f3"]),
   ("rnbqkbnr/pp2pppp/2p5/3p4/2PP4/8/PP2PPPP/RNBQKBNR w KQkq -",
    ["g1f3", "b1c3"]),
   ("rnbqkb1r/pppppppp/5n2/8/3P4/8/PPP1PPPP/RNBQKBNR w KQkq -",
    ["c2c4", "g1f3"]),
   ("rnbqkb1r/pppppppp/5n2/8/2PP4/8/PP2PPPP/RNBQKBNR b KQkq -",
    ["e7e6", "g7g6", "c7c5"]),
   ("rnbqkb1r/pppp1ppp/4pn2/8/2PP4/8/PP2PPPP/RNBQKBNR w KQkq -",
    ["b1c3", "g1f3", "g2g3"]),
   ("rnbqkb1r/pppppp1p/5np1/8/2PP4/8/PP2PPPP/RNBQKBNR w KQkq -",
    ["b1c3"]),
   ("rnbqkb1r/pppppp1p/5np1/8/2PP4/2N5/PP2PPPP/R1BQKBNR b KQkq -",
    ["f8g7"]),
   ("rnbqkbnr/pppp1ppp/4p3/8/3P4/8/PPP1PPPP/RNBQKBNR w KQkq -",
    ["c2c4", "g1f3", "e2e4"]),
   ("rnbqkbnr/pppppp1p/6p1/8/3P4/8/PPP1PPPP/RNBQKBNR w KQkq -",
    ["c2c4", "e2e4"]),
   ("rnbqkbnr/ppp1pppp/8/3p4/8/5N2/PPPPPPPP/RNBQKB1R w KQkq -",
    ["d2d4", "g2g3", "c2c4"]),
   ("rnbqkb1r/pppppppp/5n2/8/8/5N2/PPPPPPPP/RNBQKB1R w KQkq -",
    ["d2d4", "c2c4", "g2g3"]),
   ("rnbqkbnr/pppp1ppp/8/4p3/2P5/8/PP1PPPPP/RNBQKBNR w KQkq -",
    ["b1c3", "g2g3", "g1f3"]),
   ("rnbqkb1r/pppppppp/5n2/8/2P5/8/PP1PPPPP/RNBQKBNR w KQkq -",
    ["b1c3", "g1f3", "d2d4"]),
   ("rnbqkbnr/pp1ppppp/8/2p5/2P5/8/PP1PPPPP/RNBQKBNR w KQkq -",
    ["g1f3", "b1c3"])]

/-- `fen_position_key`: the prefix of the FEN before its fourth space, or the
whole string when it has fewer than four spaces. -/
def fen_position_key (fen : String) : String :=
  let spaceIdxs := (fen.data.enum.filter (fun p => p.2 = ' ')).map Prod.fst
  match spaceIdxs.get? 3 with
  | some i => String.mk (fen.data.take i)
  | none => fen

/-- `book_lookup` with the `std::rand()` draw made explicit as `r`; returns
the empty string on a miss. -/
def book_lookup (fen : String) (r : Nat) : String :=
  match OPENING_BOOK.find? (fun e => e.1 = fen_position_key fen) with
  | none => ""
  | some e => e.2.getD (r % e.2.length) ""

/-! ## The /search HTTP handler (engine `main`). -/

structure SearchResponse : Type where
  best_move : String
  score : Int
  depth : Int
  nodes : Nat
deriving DecidableEq, Repr

/-- The body of the `/search` route after JSON decoding: validate the depth,
parse the FEN (400 on failure), run `search`, and serialize the result.  The
opening book is not consulted anywhere on this path (`book_lookup` has no
caller).  `.error` is the HTTP 400 body; `none` inside `.ok` means the
search fuel ran out. -/
def searchHandler (zk : ZKeys) (fuel : Nat) (tt0 : TTable) (fen : String)
    (depth : Int) : Except String (Option SearchResponse) :=
  if depth < 1 ∨ depth > 20 then .error "depth must be 1-20"
  else
    match Board.init.setup_with_fen fen with
    | .error () => .error "failed to parse FEN"
    | .ok board =>
      .ok ((searchFn zk fuel board depth.toNat tt0).map (fun r =>
        ⟨r.1.best_move.to_uci, r.1.score, depth, r.1.nodes⟩))

/-! ## Position validity (the data-model invariants of the spec, §3).

`Board.move` / `Board.undo_move` are only exercised on positions reachable
from a parsed FEN; the round-trip theorem assumes the invariants such
positions satisfy: mailbox/bitboard/occupancy agreement, a well-formed
en-passant target, castling rights backed by king and rook on their home
squares, the history frame at `game_ply` in sync with the board fields, and
no pawns on the first or last rank. -/

/-- The union of the six per-kind bitboards of one color. -/
def bbUnion (b : Board) (c : Color) : Bitboard :=
  b.bitboards c PAWN ||| b.bitboards c KNIGHT ||| b.bitboards c BISHOP |||
  b.bitboards c ROOK ||| b.bitboards c QUEEN ||| b.bitboards c KING

/-- Mailbox/bitboard agreement at one square. -/
def AgreeAt (b : Board) (sq : Nat) : Prop :=
  ((b.mailbox sq).type = NO_PIECE_TYPE →
    ∀ c : Color, ∀ k : PieceType, (b.bitboards c k).testBit sq = false) ∧
  ((b.mailbox sq).type ≠ NO_PIECE_TYPE →
    ((b.bitboards (b.mailbox sq).color (b.mailbox sq).type).testBit sq = true ∧
     ∀ c : Color, ∀ k : PieceType,
       ¬(c = (b.mailbox sq).color ∧ k = (b.mailbox sq).type) →
       (b.bitboards c k).testBit sq = false))

/-- The en-passant invariant: the target (when set) is an empty square on the
third or sixth rank with the enemy pawn that just double-pushed behind it. -/
def EpOk (b : Board) : Prop :=
  (b.history b.game_ply).epsq = NO_SQUARE ∨
  (b.player_to_move = BLACK ∧ 16 ≤ (b.history b.game_ply).epsq ∧
    (b.history b.game_ply).epsq < 24 ∧
    b.mailbox ((b.history b.game_ply).epsq + 8) = ⟨PAWN, WHITE⟩ ∧
    (b.mailbox (b.history b.game_ply).epsq).type = NO_PIECE_TYPE) ∨
  (b.player_to_move = WHITE ∧ 40 ≤ (b.history b.game_ply).epsq ∧
    (b.history b.game_ply).epsq < 48 ∧
    b.mailbox ((b.history b.game_ply).epsq - 8) = ⟨PAWN, BLACK⟩ ∧
    (b.mailbox (b.history b.game_ply).epsq).type = NO_PIECE_TYPE)

/-- Castling rights are backed by the king and rook on their home squares. -/
def CastleHomeOk (b : Board) : Prop :=
  (b.castling_rights.white_king_side = true →
    b.mailbox e1 = ⟨KING, WHITE⟩ ∧ b.mailbox h1 = ⟨ROOK, WHITE⟩) ∧
  (b.castling_rights.white_queen_side = true →
    b.mailbox e1 = ⟨KING, WHITE⟩ ∧ b.mailbox a1 = ⟨ROOK, WHITE⟩) ∧
  (b.castling_rights.black_king_side = true →
    b.mailbox e8 = ⟨KING, BLACK⟩ ∧ b.mailbox h8 = ⟨ROOK, BLACK⟩) ∧
  (b.castling_rights.black_queen_side = true →
    b.mailbox e8 = ⟨KING, BLACK⟩ ∧ b.mailbox a8 = ⟨ROOK, BLACK⟩)

/-- The position invariants assumed by the make/unmake round trip. -/
def ValidPos (b : Board) : Prop :=
  (∀ c : Color, ∀ k : PieceType, b.bitboards c k < U64) ∧
  (∀ c : Color, b.bitboards c NO_PIECE_TYPE = 0) ∧
  (∀ sq, sq < 64 → AgreeAt b sq) ∧
  b.occ_white = bbUnion b WHITE ∧
  b.occ_black = bbUnion b BLACK ∧
  b.occ_both = (b.occ_white ||| b.occ_black) ∧
  (b.history b.game_ply).castling_rights = b.castling_rights ∧
  (b.history b.game_ply).halfmove_clock = b.halfmove_clock ∧
  (b.history b.game_ply).full_move_counter = b.full_move_counter ∧
  EpOk b ∧
  CastleHomeOk b ∧
  (∀ sq, sq < 64 → (sq < 8 ∨ 56 ≤ sq) → (b.mailbox sq).type ≠ PAWN)

instance (b : Board) (sq : Nat) : Decidable (AgreeAt b sq) := by
  unfold AgreeAt; infer_instance

instance (b : Board) : Decidable (EpOk b) := by
  unfold EpOk; infer_instance

instance (b : Board) : Decidable (CastleHomeOk b) := by
  unfold CastleHomeOk; infer_instance

instance (b : Board) : Decidable (ValidPos b) := by
  unfold ValidPos; infer_instance

/-- Round-trip agreement: the components `Board::undo_move` restores.  The
mailbox is compared through its `type` field only (`remove_piece` leaves the
removed piece's color behind in the `color` byte). -/
def RTEq (b b2 : Board) : Prop :=
  b2.bitboards = b.bitboards ∧
  b2.occ_white = b.occ_white ∧
  b2.occ_black = b.occ_black ∧
  b2.occ_both = b.occ_both ∧
  (∀ sq : Nat, (b2.mailbox sq).type = (b.mailbox sq).type) ∧
  b2.player_to_move = b.player_to_move ∧
  b2.castling_rights = b.castling_rights ∧
  b2.halfmove_clock = b.halfmove_clock ∧
  b2.full_move_counter = b.full_move_counter ∧
  b2.game_ply = b.game_ply ∧
  (b2.history b2.game_ply).epsq = (b.history b.game_ply).epsq

/-! ## Concrete positions and states used by the witnesses. -/

def START_FEN : String := "rnbqkbnr/pppppppp/8/8/8/8/PPPPPPPP/RNBQKBNR w KQkq - 0 1"

def BLACK_START_FEN : String := "rnbqkbnr/pppppppp/8/8/8/8/PPPPPPPP/RNBQKBNR b KQkq - 0 1"

/-- A checkmate: black to move, black king a8, white queen b7 guarded by
the white king on b6 — black has no legal moves and is in check. -/
def MATE_FEN : String := "k7/1Q6/1K6/8/8/8/8/8 b - - 0 1"

/-- A stalemate: black to move, black king h8, white queen f7, white king g6. -/
def STALE_FEN : String := "7k/5Q2/6K1/8/8/8/8/8 b - - 0 1"

def startBoard : Board :=
  (Board.init.setup_with_fen START_FEN).toOption.getD Board.init

def blackStartBoard : Board :=
  (Board.init.setup_with_fen BLACK_START_FEN).toOption.getD Board.init

def mateBoard : Board :=
  (Board.init.setup_with_fen MATE_FEN).toOption.getD Board.init

def staleBoard : Board :=
  (Board.init.setup_with_fen STALE_FEN).toOption.getD Board.init

/-- The castling position of spec scenario S4. -/
def castleBoard : Board :=
  (Board.init.setup_with_fen "r3k2r/8/8/8/8/8/8/R3K2R w KQkq - 0 1").toOption.getD Board.init

/-- A concrete (degenerate) choice of Zobrist keys for witnesses; every
parametric theorem also holds at it. -/
def zk0 : ZKeys := ⟨fun _ _ _ => 0, 0, 0, 0, 0, 0, fun _ => 0⟩

/-- A fresh search state over an empty transposition table. -/
def sstate0 : SState :=
  ⟨0, fun _ => (nullMove, nullMove), fun _ _ _ => 0, fun _ => 0, ttEmpty⟩

/-! ## Generic helper lemmas. -/

/-- A fold preserves an invariant that every step preserves. -/
theorem foldl_preserve {σ ι : Type} (P : σ → Prop) (f : σ → ι → σ) :
    ∀ (l : List ι) (s : σ), P s → (∀ s2 m, m ∈ l → P s2 → P (f s2 m)) →
    P (l.foldl f s) := by
  intro l
  induction l with
  | nil => intro s hs _; exact hs
  | cons x xs ih =>
    intro s hs hstep
    exact ih (f s x) (hstep s x (List.mem_cons_self x xs) hs)
      (fun s2 m hm => hstep s2 m (List.mem_cons_of_mem x hm))

/-- A fold of an add-shaped step over `List.range n` is the partial sum. -/
theorem foldl_range_add (f : Nat → Int) (g : Int → Nat → Int)
    (hg : ∀ a i, g a i = a + f i) :
    ∀ (n : Nat) (a : Int), (List.range n).foldl g a = a + ∑ i ∈ Finset.range n, f i := by
  intro n
  induction n with
  | zero => intro a; simp
  | succ n ih =>
    intro a
    rw [List.range_succ, List.foldl_append, List.foldl_cons, List.foldl_nil, ih, hg,
      Finset.sum_range_succ]
    ring

/-! ## C7 — static evaluation. -/

/-- C7: with noise = 0, static evaluation returns, for every position, the
sum over occupied squares of material value (pawn 100, knight 320, bishop
330, rook 500, queen 900, king 20000) plus the piece-square-table entry at
the square itself for white pieces and at the vertically mirrored square
(sq XOR 56) for black pieces, counted positive for white and negative for
black, negated when black is the side to move. -/
theorem c7_evaluate_noise0 :
    (PIECE_VALUE PAWN = 100 ∧ PIECE_VALUE KNIGHT = 320 ∧ PIECE_VALUE BISHOP = 330 ∧
     PIECE_VALUE ROOK = 500 ∧ PIECE_VALUE QUEEN = 900 ∧ PIECE_VALUE KING = 20000) ∧
    ∀ (b : Board) (r : Nat),
      evaluateN b 0 r =
        (if b.player_to_move = WHITE then 1 else -1) *
          ∑ sq ∈ Finset.range 64,
            (if (b.mailbox sq).type = NO_PIECE_TYPE then 0
             else (if (b.mailbox sq).color = WHITE then 1 else -1) *
               (PIECE_VALUE (b.mailbox sq).type +
                pstTable (b.mailbox sq).type
                  (if (b.mailbox sq).color = WHITE then sq else sq ^^^ 56))) := by
  refine ⟨⟨rfl, rfl, rfl, rfl, rfl, rfl⟩, ?_⟩
  intro b r
  have hnoise : evaluateN b 0 r = evaluate b := by
    simp [evaluateN]
  rw [hnoise]
  have hfold := foldl_range_add
    (fun sq =>
      if (b.mailbox sq).type = NO_PIECE_TYPE then 0
      else (if (b.mailbox sq).color = WHITE then 1 else -1) *
        (PIECE_VALUE (b.mailbox sq).type +
         pstTable (b.mailbox sq).type
           (if (b.mailbox sq).color = WHITE then sq else sq ^^^ 56)))
    (fun score sq =>
      let pt := b.get_piece_type_on_square sq
      if pt = NO_PIECE_TYPE then score
      else
        let c := b.get_piece_color_on_square sq
        let pst_sq := if c = WHITE then sq else flip_square sq
        let value := PIECE_VALUE pt + pstTable pt pst_sq
        if c = WHITE then score + value else score - value)
    (by
      intro a i
      simp only [Board.get_piece_type_on_square, Board.get_piece_color_on_square,
        flip_square]
      by_cases h1 : (b.mailbox i).type = NO_PIECE_TYPE
      · simp [h1]
      · by_cases h2 : (b.mailbox i).color = WHITE
        · simp only [if_neg h1, if_pos h2]
          ring
        · simp only [if_neg h1, if_neg h2]
          ring)
    64 0
  simp only [evaluate, Board.get_player_to_move]
  rw [hfold, zero_add]
  by_cases hw : b.player_to_move = WHITE
  · simp [hw]
  · simp [hw]

/-! ## C9 — short FEN strings are accepted silently. -/

/-- C9: when `setup_with_fen` is given a string with fewer than six
space-separated fields, it returns without throwing and leaves the board in
its default empty state; consequently the /search handler's catch-and-400
path for unparseable FEN is not taken for such input and the request
proceeds to search a board with no pieces. -/
theorem c9_short_fen_silently_ok (fen : String)
    (h : (cppSplit fen ' ').length < 6) (zk : ZKeys) (fuel : Nat) (tt0 : TTable)
    (depth : Int) (hd1 : 1 ≤ depth) (hd2 : depth ≤ 20) :
    (∀ b : Board, b.setup_with_fen fen = Except.ok b) ∧
    searchHandler zk fuel tt0 fen depth =
      .ok ((searchFn zk fuel Board.init depth.toNat tt0).map (fun r =>
        ⟨r.1.best_move.to_uci, r.1.score, depth, r.1.nodes⟩)) ∧
    Board.init.occ_both = 0 := by
  have hsetup : ∀ b : Board, b.setup_with_fen fen = Except.ok b := by
    intro b
    simp only [Board.setup_with_fen, if_pos h]
  refine ⟨hsetup, ?_, rfl⟩
  simp only [searchHandler]
  rw [if_neg (by omega), hsetup Board.init]

/-- C9 witness: the two-field input "abc def" reaches the search with the
empty default board. -/
theorem c9_witness :
    (∀ b : Board, b.setup_with_fen "abc def" = Except.ok b) ∧
    searchHandler zk0 5 ttEmpty "abc def" 4 =
      .ok ((searchFn zk0 5 Board.init (4 : Int).toNat ttEmpty).map (fun r =>
        ⟨r.1.best_move.to_uci, r.1.score, 4, r.1.nodes⟩)) ∧
    Board.init.occ_both = 0 :=
  c9_short_fen_silently_ok "abc def" (by decide) zk0 5 ttEmpty 4 (by norm_num)
    (by norm_num)

/-! ## C5 — the head of quiescence search. -/

/-- C5: quiescence search bumps the node counter, computes
`stand_pat = evaluate()`; if `stand_pat ≥ β` it returns β; otherwise it
raises α to `stand_pat` when `stand_pat > α`; and after that, if
`stand_pat + 900 < α` it returns α without examining any capture (the node
counter ends exactly one above its entry value and no recursion happens). -/
theorem c5_quiescence_head (b : Board) (alpha beta : Int) (st : SState) (fuel : Nat) :
    (evaluate b ≥ beta →
      quiescence (fuel + 1) b alpha beta st =
        some (beta, { st with nodes := st.nodes + 1 })) ∧
    (evaluate b < beta → evaluate b + 900 < alpha →
      quiescence (fuel + 1) b alpha beta st =
        some (alpha, { st with nodes := st.nodes + 1 })) ∧
    (alpha < evaluate b → evaluate b < beta →
      quiescence (fuel + 1) b alpha beta st =
        quiescence (fuel + 1) b (evaluate b) beta st) := by
  have hD : DELTA_MARGIN = 900 := rfl
  refine ⟨?_, ?_, ?_⟩
  · intro h
    simp only [quiescence]
    rw [if_pos h]
  · intro h1 h2
    have hna : ¬evaluate b > alpha := by omega
    simp only [quiescence, if_neg (show ¬evaluate b ≥ beta by omega), if_neg hna,
      if_pos (show evaluate b + DELTA_MARGIN < alpha by omega)]
  · intro h1 h2
    have hnb : ¬evaluate b ≥ beta := by omega
    have hself : ¬evaluate b > evaluate b := by omega
    simp only [quiescence, if_neg hnb, if_pos h1, if_neg hself]

/-- C5 witness: on the empty board with β = −10 the stand-pat cutoff fires
and the node counter is bumped once. -/
theorem c5_witness :
    evaluate Board.init ≥ -10 ∧
    quiescence 1 Board.init 0 (-10) sstate0 =
      some (-10, { sstate0 with nodes := sstate0.nodes + 1 }) :=
  ⟨by decide, (c5_quiescence_head Board.init 0 (-10) sstate0 0).1 (by decide)⟩

/-! ## C10 — quiescence search is fail-hard. -/

/-- The capture loop keeps its running alpha inside [alphaLow, beta] (strictly
below beta until a cutoff), provided the recursive call is fail-hard. -/
theorem qStep_bounds (recur : Board → Int → Int → SState → Option (Int × SState))
    (hrec : ∀ b2 a2 b3 st st2 s, a2 < b3 → recur b2 a2 b3 st = some (s, st2) →
      a2 ≤ s ∧ s ≤ b3)
    (b : Board) (beta alphaLow : Int) (l : List Move) :
    ∀ (acc : Option (Int × SState × Bool)),
      (∀ a stx d, acc = some (a, stx, d) →
        alphaLow ≤ a ∧ a ≤ beta ∧ (d = false → a < beta)) →
      ∀ a stx d, l.foldl (qStep recur b beta) acc = some (a, stx, d) →
        alphaLow ≤ a ∧ a ≤ beta ∧ (d = false → a < beta) := by
  induction l with
  | nil => intro acc hacc; simpa using hacc
  | cons m ms ih =>
    intro acc hacc
    rw [List.foldl_cons]
    apply ih
    intro a stx d h
    cases acc with
    | none => simp [qStep] at h
    | some t =>
      obtain ⟨a0, st0, d0⟩ := t
      obtain ⟨h1, h2, h3⟩ := hacc a0 st0 d0 rfl
      by_cases hd : d0 = true
      · subst hd
        simp only [qStep, if_pos rfl] at h
        obtain ⟨rfl, rfl, rfl⟩ : a0 = a ∧ st0 = stx ∧ true = d := by
          simpa using h
        exact ⟨h1, h2, fun hc => by cases hc⟩
      · have hd0 : d0 = false := by simpa using hd
        subst hd0
        have hlt : a0 < beta := h3 rfl
        simp only [qStep, Bool.false_eq_true, if_false] at h
        cases hrek : recur (b.move m) (-beta) (-a0) st0 with
        | none => rw [hrek] at h; simp at h
        | some pr =>
          obtain ⟨sres, st2⟩ := pr
          obtain ⟨hb1, hb2⟩ := hrec (b.move m) (-beta) (-a0) st0 st2 sres
            (by omega) hrek
          rw [hrek] at h
          dsimp only at h
          by_cases hc1 : -sres ≥ beta
          · rw [if_pos hc1] at h
            obtain ⟨rfl, rfl, rfl⟩ : beta = a ∧ st2 = stx ∧ true = d := by
              simpa using h
            exact ⟨by omega, le_refl _, fun hc => by cases hc⟩
          · rw [if_neg hc1] at h
            by_cases hc2 : -sres > a0
            · rw [if_pos hc2] at h
              obtain ⟨rfl, rfl, rfl⟩ : -sres = a ∧ st2 = stx ∧ false = d := by
                simpa using h
              exact ⟨by omega, by omega, fun _ => by omega⟩
            · rw [if_neg hc2] at h
              obtain ⟨rfl, rfl, rfl⟩ : a0 = a ∧ st2 = stx ∧ false = d := by
                simpa using h
              exact ⟨h1, h2, fun _ => hlt⟩

/-- C10: for every position and all integer bounds with α < β, the value
returned by `quiescence_search(board, α, β)` lies in the closed interval
[α, β]. -/
theorem c10_quiescence_fail_hard :
    ∀ (fuel : Nat) (b : Board) (alpha beta : Int) (st st2 : SState) (s : Int),
      alpha < beta → quiescence fuel b alpha beta st = some (s, st2) →
      alpha ≤ s ∧ s ≤ beta := by
  intro fuel
  induction fuel with
  | zero => intro b alpha beta st st2 s _ h; simp [quiescence] at h
  | succ n ih =>
    intro b alpha beta st st2 s hab heq
    simp only [quiescence] at heq
    by_cases h1 : evaluate b ≥ beta
    · rw [if_pos h1] at heq
      obtain ⟨rfl, -⟩ : beta = s ∧ _ := by simpa using heq
      omega
    · rw [if_neg h1] at heq
      set alphaR := if evaluate b > alpha then evaluate b else alpha with halpha
      have ha1 : alpha ≤ alphaR := by rw [halpha]; split <;> omega
      have ha2 : alphaR < beta := by rw [halpha]; split <;> omega
      by_cases h2 : evaluate b + DELTA_MARGIN < alphaR
      · rw [if_pos h2] at heq
        obtain ⟨rfl, -⟩ : alphaR = s ∧ _ := by simpa using heq
        omega
      · rw [if_neg h2] at heq
        obtain ⟨r, hr, hmap⟩ := Option.map_eq_some'.mp heq
        obtain ⟨ra, rst, rd⟩ := r
        obtain ⟨hs, -⟩ : s = ra ∧ st2 = rst := by
          constructor <;> (cases hmap; rfl)
        have hbounds := qStep_bounds
          (fun b2 a2 b3 st2 => quiescence n b2 a2 b3 st2)
          (fun b2 a2 b3 stq st2q sq hlt he => ih b2 a2 b3 stq st2q sq hlt he)
          b beta alphaR _
          (some (alphaR, { st with nodes := st.nodes + 1 }, false))
          (by
            intro a stx d h
            obtain ⟨rfl, rfl, rfl⟩ : alphaR = a ∧ _ = stx ∧ false = d := by
              simpa using h
            exact ⟨le_refl _, le_of_lt ha2, fun _ => ha2⟩)
          ra rst rd hr
        rw [hs]
        exact ⟨le_trans ha1 hbounds.1, hbounds.2.1⟩

/-- C10 witness: with α = 0 < 1 = β on the empty board, the returned value 0
lies in [0, 1]. -/
theorem c10_witness : (0 : Int) ≤ 0 ∧ (0 : Int) ≤ 1 :=
  c10_quiescence_fail_hard 1 Board.init 0 1 sstate0
    { sstate0 with nodes := sstate0.nodes + 1 } 0 (by norm_num) (by rfl)

/-! ## C6 — transposition-table mate-score storage. -/

/-- C6 at the failing input: storing the mate score 99999 at ply 3 applies
the +ply adjustment (100002) but truncates it to the `int16_t` payload
−31070; the probe then returns −31070 unadjusted (a truncated `int16_t`
can never exceed the 90000 mate threshold), not the 99999 the
root-independent scheme promises. -/
theorem c6_tt_mate_truncation :
    tt_store ttEmpty 12345 99999 5 nullMove TT_EXACT 3 =
      updTT ttEmpty (tt_index 12345) ⟨12345, -31070, 5, 0, TT_EXACT⟩ ∧
    (tt_probe (tt_store ttEmpty 12345 99999 5 nullMove TT_EXACT 3) 12345 5 0 0 3).1 =
      some (-31070) ∧
    (-31070 : Int) ≠ 99999 := by
  refine ⟨by rfl, by rfl, by norm_num⟩

/-! ## C2 — the response when there are no legal moves. -/

/-- C2 (amended): for every position with no legal moves, `search` returns
the default `Move()` whose coordinate form is "a1a1" (not the empty string),
score −100000 or 0 by check, and zero nodes; the handler serializes exactly
that. -/
theorem c2_no_legal_moves_best_move (zk : ZKeys) (fuel : Nat) (tt0 : TTable)
    (b : Board) (depth : Nat) (h : b.get_legal_moves = []) :
    searchFn zk fuel b depth tt0 =
      some (⟨nullMove, if b.is_in_check b.player_to_move then -100000 else 0, 0⟩, tt0) ∧
    nullMove.to_uci = "a1a1" ∧
    ∀ (dI : Int), 1 ≤ dI → dI ≤ 20 → ∀ fen : String,
      Board.init.setup_with_fen fen = .ok b →
      searchHandler zk fuel tt0 fen dI =
        .ok (some ⟨"a1a1", if b.is_in_check b.player_to_move then -100000 else 0, dI, 0⟩) := by
  have hsearch : searchFn zk fuel b depth tt0 =
      some (⟨nullMove, if b.is_in_check b.player_to_move then -100000 else 0, 0⟩, tt0) := by
    simp [searchFn, h]
  have hsd : ∀ d : Nat, searchFn zk fuel b d tt0 =
      some (⟨nullMove, if b.is_in_check b.player_to_move then -100000 else 0, 0⟩, tt0) := by
    intro d; simp [searchFn, h]
  refine ⟨hsearch, by rfl, ?_⟩
  intro dI hd1 hd2 fen hfen
  simp only [searchHandler]
  rw [if_neg (by omega), hfen]
  dsimp only
  rw [hsd dI.toNat]
  have ht : nullMove.to_uci = "a1a1" := by decide
  simp [ht]

/-- C2 counterexample: on a checkmated position the /search response
carries best_move "a1a1", which is not the empty string the spec promises
for a position with no legal moves. -/
theorem c2_counterexample :
    mateBoard.get_legal_moves = [] ∧
    searchHandler zk0 0 ttEmpty MATE_FEN 4 = .ok (some ⟨"a1a1", -100000, 4, 0⟩) ∧
    ("a1a1" : String) ≠ "" := by
  refine ⟨by decide, ?_, by decide⟩
  have h := (c2_no_legal_moves_best_move zk0 0 ttEmpty mateBoard 4 (by decide)).2.2
    4 (by norm_num) (by norm_num) MATE_FEN (by rfl)
  rw [h]
  have hc : mateBoard.is_in_check mateBoard.player_to_move = true := by decide
  rw [hc]
  rfl

/-- C2 witness for the amended claim, at the concrete checkmate position. -/
theorem c2_witness :
    mateBoard.get_legal_moves = [] ∧
    searchFn zk0 3 mateBoard 5 ttEmpty =
      some (⟨nullMove,
        if mateBoard.is_in_check mateBoard.player_to_move then -100000 else 0, 0⟩,
        ttEmpty) ∧
    nullMove.to_uci = "a1a1" :=
  ⟨by decide,
   (c2_no_legal_moves_best_move zk0 3 ttEmpty mateBoard 5 (by decide)).1,
   (c2_no_legal_moves_best_move zk0 3 ttEmpty mateBoard 5 (by decide)).2.1⟩

/-! ## C8 — castling emission. -/

/-- Membership in a conditional list. -/
theorem mem_ite_list {α : Type} (P : Prop) [Decidable P] (a : α) (l1 l2 : List α) :
    a ∈ (if P then l1 else l2) ↔ (P ∧ a ∈ l1) ∨ (¬P ∧ a ∈ l2) := by
  split <;> simp [*]

/-- Membership in a conditional singleton. -/
theorem mem_ite_singleton {α : Type} (P : Prop) [Decidable P] (a x : α) :
    a ∈ (if P then [x] else []) ↔ P ∧ a = x := by
  split <;> simp [*]

/-- The field accessors invert the 16-bit packing of `Move(from, to, flags)`
for in-range arguments. -/
theorem mkMove_fields :
    ∀ fl, fl < 16 → ∀ f, f < 64 → ∀ t, t < 64 →
      (mkMove f t fl).flags = fl ∧ (mkMove f t fl).fromSq = f ∧
      (mkMove f t fl).toSq = t := by
  intro fl hfl f hf t ht
  have h63 : ∀ x : Nat, x &&& 63 = x % 64 := by
    intro x
    have h := Nat.and_pow_two_sub_one_eq_mod x 6
    norm_num at h
    exact h
  have h15 : ∀ x : Nat, x &&& 15 = x % 16 := by
    intro x
    have h := Nat.and_pow_two_sub_one_eq_mod x 4
    norm_num at h
    exact h
  have hraw : (mkMove f t fl).raw = 4096 * fl + (64 * f + t) := by
    show (((fl <<< 12) ||| (f <<< 6)) ||| t) % 2 ^ 16 = _
    rw [Nat.or_assoc, Nat.shiftLeft_eq, Nat.shiftLeft_eq,
        Nat.mul_comm fl, Nat.mul_comm f,
        ← Nat.mul_add_lt_is_or (show t < 2 ^ 6 by omega) f,
        ← Nat.mul_add_lt_is_or (show 2 ^ 6 * f + t < 2 ^ 12 by omega) fl]
    have hlt : 2 ^ 12 * fl + (2 ^ 6 * f + t) < 2 ^ 16 := by omega
    rw [Nat.mod_eq_of_lt hlt]
    norm_num
  refine ⟨?_, ?_, ?_⟩
  · show (mkMove f t fl).raw >>> 12 &&& 0xf = fl
    rw [hraw, Nat.shiftRight_eq_div_pow, h15]
    omega
  · show (mkMove f t fl).raw >>> 6 &&& 0x3f = f
    rw [hraw, Nat.shiftRight_eq_div_pow, h63]
    omega
  · show (mkMove f t fl).raw &&& 0x3f = t
    rw [hraw, h63]
    omega

theorem mem_squaresOf {s : Nat} {bb : Bitboard} :
    s ∈ squaresOf bb ↔ s < 64 ∧ bb.testBit s = true := by
  simp [squaresOf, List.mem_filter, List.mem_range, and_comm]

/-- Every move emitted by the shared knight/slider/king emission loop is a
quiet move or a capture; in particular it is never a castling move. -/
theorem emitLoop_flags (b : Board) (fs : Nat) (hfs : fs < 64) (t : Bitboard)
    (m : Move) (hm : m ∈ emitLoop b fs t) :
    m.flags = MF.QUIET ∨ m.flags = MF.CAPTURE := by
  obtain ⟨toSq, hto, rfl⟩ := List.mem_map.mp hm
  have h64 : toSq < 64 := (mem_squaresOf.mp hto).1
  split
  · exact Or.inr (mkMove_fields MF.CAPTURE (by decide) fs hfs toSq h64).1
  · exact Or.inl (mkMove_fields MF.QUIET (by decide) fs hfs toSq h64).1

/-- C8: a castling move is emitted by move generation if and only if the
corresponding castling-right flag is set, every square strictly between the
king and the rook is empty, and the king's from square, pass-through square,
and to square are all not attacked by the enemy (one equivalence per color
and side; the normal king-move loop never emits a castling flag). -/
theorem c8_castling_emission (b : Board) (fs : Nat) (hfs : fs < 64) :
    (mkMove e1 g1 MF.OO ∈ b.generate_king_moves fs ↔
      b.player_to_move = WHITE ∧
      (b.castling_rights.white_king_side = true ∧
       (b.mailbox f1).type = NO_PIECE_TYPE ∧ (b.mailbox g1).type = NO_PIECE_TYPE ∧
       b.is_square_under_attack e1 WHITE = false ∧
       b.is_square_under_attack f1 WHITE = false ∧
       b.is_square_under_attack g1 WHITE = false)) ∧
    (mkMove e1 c1 MF.OOO ∈ b.generate_king_moves fs ↔
      b.player_to_move = WHITE ∧
      (b.castling_rights.white_queen_side = true ∧
       (b.mailbox b1).type = NO_PIECE_TYPE ∧ (b.mailbox d1).type = NO_PIECE_TYPE ∧
       (b.mailbox c1).type = NO_PIECE_TYPE ∧
       b.is_square_under_attack e1 WHITE = false ∧
       b.is_square_under_attack d1 WHITE = false ∧
       b.is_square_under_attack c1 WHITE = false)) ∧
    (mkMove e8 g8 MF.OO ∈ b.generate_king_moves fs ↔
      ¬b.player_to_move = WHITE ∧
      (b.castling_rights.black_king_side = true ∧
       (b.mailbox f8).type = NO_PIECE_TYPE ∧ (b.mailbox g8).type = NO_PIECE_TYPE ∧
       b.is_square_under_attack e8 BLACK = false ∧
       b.is_square_under_attack f8 BLACK = false ∧
       b.is_square_under_attack g8 BLACK = false)) ∧
    (mkMove e8 c8 MF.OOO ∈ b.generate_king_moves fs ↔
      ¬b.player_to_move = WHITE ∧
      (b.castling_rights.black_queen_side = true ∧
       (b.mailbox b8).type = NO_PIECE_TYPE ∧ (b.mailbox d8).type = NO_PIECE_TYPE ∧
       (b.mailbox c8).type = NO_PIECE_TYPE ∧
       b.is_square_under_attack e8 BLACK = false ∧
       b.is_square_under_attack d8 BLACK = false ∧
       b.is_square_under_attack c8 BLACK = false)) := by
  have hplayer : b.player_to_move = WHITE ∨ b.player_to_move = BLACK := by
    cases b.player_to_move
    · exact Or.inl rfl
    · exact Or.inr rfl
  have hno : ∀ mv : Move, mv.flags = MF.OO ∨ mv.flags = MF.OOO →
      mv ∉ emitLoop b fs (kingAttacks fs &&& compl64 (b.occof b.player_to_move)) := by
    intro mv hfl hmem
    rcases emitLoop_flags b fs hfs _ mv hmem with h | h <;>
      rcases hfl with h2 | h2 <;> rw [h2] at h <;> simp [MF.QUIET, MF.CAPTURE,
        MF.OO, MF.OOO] at h
  have hOOfl : (mkMove e1 g1 MF.OO).flags = MF.OO := by decide
  have hOOOfl : (mkMove e1 c1 MF.OOO).flags = MF.OOO := by decide
  have hbOOfl : (mkMove e8 g8 MF.OO).flags = MF.OO := by decide
  have hbOOOfl : (mkMove e8 c8 MF.OOO).flags = MF.OOO := by decide
  refine ⟨?_, ?_, ?_, ?_⟩
  · simp only [Board.generate_king_moves]
    constructor
    · intro hmem
      rcases List.mem_append.mp hmem with h | h
      · exact absurd h (hno _ (Or.inl hOOfl))
      · revert h
        by_cases hp : b.player_to_move = WHITE
        · rw [if_pos hp]
          intro h
          rcases List.mem_append.mp h with h1 | h1
          · exact ⟨hp, ((mem_ite_singleton _ _ _).mp h1).1⟩
          · exact absurd ((mem_ite_singleton _ _ _).mp h1).2 (by decide)
        · rw [if_neg hp]
          intro h
          rcases List.mem_append.mp h with h1 | h1 <;>
            exact absurd ((mem_ite_singleton _ _ _).mp h1).2 (by decide)
    · rintro ⟨hp, hC⟩
      apply List.mem_append.mpr
      right
      rw [if_pos hp]
      apply List.mem_append.mpr
      left
      rw [if_pos hC]
      exact List.mem_singleton_self _
  · simp only [Board.generate_king_moves]
    constructor
    · intro hmem
      rcases List.mem_append.mp hmem with h | h
      · exact absurd h (hno _ (Or.inr hOOOfl))
      · revert h
        by_cases hp : b.player_to_move = WHITE
        · rw [if_pos hp]
          intro h
          rcases List.mem_append.mp h with h1 | h1
          · exact absurd ((mem_ite_singleton _ _ _).mp h1).2 (by decide)
          · exact ⟨hp, ((mem_ite_singleton _ _ _).mp h1).1⟩
        · rw [if_neg hp]
          intro h
          rcases List.mem_append.mp h with h1 | h1 <;>
            exact absurd ((mem_ite_singleton _ _ _).mp h1).2 (by decide)
    · rintro ⟨hp, hC⟩
      apply List.mem_append.mpr
      right
      rw [if_pos hp]
      apply List.mem_append.mpr
      right
      rw [if_pos hC]
      exact List.mem_singleton_self _
  · simp only [Board.generate_king_moves]
    constructor
    · intro hmem
      rcases List.mem_append.mp hmem with h | h
      · exact absurd h (hno _ (Or.inl hbOOfl))
      · revert h
        by_cases hp : b.player_to_move = WHITE
        · rw [if_pos hp]
          intro h
          rcases List.mem_append.mp h with h1 | h1 <;>
            exact absurd ((mem_ite_singleton _ _ _).mp h1).2 (by decide)
        · rw [if_neg hp]
          intro h
          rcases List.mem_append.mp h with h1 | h1
          · exact ⟨hp, ((mem_ite_singleton _ _ _).mp h1).1⟩
          · exact absurd ((mem_ite_singleton _ _ _).mp h1).2 (by decide)
    · rintro ⟨hp, hC⟩
      apply List.mem_append.mpr
      right
      rw [if_neg hp]
      apply List.mem_append.mpr
      left
      rw [if_pos hC]
      exact List.mem_singleton_self _
  · simp only [Board.generate_king_moves]
    constructor
    · intro hmem
      rcases List.mem_append.mp hmem with h | h
      · exact absurd h (hno _ (Or.inr hbOOOfl))
      · revert h
        by_cases hp : b.player_to_move = WHITE
        · rw [if_pos hp]
          intro h
          rcases List.mem_append.mp h with h1 | h1 <;>
            exact absurd ((mem_ite_singleton _ _ _).mp h1).2 (by decide)
        · rw [if_neg hp]
          intro h
          rcases List.mem_append.mp h with h1 | h1
          · exact absurd ((mem_ite_singleton _ _ _).mp h1).2 (by decide)
          · exact ⟨hp, ((mem_ite_singleton _ _ _).mp h1).1⟩
    · rintro ⟨hp, hC⟩
      apply List.mem_append.mpr
      right
      rw [if_neg hp]
      apply List.mem_append.mpr
      right
      rw [if_pos hC]
      exact List.mem_singleton_self _

/-- C8 witness: in the spec S4 position both white castling moves are
emitted; the equivalence, instantiated there, confirms the conditions. -/
theorem c8_witness :
    mkMove e1 g1 MF.OO ∈ castleBoard.generate_king_moves e1 ∧
    mkMove e1 c1 MF.OOO ∈ castleBoard.generate_king_moves e1 :=
  ⟨((c8_castling_emission castleBoard e1 (by decide)).1).mpr (by decide),
   ((c8_castling_emission castleBoard e1 (by decide)).2.1).mpr (by decide)⟩

/-! ## C4 — negamax terminal scores. -/

/-- C4 (amended): when negamax reaches its terminal check — entry depth at
least 1, no repetition hit on the search path, the 50-move and
insufficient-material draws not triggered, the transposition probe unusable,
and the null-move step not taken (in check, shallow depth, PV node,
forbidden, or no material) — a position with no legal moves scores
−100000 + ply in check and 0 (stalemate) otherwise. -/
theorem c4_negamax_terminal (zk : ZKeys) (fuel : Nat) (b : Board)
    (depth alpha beta : Int) (st : SState) (ply : Nat) (no_null : Bool)
    (h1 : b.get_legal_moves = [])
    (h2 : 1 ≤ depth)
    (h3 : pathRepeat st.path_hashes ply (zhash zk b) = false)
    (h4 : b.halfmove_clock < 100)
    (h5 : b.is_insufficient_material = false)
    (h6 : (tt_probe st.tt (zhash zk b) depth alpha beta ply).1 = none)
    (h7 : b.is_in_check b.player_to_move = true ∨ depth < 3 ∨ 1 < beta - alpha ∨
          no_null = true ∨ b.has_non_pawn_material b.player_to_move = false) :
    (negamax zk (fuel + 1) b depth alpha beta st ply no_null).map Prod.fst =
      some (if b.is_in_check b.player_to_move then -100000 + (ply : Int) else 0) := by
  have hin : ¬(depth ≤ 0 ∧ ¬b.is_in_check b.player_to_move = true) := by
    rintro ⟨hd, -⟩; omega
  have hck : ¬(depth ≤ 0 ∧ b.is_in_check b.player_to_move = true) := by
    rintro ⟨hd, -⟩; omega
  have hrep : ¬(pathRepeat st.path_hashes ply (zhash zk b) = true) := by
    rw [h3]; simp
  have hdraw : ¬(b.halfmove_clock ≥ 100 ∨ b.is_insufficient_material = true) := by
    rintro (hc | hc)
    · omega
    · rw [h5] at hc; cases hc
  have hnull : ¬(¬b.is_in_check b.player_to_move = true ∧ depth ≥ 3 ∧
      ¬beta - alpha > 1 ∧ ¬no_null = true ∧
      b.has_non_pawn_material b.player_to_move = true) := by
    rintro ⟨n1, n2, n3, n4, n5⟩
    rcases h7 with h | h | h | h | h
    · exact n1 h
    · omega
    · exact n3 h
    · exact n4 h
    · rw [h] at n5; cases n5
  simp only [negamax]
  rw [if_neg hin, if_neg hck, if_neg hrep, if_neg hdraw]
  have h6r : (tt_probe st.tt (zhash zk b) depth alpha beta ply).1 = none := h6
  rw [h6r]
  dsimp only
  rw [if_neg hnull]
  dsimp only
  rw [h1]
  by_cases hic : b.is_in_check b.player_to_move = true
  · simp [hic]
  · simp [hic]

/-- C4 counterexample: at depth 0 the stalemate position (no legal moves, not
in check) does not score 0 — negamax returns the quiescence value, here the
unchanged alpha −100. -/
theorem c4_counterexample :
    staleBoard.get_legal_moves = [] ∧
    staleBoard.is_in_check staleBoard.player_to_move = false ∧
    (negamax zk0 5 staleBoard 0 (-100) 100 sstate0 0 false).map Prod.fst =
      some (-100) ∧
    (-100 : Int) ≠ 0 := by
  refine ⟨by decide, by decide, by decide, by norm_num⟩

/-- C4 witness: the amended terminal rule, evaluated on the concrete
checkmate position at ply 0 and depth 1. -/
theorem c4_witness :
    mateBoard.is_in_check mateBoard.player_to_move = true ∧
    (negamax zk0 1 mateBoard 1 (-32000) 32000 sstate0 0 false).map Prod.fst =
      some (if mateBoard.is_in_check mateBoard.player_to_move then
        -100000 + ((0 : Nat) : Int) else 0) :=
  ⟨by decide,
   c4_negamax_terminal zk0 0 mateBoard 1 (-32000) 32000 sstate0 0 false
     (by decide) (by norm_num) (by decide) (by decide) (by decide) (by decide)
     (Or.inl (by decide))⟩

/-! ## C1 — node counting and the dead opening book. -/

/-- A fold whose step maps `none` to `none` stays `none`. -/
theorem foldl_none {σ ι : Type} (f : Option σ → ι → Option σ)
    (hf : ∀ p, f none p = none) : ∀ l : List ι, l.foldl f none = none := by
  intro l
  induction l with
  | nil => rfl
  | cons x xs ih => rw [List.foldl_cons, hf]; exact ih

/-- The quiescence capture loop never decreases the node counter. -/
theorem qStep_nodes (recur : Board → Int → Int → SState → Option (Int × SState))
    (hrec : ∀ b2 a2 b3 stq st2q sq, recur b2 a2 b3 stq = some (sq, st2q) →
      stq.nodes ≤ st2q.nodes)
    (b : Board) (beta : Int) (N : Nat) (l : List Move) :
    ∀ (acc : Option (Int × SState × Bool)),
      (∀ a stx d, acc = some (a, stx, d) → N ≤ stx.nodes) →
      ∀ a stx d, l.foldl (qStep recur b beta) acc = some (a, stx, d) →
        N ≤ stx.nodes := by
  induction l with
  | nil => intro acc hacc; simpa using hacc
  | cons m ms ih =>
    intro acc hacc
    rw [List.foldl_cons]
    apply ih
    intro a stx d h
    cases acc with
    | none => simp [qStep] at h
    | some t =>
      obtain ⟨a0, st0, d0⟩ := t
      have h0 := hacc a0 st0 d0 rfl
      by_cases hd : d0 = true
      · subst hd
        simp only [qStep, if_pos rfl] at h
        obtain ⟨-, rfl, -⟩ : a0 = a ∧ st0 = stx ∧ true = d := by simpa using h
        exact h0
      · have hd0 : d0 = false := by simpa using hd
        subst hd0
        simp only [qStep, Bool.false_eq_true, if_false] at h
        cases hrek : recur (b.move m) (-beta) (-a0) st0 with
        | none => rw [hrek] at h; simp at h
        | some pr =>
          obtain ⟨sres, st2⟩ := pr
          have hmono := hrec _ _ _ _ _ _ hrek
          rw [hrek] at h
          dsimp only at h
          by_cases hc1 : -sres ≥ beta
          · rw [if_pos hc1] at h
            obtain ⟨-, rfl, -⟩ : beta = a ∧ st2 = stx ∧ true = d := by simpa using h
            omega
          · rw [if_neg hc1] at h
            by_cases hc2 : -sres > a0
            · rw [if_pos hc2] at h
              obtain ⟨-, rfl, -⟩ : -sres = a ∧ st2 = stx ∧ false = d := by
                simpa using h
              omega
            · rw [if_neg hc2] at h
              obtain ⟨-, rfl, -⟩ : a0 = a ∧ st2 = stx ∧ false = d := by
                simpa using h
              omega

/-- Quiescence strictly increases the node counter. -/
theorem quiescence_nodes :
    ∀ (fuel : Nat) (b : Board) (alpha beta : Int) (st : SState) (s : Int)
      (st2 : SState), quiescence fuel b alpha beta st = some (s, st2) →
      st.nodes < st2.nodes := by
  intro fuel
  induction fuel with
  | zero => intro b alpha beta st s st2 h; simp [quiescence] at h
  | succ n ih =>
    intro b alpha beta st s st2 heq
    simp only [quiescence] at heq
    by_cases h1 : evaluate b ≥ beta
    · rw [if_pos h1] at heq
      obtain ⟨-, rfl⟩ : beta = s ∧ _ = st2 := by simpa using heq
      simp
    · rw [if_neg h1] at heq
      by_cases h2 : evaluate b + DELTA_MARGIN <
          (if evaluate b > alpha then evaluate b else alpha)
      · rw [if_pos h2] at heq
        obtain ⟨-, rfl⟩ : _ ∧ _ = st2 := by simpa using heq
        simp
      · rw [if_neg h2] at heq
        obtain ⟨r, hr, hmap⟩ := Option.map_eq_some'.mp heq
        obtain ⟨ra, rst, rd⟩ := r
        obtain ⟨-, hst⟩ : s = ra ∧ st2 = rst := by
          constructor <;> (cases hmap; rfl)
        have hn := qStep_nodes
          (fun b2 a2 b3 st2 => quiescence n b2 a2 b3 st2)
          (fun b2 a2 b3 stq st2q sq he => le_of_lt (ih b2 a2 b3 stq sq st2q he))
          b beta (st.nodes + 1) _
          (some ((if evaluate b > alpha then evaluate b else alpha),
            { st with nodes := st.nodes + 1 }, false))
          (by
            intro a stx d h
            obtain ⟨-, rfl, -⟩ : _ ∧ _ = stx ∧ false = d := by simpa using h
            simp)
          ra rst rd hr
        rw [hst]
        omega

/-- **C1.**  The spec says every `/search` request consults the opening
book first and, when the position key (the first four space-separated FEN
fields) is present, answers one of the book's moves chosen at random with a
node count of zero, running iterative deepening only on a miss.  The
handler never calls `book_lookup`: at the start position — whose key *is*
in `OPENING_BOOK`, every random draw yielding one of
e2e4/d2d4/g1f3/c2c4 — the handler runs the full depth-1 search and answers
`b1c3`, which is not a book move, with a node count of 23 ≠ 0. -/
theorem c1_book_bypassed :
    (OPENING_BOOK.find? (fun e => e.1 = fen_position_key START_FEN)).isSome
      = true ∧
    (∀ r : Nat, book_lookup START_FEN r ∈ ["e2e4", "d2d4", "g1f3", "c2c4"]) ∧
    searchHandler zk0 2 ttEmpty START_FEN 1 =
      .ok (some ⟨"b1c3", 50, 1, 23⟩) ∧
    "b1c3" ∉ ["e2e4", "d2d4", "g1f3", "c2c4"] ∧ (23 : Nat) ≠ 0 := by
  refine ⟨by decide, ?_, by rfl, by decide, by decide⟩
  intro r
  have e : book_lookup START_FEN r
      = ["e2e4", "d2d4", "g1f3", "c2c4"].getD (r % 4) "" := rfl
  have h4 : r % 4 = 0 ∨ r % 4 = 1 ∨ r % 4 = 2 ∨ r % 4 = 3 := by omega
  rcases h4 with h | h | h | h <;> rw [e, h] <;> decide

/-! ## C3 — the make/unmake round trip. -/

/-! Decoded move fields are always in range. -/

theorem Move.toSq_lt (m : Move) : m.toSq < 64 := by
  have h : m.raw &&& 0x3f < 2 ^ 6 := Nat.and_lt_two_pow m.raw (by decide)
  simpa [Move.toSq] using h

theorem Move.fromSq_lt (m : Move) : m.fromSq < 64 := by
  have h : m.raw >>> 6 &&& 0x3f < 2 ^ 6 :=
    Nat.and_lt_two_pow (m.raw >>> 6) (by decide)
  simpa [Move.fromSq] using h

/-! Pointwise update lemmas. -/

@[simp] theorem updMB_eq (mb : Nat → Piece) (s : Nat) (p : Piece) :
    updMB mb s p s = p := by simp [updMB]

theorem updMB_ne (mb : Nat → Piece) (s : Nat) (p : Piece) {s2 : Nat}
    (h : s2 ≠ s) : updMB mb s p s2 = mb s2 := by simp [updMB, h]

@[simp] theorem updBB_eq (bb : Color → PieceType → Bitboard) (c : Color)
    (k : PieceType) (v : Bitboard) : updBB bb c k v c k = v := by simp [updBB]

theorem updBB_ne (bb : Color → PieceType → Bitboard) (c : Color)
    (k : PieceType) (v : Bitboard) {c2 : Color} {k2 : PieceType}
    (h : ¬(c2 = c ∧ k2 = k)) : updBB bb c k v c2 k2 = bb c2 k2 := by
  simp [updBB, h]

@[simp] theorem updHist_eq (h : Nat → UndoInfo) (i : Nat) (u : UndoInfo) :
    updHist h i u i = u := by simp [updHist]

theorem updHist_ne (h : Nat → UndoInfo) (i : Nat) (u : UndoInfo) {j : Nat}
    (hj : j ≠ i) : updHist h i u j = h j := by simp [updHist, hj]

@[simp] theorem Color.other_other (c : Color) : c.other.other = c := by
  cases c <;> rfl

theorem Color.other_ne (c : Color) : c.other ≠ c := by cases c <;> decide

/-! Projections of `put_piece` / `remove_piece` / `setOcc`. -/

theorem setOcc_eq (b : Board) (c : Color) (v : Bitboard) :
    b.setOcc c v = { b with
      occ_white := if c = WHITE then v else b.occ_white,
      occ_black := if c = BLACK then v else b.occ_black } := by
  cases c <;> rfl

theorem put_piece_eq (b : Board) (s : Nat) (p : Piece) :
    b.put_piece s p = { b with
      bitboards := updBB b.bitboards p.color p.type
        (b.bitboards p.color p.type ||| sqbb s),
      occ_white := if p.color = WHITE then b.occ_white ||| sqbb s
        else b.occ_white,
      occ_black := if p.color = BLACK then b.occ_black ||| sqbb s
        else b.occ_black,
      occ_both := b.occ_both ||| sqbb s,
      mailbox := updMB b.mailbox s p } := by
  obtain ⟨pt, pc⟩ := p
  cases pc <;> rfl

theorem remove_piece_eq (b : Board) (s : Nat) :
    b.remove_piece s = { b with
      bitboards := updBB b.bitboards (b.mailbox s).color (b.mailbox s).type
        (b.bitboards (b.mailbox s).color (b.mailbox s).type &&&
          compl64 (sqbb s)),
      occ_white := if (b.mailbox s).color = WHITE then
        b.occ_white &&& compl64 (sqbb s) else b.occ_white,
      occ_black := if (b.mailbox s).color = BLACK then
        b.occ_black &&& compl64 (sqbb s) else b.occ_black,
      occ_both := b.occ_both &&& compl64 (sqbb s),
      mailbox := updMB b.mailbox s ⟨NO_PIECE_TYPE, (b.mailbox s).color⟩ } := by
  rcases hp : b.mailbox s with ⟨pt, pc⟩
  cases pc <;> simp only [Board.remove_piece, hp, Board.setOcc] <;> rfl

/-! 64-bit bit algebra. -/

theorem sqbb_eq_pow {s : Nat} (hs : s < 64) : sqbb s = 2 ^ s := by
  rw [sqbb, Nat.shiftLeft_eq, one_mul, U64,
    Nat.mod_eq_of_lt (Nat.pow_lt_pow_right (by norm_num) hs)]

theorem testBit_sqbb {s : Nat} (hs : s < 64) (i : Nat) :
    (sqbb s).testBit i = decide (i = s) := by
  rw [sqbb_eq_pow hs, Nat.testBit_two_pow]
  simp [eq_comm]

theorem testBit_mask64 (i : Nat) : mask64.testBit i = decide (i < 64) := by
  have h : mask64 = 2 ^ 64 - 1 := rfl
  rw [h, Nat.testBit_two_pow_sub_one]

theorem testBit_compl64 (X i : Nat) :
    (compl64 X).testBit i = (decide (i < 64)).xor (X.testBit i) := by
  simp [compl64, Nat.testBit_xor, testBit_mask64]

theorem testBit_ge_64 {X : Nat} (hX : X < U64) {i : Nat} (hi : 64 ≤ i) :
    X.testBit i = false := by
  apply Nat.testBit_lt_two_pow
  exact lt_of_lt_of_le hX (Nat.pow_le_pow_right (by norm_num) hi)

theorem or_lt_U64 {X Y : Nat} (hX : X < U64) (hY : Y < U64) :
    X ||| Y < U64 := Nat.or_lt_two_pow hX hY

theorem and_lt_U64_right (X : Nat) {Y : Nat} (hY : Y < U64) :
    X &&& Y < U64 := Nat.and_lt_two_pow X hY

theorem compl64_lt (X : Nat) : X &&& compl64 (sqbb s) < U64 := by
  exact Nat.and_lt_two_pow X (Nat.xor_lt_two_pow (by decide) (by simp [sqbb, U64, Nat.mod_lt]))

/-- Clear `f`, set `t`, clear `t`, set `f` gives back `X`. -/
theorem clear_set_rt {X f t : Nat} (hX : X < U64) (hf : f < 64) (ht : t < 64)
    (hfX : X.testBit f = true) (htX : X.testBit t = false) :
    (((X &&& compl64 (sqbb f)) ||| sqbb t) &&& compl64 (sqbb t)) ||| sqbb f
      = X := by
  have hft : f ≠ t := fun h => by rw [h, htX] at hfX; exact Bool.noConfusion hfX
  apply Nat.eq_of_testBit_eq
  intro i
  simp only [Nat.testBit_or, Nat.testBit_and, testBit_compl64,
    testBit_sqbb hf, testBit_sqbb ht]
  by_cases hif : i = f
  · subst hif
    simp [hf, hfX, Ne.symm, hft]
  · by_cases hit : i = t
    · subst hit
      simp [ht, htX, hif]
    · by_cases hi : i < 64
      · simp [hif, hit, hi]
      · simp [hif, hit, hi, testBit_ge_64 hX (le_of_not_lt hi)]

/-- Clear `t` then set `t` gives back `X` when `t` was set. -/
theorem clear_set_self {X t : Nat} (hX : X < U64) (ht : t < 64)
    (htX : X.testBit t = true) :
    (X &&& compl64 (sqbb t)) ||| sqbb t = X := by
  apply Nat.eq_of_testBit_eq
  intro i
  simp only [Nat.testBit_or, Nat.testBit_and, testBit_compl64, testBit_sqbb ht]
  by_cases hit : i = t
  · subst hit; simp [ht, htX]
  · by_cases hi : i < 64
    · simp [hit, hi]
    · simp [hit, hi, testBit_ge_64 hX (le_of_not_lt hi)]

/-- Set `t` then clear `t` gives back `X` when `t` was clear. -/
theorem set_clear_self {X t : Nat} (hX : X < U64) (ht : t < 64)
    (htX : X.testBit t = false) :
    (X ||| sqbb t) &&& compl64 (sqbb t) = X := by
  apply Nat.eq_of_testBit_eq
  intro i
  simp only [Nat.testBit_or, Nat.testBit_and, testBit_compl64, testBit_sqbb ht]
  by_cases hit : i = t
  · subst hit; simp [ht, htX]
  · by_cases hi : i < 64
    · simp [hit, hi]
    · simp [hit, hi, testBit_ge_64 hX (le_of_not_lt hi)]

/-! Facts extracted from `ValidPos`. -/

theorem vp_bb_lt {b : Board} (hb : ValidPos b) (c : Color) (k : PieceType) :
    b.bitboards c k < U64 := hb.1 c k

theorem vp_occ_white_lt {b : Board} (hb : ValidPos b) : b.occ_white < U64 := by
  rw [hb.2.2.2.1]
  exact or_lt_U64 (or_lt_U64 (or_lt_U64 (or_lt_U64 (or_lt_U64
    (vp_bb_lt hb _ _) (vp_bb_lt hb _ _)) (vp_bb_lt hb _ _))
    (vp_bb_lt hb _ _)) (vp_bb_lt hb _ _)) (vp_bb_lt hb _ _)

theorem vp_occ_black_lt {b : Board} (hb : ValidPos b) : b.occ_black < U64 := by
  rw [hb.2.2.2.2.1]
  exact or_lt_U64 (or_lt_U64 (or_lt_U64 (or_lt_U64 (or_lt_U64
    (vp_bb_lt hb _ _) (vp_bb_lt hb _ _)) (vp_bb_lt hb _ _))
    (vp_bb_lt hb _ _)) (vp_bb_lt hb _ _)) (vp_bb_lt hb _ _)

theorem vp_occ_both_lt {b : Board} (hb : ValidPos b) : b.occ_both < U64 := by
  rw [hb.2.2.2.2.2.1]
  exact or_lt_U64 (vp_occ_white_lt hb) (vp_occ_black_lt hb)

theorem vp_occof_lt {b : Board} (hb : ValidPos b) (c : Color) :
    b.occof c < U64 := by
  cases c
  · exact vp_occ_white_lt hb
  · exact vp_occ_black_lt hb

/-- A set bit in a piece bitboard pins down the mailbox entry. -/
theorem vp_mailbox_of_bit {b : Board} (hb : ValidPos b) {sq : Nat}
    (hsq : sq < 64) {c : Color} {k : PieceType}
    (h : (b.bitboards c k).testBit sq = true) : b.mailbox sq = ⟨k, c⟩ := by
  obtain ⟨h1, h2⟩ := hb.2.2.1 sq hsq
  by_cases he : (b.mailbox sq).type = NO_PIECE_TYPE
  · rw [h1 he c k] at h; cases h
  · obtain ⟨-, hother⟩ := h2 he
    by_cases hck : c = (b.mailbox sq).color ∧ k = (b.mailbox sq).type
    · obtain ⟨hc, hk⟩ := hck
      rw [hc, hk]
    · rw [hother c k hck] at h; cases h

theorem vp_bit_of_mailbox {b : Board} (hb : ValidPos b) {sq : Nat}
    (hsq : sq < 64) (h : (b.mailbox sq).type ≠ NO_PIECE_TYPE) :
    (b.bitboards (b.mailbox sq).color (b.mailbox sq).type).testBit sq
      = true := (((hb.2.2.1 sq hsq).2) h).1

theorem vp_bits_empty {b : Board} (hb : ValidPos b) {sq : Nat}
    (hsq : sq < 64) (h : (b.mailbox sq).type = NO_PIECE_TYPE)
    (c : Color) (k : PieceType) : (b.bitboards c k).testBit sq = false :=
  (hb.2.2.1 sq hsq).1 h c k

theorem vp_bits_other {b : Board} (hb : ValidPos b) {sq : Nat}
    (hsq : sq < 64) (h : (b.mailbox sq).type ≠ NO_PIECE_TYPE)
    (c : Color) (k : PieceType)
    (hck : ¬(c = (b.mailbox sq).color ∧ k = (b.mailbox sq).type)) :
    (b.bitboards c k).testBit sq = false :=
  ((hb.2.2.1 sq hsq).2 h).2 c k hck

theorem vp_occof_false {b : Board} (hb : ValidPos b) {sq : Nat}
    (hsq : sq < 64) (h : (b.mailbox sq).type = NO_PIECE_TYPE) (c : Color) :
    (b.occof c).testBit sq = false := by
  have hu : b.occof c = bbUnion b c := by
    cases c
    · exact hb.2.2.2.1
    · exact hb.2.2.2.2.1
  rw [hu]
  simp [bbUnion, Nat.testBit_or, vp_bits_empty hb hsq h]

theorem vp_occ_both_false {b : Board} (hb : ValidPos b) {sq : Nat}
    (hsq : sq < 64) (h : (b.mailbox sq).type = NO_PIECE_TYPE) :
    b.occ_both.testBit sq = false := by
  rw [hb.2.2.2.2.2.1]
  have hw := vp_occof_false hb hsq h WHITE
  have hbk := vp_occof_false hb hsq h BLACK
  simp only [Board.occof] at hw hbk
  simp [Nat.testBit_or, hw, hbk]

theorem vp_occof_true {b : Board} (hb : ValidPos b) {sq : Nat}
    (hsq : sq < 64) (h : (b.mailbox sq).type ≠ NO_PIECE_TYPE) :
    (b.occof (b.mailbox sq).color).testBit sq = true := by
  have hu : b.occof (b.mailbox sq).color = bbUnion b (b.mailbox sq).color := by
    cases hc : (b.mailbox sq).color
    · exact hb.2.2.2.1
    · exact hb.2.2.2.2.1
  rw [hu]
  have hbit := vp_bit_of_mailbox hb hsq h
  rcases hk : (b.mailbox sq).type with _ | _ | _ | _ | _ | _ | _ <;>
    rw [hk] at hbit <;> simp [bbUnion, Nat.testBit_or, hbit]
  · exact absurd hk h

theorem vp_occof_other_false {b : Board} (hb : ValidPos b) {sq : Nat}
    (hsq : sq < 64) (h : (b.mailbox sq).type ≠ NO_PIECE_TYPE) :
    (b.occof (b.mailbox sq).color.other).testBit sq = false := by
  have hu : b.occof (b.mailbox sq).color.other
      = bbUnion b (b.mailbox sq).color.other := by
    cases hc : (b.mailbox sq).color.other
    · exact hb.2.2.2.1
    · exact hb.2.2.2.2.1
  rw [hu]
  have hne : ∀ k : PieceType,
      (b.bitboards (b.mailbox sq).color.other k).testBit sq = false := by
    intro k
    exact vp_bits_other hb hsq h _ k
      (fun hck => Color.other_ne (b.mailbox sq).color hck.1)
  simp [bbUnion, Nat.testBit_or, hne]

theorem vp_occ_both_true {b : Board} (hb : ValidPos b) {sq : Nat}
    (hsq : sq < 64) (h : (b.mailbox sq).type ≠ NO_PIECE_TYPE) :
    b.occ_both.testBit sq = true := by
  rw [hb.2.2.2.2.2.1]
  have ht := vp_occof_true hb hsq h
  cases hc : (b.mailbox sq).color <;> rw [hc] at ht <;>
    simp only [Board.occof] at ht <;> simp [Nat.testBit_or, ht]

/-! Longer clear/set chains (capture, en passant, castling, promotion
capture), by bitwise extensionality. -/

theorem capture_both_rt {B f t : Nat} (hB : B < U64) (hf : f < 64)
    (ht : t < 64) (hfB : B.testBit f = true) (htB : B.testBit t = true) :
    (((((B &&& compl64 (sqbb t)) &&& compl64 (sqbb f)) ||| sqbb t) &&&
      compl64 (sqbb t)) ||| sqbb f) ||| sqbb t = B := by
  apply Nat.eq_of_testBit_eq
  intro i
  simp only [Nat.testBit_or, Nat.testBit_and, testBit_compl64,
    testBit_sqbb hf, testBit_sqbb ht]
  by_cases hif : i = f
  · subst hif; simp [hf, hfB]
  · by_cases hit : i = t
    · subst hit; simp [ht, htB]
    · by_cases hi : i < 64
      · simp [hif, hit, hi]
      · simp [hif, hit, hi, testBit_ge_64 hB (le_of_not_lt hi)]

theorem ep_both_rt {B f t v : Nat} (hB : B < U64) (hf : f < 64) (ht : t < 64)
    (hv : v < 64) (hfB : B.testBit f = true) (htB : B.testBit t = false)
    (hvB : B.testBit v = true) (hvt : v ≠ t) (hvf : v ≠ f) :
    (((((B &&& compl64 (sqbb f)) ||| sqbb t) &&& compl64 (sqbb v)) &&&
      compl64 (sqbb t)) ||| sqbb f) ||| sqbb v = B := by
  apply Nat.eq_of_testBit_eq
  intro i
  simp only [Nat.testBit_or, Nat.testBit_and, testBit_compl64,
    testBit_sqbb hf, testBit_sqbb ht, testBit_sqbb hv]
  by_cases hiv : i = v
  · subst hiv; simp [hv, hvB, hvt, hvf]
  · by_cases hif : i = f
    · subst hif; simp [hf, hfB, hiv]
    · by_cases hit : i = t
      · subst hit; simp [ht, htB, hiv, hif]
      · by_cases hi : i < 64
        · simp [hiv, hif, hit, hi]
        · simp [hiv, hif, hit, hi, testBit_ge_64 hB (le_of_not_lt hi)]

theorem castle_rt {B e g h f : Nat} (hB : B < U64) (he : e < 64)
    (hg : g < 64) (hh : h < 64) (hf : f < 64)
    (heB : B.testBit e = true) (hhB : B.testBit h = true)
    (hgB : B.testBit g = false) (hfB : B.testBit f = false)
    (heg : e ≠ g) (heh : e ≠ h) (hef : e ≠ f) (hgh : g ≠ h) (hgf : g ≠ f)
    (hhf : h ≠ f) :
    (((((((B &&& compl64 (sqbb e)) ||| sqbb g) &&& compl64 (sqbb h)) |||
      sqbb f) &&& compl64 (sqbb g)) ||| sqbb e) &&& compl64 (sqbb f)) |||
      sqbb h = B := by
  apply Nat.eq_of_testBit_eq
  intro i
  simp only [Nat.testBit_or, Nat.testBit_and, testBit_compl64,
    testBit_sqbb he, testBit_sqbb hg, testBit_sqbb hh, testBit_sqbb hf]
  by_cases hie : i = e
  · subst hie; simp [he, heB, heg, heh, hef]
  · by_cases hig : i = g
    · subst hig; simp [hg, hgB, hie, Ne.symm hgh, Ne.symm hgf, hgh, hgf]
    · by_cases hih : i = h
      · subst hih; simp [hh, hhB, hie, hig, Ne.symm hhf, hhf]
      · by_cases hif : i = f
        · subst hif; simp [hf, hfB, hie, hig, hih]
        · by_cases hi : i < 64
          · simp [hie, hig, hih, hif, hi]
          · simp [hie, hig, hih, hif, hi,
              testBit_ge_64 hB (le_of_not_lt hi)]

theorem pc_both_rt {B f t : Nat} (hB : B < U64) (hf : f < 64) (ht : t < 64)
    (hfB : B.testBit f = true) (htB : B.testBit t = true) :
    (((((B &&& compl64 (sqbb f)) &&& compl64 (sqbb t)) ||| sqbb t) &&&
      compl64 (sqbb t)) ||| sqbb t) ||| sqbb f = B := by
  apply Nat.eq_of_testBit_eq
  intro i
  simp only [Nat.testBit_or, Nat.testBit_and, testBit_compl64,
    testBit_sqbb hf, testBit_sqbb ht]
  by_cases hif : i = f
  · subst hif; simp [hf, hfB]
  · by_cases hit : i = t
    · subst hit; simp [ht, htB]
    · by_cases hi : i < 64
      · simp [hif, hit, hi]
      · simp [hif, hit, hi, testBit_ge_64 hB (le_of_not_lt hi)]

/-! `put_piece` / `remove_piece` leave the non-placement fields alone. -/

@[simp] theorem put_piece_player (b : Board) (s : Nat) (p : Piece) :
    (b.put_piece s p).player_to_move = b.player_to_move := by
  simp [put_piece_eq]

@[simp] theorem put_piece_castling (b : Board) (s : Nat) (p : Piece) :
    (b.put_piece s p).castling_rights = b.castling_rights := by
  simp [put_piece_eq]

@[simp] theorem put_piece_ply (b : Board) (s : Nat) (p : Piece) :
    (b.put_piece s p).game_ply = b.game_ply := by
  simp [put_piece_eq]

@[simp] theorem put_piece_half (b : Board) (s : Nat) (p : Piece) :
    (b.put_piece s p).halfmove_clock = b.halfmove_clock := by
  simp [put_piece_eq]

@[simp] theorem put_piece_full (b : Board) (s : Nat) (p : Piece) :
    (b.put_piece s p).full_move_counter = b.full_move_counter := by
  simp [put_piece_eq]

@[simp] theorem put_piece_history (b : Board) (s : Nat) (p : Piece) :
    (b.put_piece s p).history = b.history := by
  simp [put_piece_eq]

@[simp] theorem remove_piece_player (b : Board) (s : Nat) :
    (b.remove_piece s).player_to_move = b.player_to_move := by
  simp [remove_piece_eq]

@[simp] theorem remove_piece_castling (b : Board) (s : Nat) :
    (b.remove_piece s).castling_rights = b.castling_rights := by
  simp [remove_piece_eq]

@[simp] theorem remove_piece_ply (b : Board) (s : Nat) :
    (b.remove_piece s).game_ply = b.game_ply := by
  simp [remove_piece_eq]

@[simp] theorem remove_piece_half (b : Board) (s : Nat) :
    (b.remove_piece s).halfmove_clock = b.halfmove_clock := by
  simp [remove_piece_eq]

@[simp] theorem remove_piece_full (b : Board) (s : Nat) :
    (b.remove_piece s).full_move_counter = b.full_move_counter := by
  simp [remove_piece_eq]

@[simp] theorem remove_piece_history (b : Board) (s : Nat) :
    (b.remove_piece s).history = b.history := by
  simp [remove_piece_eq]

/-- Round trip of a quiet or double-push move: every component the spec
lists is restored except the `color` byte of the vacated target square. -/
theorem rt_quiet (b : Board) (hb : ValidPos b) (m : Move)
    (hfl : m.flags = MF.QUIET ∨ m.flags = MF.DOUBLE_PUSH)
    (hocc : (b.mailbox m.fromSq).type ≠ NO_PIECE_TYPE)
    (hemp : (b.mailbox m.toSq).type = NO_PIECE_TYPE) :
    RTEq b ((b.move m).undo_move m) := by
  have hf64 := Move.fromSq_lt m
  have ht64 := Move.toSq_lt m
  have hft : m.fromSq ≠ m.toSq := by
    intro h; rw [h] at hocc; exact hocc hemp
  rcases hp : b.mailbox m.fromSq with ⟨k, c⟩
  rw [hp] at hocc
  simp only at hocc
  have hcellf : (b.bitboards c k).testBit m.fromSq = true := by
    have h := vp_bit_of_mailbox hb hf64 (by rw [hp]; exact hocc)
    rw [hp] at h
    exact h
  have hcellt := vp_bits_empty hb ht64 hemp
  have hoccf : (b.occof c).testBit m.fromSq = true := by
    have h := vp_occof_true hb hf64 (by rw [hp]; exact hocc)
    rw [hp] at h
    exact h
  have hocct := vp_occof_false hb ht64 hemp
  have hbothf : b.occ_both.testBit m.fromSq = true :=
    vp_occ_both_true hb hf64 (by rw [hp]; exact hocc)
  have hbotht := vp_occ_both_false hb ht64 hemp
  have hg : b.game_ply ≠ b.game_ply + 1 := by omega
  unfold RTEq
  rcases hfl with hq | hq
  · simp only [Board.move, Board.undo_move, Board.make_quiet_move, hq]
    norm_num [MF.QUIET, MF.DOUBLE_PUSH, MF.OO, MF.OOO, MF.EN_PASSANT,
      MF.PR_KNIGHT, MF.PR_BISHOP, MF.PR_ROOK, MF.PR_QUEEN, MF.PC_KNIGHT,
      MF.PC_BISHOP, MF.PC_ROOK, MF.PC_QUEEN, MF.CAPTURE,
      remove_piece_eq, put_piece_eq, hp]
    refine ⟨?_, ?_, ?_, ?_, ?_, ?_, ?_, ?_, ?_⟩
    · funext c2 k2
      by_cases hck : c2 = c ∧ k2 = k
      · obtain ⟨rfl, rfl⟩ := hck
        simp only [updBB_eq]
        exact clear_set_rt (vp_bb_lt hb c2 k2) hf64 ht64 hcellf (hcellt c2 k2)
      · simp only [updBB_ne _ _ _ _ hck]
    · cases c
      · have h1 := hoccf
        have h2 := hocct WHITE
        simp only [Board.occof] at h1 h2
        simp only [reduceIte]
        exact clear_set_rt (vp_occ_white_lt hb) hf64 ht64 h1 h2
      · simp
    · cases c
      · simp
      · have h1 := hoccf
        have h2 := hocct BLACK
        simp only [Board.occof] at h1 h2
        simp only [reduceIte]
        exact clear_set_rt (vp_occ_black_lt hb) hf64 ht64 h1 h2
    · exact clear_set_rt (vp_occ_both_lt hb) hf64 ht64 hbothf hbotht
    · intro sq
      by_cases h1 : sq = m.fromSq
      · subst h1
        simp [hp]
      · by_cases h2 : sq = m.toSq
        · subst h2
          simp [updMB_ne _ _ _ h1, hemp]
        · simp [updMB_ne _ _ _ h1, updMB_ne _ _ _ h2]
    · simp only [updHist_ne _ _ _ hg]
      exact hb.2.2.2.2.2.2.1
    · simp only [updHist_ne _ _ _ hg]
      exact hb.2.2.2.2.2.2.2.1
    · simp only [updHist_ne _ _ _ hg]
      exact hb.2.2.2.2.2.2.2.2.1
    · simp only [updHist_ne _ _ _ hg]
  · simp only [Board.move, Board.undo_move, Board.make_quiet_move, hq]
    norm_num [MF.QUIET, MF.DOUBLE_PUSH, MF.OO, MF.OOO, MF.EN_PASSANT,
      MF.PR_KNIGHT, MF.PR_BISHOP, MF.PR_ROOK, MF.PR_QUEEN, MF.PC_KNIGHT,
      MF.PC_BISHOP, MF.PC_ROOK, MF.PC_QUEEN, MF.CAPTURE,
      remove_piece_eq, put_piece_eq, hp]
    refine ⟨?_, ?_, ?_, ?_, ?_, ?_, ?_, ?_, ?_⟩
    · funext c2 k2
      by_cases hck : c2 = c ∧ k2 = k
      · obtain ⟨rfl, rfl⟩ := hck
        simp only [updBB_eq]
        exact clear_set_rt (vp_bb_lt hb c2 k2) hf64 ht64 hcellf (hcellt c2 k2)
      · simp only [updBB_ne _ _ _ _ hck]
    · cases c
      · have h1 := hoccf
        have h2 := hocct WHITE
        simp only [Board.occof] at h1 h2
        simp only [reduceIte]
        exact clear_set_rt (vp_occ_white_lt hb) hf64 ht64 h1 h2
      · simp
    · cases c
      · simp
      · have h1 := hoccf
        have h2 := hocct BLACK
        simp only [Board.occof] at h1 h2
        simp only [reduceIte]
        exact clear_set_rt (vp_occ_black_lt hb) hf64 ht64 h1 h2
    · exact clear_set_rt (vp_occ_both_lt hb) hf64 ht64 hbothf hbotht
    · intro sq
      by_cases h1 : sq = m.fromSq
      · subst h1
        simp [hp]
      · by_cases h2 : sq = m.toSq
        · subst h2
          simp [updMB_ne _ _ _ h1, hemp]
        · simp [updMB_ne _ _ _ h1, updMB_ne _ _ _ h2]
    · simp only [updHist_ne _ _ _ hg]
      exact hb.2.2.2.2.2.2.1
    · simp only [updHist_ne _ _ _ hg]
      exact hb.2.2.2.2.2.2.2.1
    · simp only [updHist_ne _ _ _ hg]
      exact hb.2.2.2.2.2.2.2.2.1
    · simp only [updHist_ne _ _ _ hg]

/-- Round trip of a plain capture. -/
theorem rt_capture (b : Board) (hb : ValidPos b) (m : Move)
    (hfl : m.flags = MF.CAPTURE)
    (hocc : (b.mailbox m.fromSq).type ≠ NO_PIECE_TYPE)
    (hvic : (b.mailbox m.toSq).type ≠ NO_PIECE_TYPE)
    (hcol : (b.mailbox m.toSq).color = (b.mailbox m.fromSq).color.other) :
    RTEq b ((b.move m).undo_move m) := by
  have hf64 := Move.fromSq_lt m
  have ht64 := Move.toSq_lt m
  have hcellf : (b.bitboards (b.mailbox m.fromSq).color
      (b.mailbox m.fromSq).type).testBit m.fromSq = true :=
    vp_bit_of_mailbox hb hf64 hocc
  have hcellv : (b.bitboards (b.mailbox m.toSq).color
      (b.mailbox m.toSq).type).testBit m.toSq = true :=
    vp_bit_of_mailbox hb ht64 hvic
  have hoccf : (b.occof (b.mailbox m.fromSq).color).testBit m.fromSq = true :=
    vp_occof_true hb hf64 hocc
  have hocct : (b.occof (b.mailbox m.toSq).color.other).testBit m.toSq
      = false := vp_occof_other_false hb ht64 hvic
  have hoccvt : (b.occof (b.mailbox m.toSq).color).testBit m.toSq = true :=
    vp_occof_true hb ht64 hvic
  have hcellft : (b.bitboards (b.mailbox m.fromSq).color
      (b.mailbox m.fromSq).type).testBit m.toSq = false := by
    apply vp_bits_other hb ht64 hvic
    intro hck
    rw [hcol] at hck
    exact Color.other_ne _ hck.1.symm
  have hbothf : b.occ_both.testBit m.fromSq = true :=
    vp_occ_both_true hb hf64 hocc
  have hbotht : b.occ_both.testBit m.toSq = true :=
    vp_occ_both_true hb ht64 hvic
  have hg : b.game_ply ≠ b.game_ply + 1 := by omega
  rcases hpf : b.mailbox m.fromSq with ⟨k, c⟩
  rcases hpt : b.mailbox m.toSq with ⟨kv, cv⟩
  rw [hpf] at hocc hcellf hoccf hcellft
  rw [hpt] at hvic hcellv hoccvt hocct hcol
  rw [hpf] at hcol
  simp only at hocc hvic hcellf hcellv hoccf hoccvt hocct hcellft hcol
  have hcvne : cv ≠ c := by rw [hcol]; exact Color.other_ne c
  have hft : m.fromSq ≠ m.toSq := by
    intro h
    rw [h, hpt] at hpf
    exact hcvne (congrArg Piece.color hpf.symm).symm
  have hck1 : ¬(cv = c ∧ kv = k) := fun hh => hcvne hh.1
  have hck2 : ¬(c = cv ∧ k = kv) := fun hh => hcvne hh.1.symm
  have hoc : (b.occof c).testBit m.toSq = false := by
    have h := hocct
    rw [hcol, Color.other_other] at h
    exact h
  unfold RTEq
  simp only [Board.move, Board.undo_move, Board.make_quiet_move,
    Board.make_move, hfl]
  norm_num [MF.QUIET, MF.DOUBLE_PUSH, MF.OO, MF.OOO, MF.EN_PASSANT,
    MF.PR_KNIGHT, MF.PR_BISHOP, MF.PR_ROOK, MF.PR_QUEEN, MF.PC_KNIGHT,
    MF.PC_BISHOP, MF.PC_ROOK, MF.PC_QUEEN, MF.CAPTURE,
    remove_piece_eq, put_piece_eq, hpf, hpt, hvic,
    updBB_ne _ _ _ _ hck1, updBB_ne _ _ _ _ hck2,
    updMB_ne _ _ _ hft]
  subst hcol
  refine ⟨?_, ?_, ?_, ?_, ?_, ?_, ?_, ?_, ?_⟩
  · funext c2 k2
    by_cases h1 : c2 = c ∧ k2 = k
    · obtain ⟨rfl, rfl⟩ := h1
      simp only [updBB_eq, updBB_ne _ _ _ _ hck2]
      exact clear_set_rt (vp_bb_lt hb _ _) hf64 ht64 hcellf hcellft
    · by_cases h2 : c2 = c.other ∧ k2 = kv
      · obtain ⟨rfl, rfl⟩ := h2
        simp only [updBB_eq, updBB_ne _ _ _ _ h1]
        exact clear_set_self (vp_bb_lt hb _ _) ht64 hcellv
      · simp only [updBB_ne _ _ _ _ h1, updBB_ne _ _ _ _ h2]
  · cases c
    · simp only [Color.other] at hoccf hoc ⊢
      simp only [Board.occof] at hoccf hoc
      norm_num
      exact clear_set_rt (vp_occ_white_lt hb) hf64 ht64 hoccf hoc
    · simp only [Color.other] at hoccvt ⊢
      simp only [Board.occof] at hoccvt
      norm_num
      exact clear_set_self (vp_occ_white_lt hb) ht64 hoccvt
  · cases c
    · simp only [Color.other] at hoccvt ⊢
      simp only [Board.occof] at hoccvt
      norm_num
      exact clear_set_self (vp_occ_black_lt hb) ht64 hoccvt
    · simp only [Color.other] at hoccf hoc ⊢
      simp only [Board.occof] at hoccf hoc
      norm_num
      exact clear_set_rt (vp_occ_black_lt hb) hf64 ht64 hoccf hoc
  · exact capture_both_rt (vp_occ_both_lt hb) hf64 ht64 hbothf hbotht
  · intro sq
    by_cases h2 : sq = m.toSq
    · subst h2
      simp [hpt]
    · by_cases h1 : sq = m.fromSq
      · subst h1
        simp [updMB_ne _ _ _ h2, hpf]
      · simp [updMB_ne _ _ _ h1, updMB_ne _ _ _ h2]
  · simp only [updHist_ne _ _ _ hg]
    exact hb.2.2.2.2.2.2.1
  · simp only [updHist_ne _ _ _ hg]
    exact hb.2.2.2.2.2.2.2.1
  · simp only [updHist_ne _ _ _ hg]
    exact hb.2.2.2.2.2.2.2.2.1
  · simp only [updHist_ne _ _ _ hg]

/-- Round trip of a quiet promotion. -/
theorem rt_promo (b : Board) (hb : ValidPos b) (m : Move)
    (hfl4 : m.flags = MF.PR_KNIGHT ∨ m.flags = MF.PR_BISHOP ∨
      m.flags = MF.PR_ROOK ∨ m.flags = MF.PR_QUEEN)
    (hpawn : (b.mailbox m.fromSq).type = PAWN)
    (hcolm : (b.mailbox m.fromSq).color = b.player_to_move)
    (hemp : (b.mailbox m.toSq).type = NO_PIECE_TYPE) :
    RTEq b ((b.move m).undo_move m) := by
  have hf64 := Move.fromSq_lt m
  have ht64 := Move.toSq_lt m
  have hocc : (b.mailbox m.fromSq).type ≠ NO_PIECE_TYPE := by
    rw [hpawn]; decide
  have hft : m.fromSq ≠ m.toSq := by
    intro h; rw [h] at hocc; exact hocc hemp
  have hcellf : (b.bitboards b.player_to_move PAWN).testBit m.fromSq
      = true := by
    have h := vp_bit_of_mailbox hb hf64 hocc
    rw [hpawn, hcolm] at h
    exact h
  have hcellt := vp_bits_empty hb ht64 hemp
  have hoccf : (b.occof b.player_to_move).testBit m.fromSq = true := by
    have h := vp_occof_true hb hf64 hocc
    rw [hcolm] at h
    exact h
  have hoc := vp_occof_false hb ht64 hemp
  have hbothf : b.occ_both.testBit m.fromSq = true :=
    vp_occ_both_true hb hf64 hocc
  have hbotht := vp_occ_both_false hb ht64 hemp
  have hg : b.game_ply ≠ b.game_ply + 1 := by omega
  have hpf : b.mailbox m.fromSq = ⟨PAWN, b.player_to_move⟩ := by
    rw [← hpawn, ← hcolm]
  have hoc2 : (b.occof b.player_to_move).testBit m.toSq = false := hoc _
  unfold RTEq
  rcases hfl4 with hfl | hfl | hfl | hfl
  · simp only [Board.move, Board.undo_move, hfl]
    norm_num [MF.QUIET, MF.DOUBLE_PUSH, MF.OO, MF.OOO, MF.EN_PASSANT,
      MF.PR_KNIGHT, MF.PR_BISHOP, MF.PR_ROOK, MF.PR_QUEEN, MF.PC_KNIGHT,
      MF.PC_BISHOP, MF.PC_ROOK, MF.PC_QUEEN, MF.CAPTURE,
      remove_piece_eq, put_piece_eq, hpf, updMB_ne _ _ _ hft]
    refine ⟨?_, ?_, ?_, ?_, ?_, ?_, ?_, ?_, ?_⟩
    · funext c2 k2
      by_cases h1 : c2 = b.player_to_move ∧ k2 = PAWN
      · obtain ⟨rfl, rfl⟩ := h1
        simp only [updBB_eq, updBB_ne _ _ _ _
          (show ¬(b.player_to_move = b.player_to_move ∧ PAWN = KNIGHT) by simp)]
        exact clear_set_self (vp_bb_lt hb _ _) hf64 hcellf
      · by_cases h2 : c2 = b.player_to_move ∧ k2 = KNIGHT
        · obtain ⟨rfl, rfl⟩ := h2
          simp only [updBB_eq, updBB_ne _ _ _ _
            (show ¬(b.player_to_move = b.player_to_move ∧ KNIGHT = PAWN) by simp)]
          exact set_clear_self (vp_bb_lt hb _ _) ht64 (hcellt _ _)
        · simp only [updBB_ne _ _ _ _ h1, updBB_ne _ _ _ _ h2]
    · cases hco : b.player_to_move
      · rw [hco] at hoccf hoc2
        simp only [Board.occof] at hoccf hoc2
        norm_num
        exact clear_set_rt (vp_occ_white_lt hb) hf64 ht64 hoccf hoc2
      · simp
    · cases hco : b.player_to_move
      · simp
      · rw [hco] at hoccf hoc2
        simp only [Board.occof] at hoccf hoc2
        norm_num
        exact clear_set_rt (vp_occ_black_lt hb) hf64 ht64 hoccf hoc2
    · exact clear_set_rt (vp_occ_both_lt hb) hf64 ht64 hbothf hbotht
    · intro sq
      by_cases h1 : sq = m.fromSq
      · subst h1
        simp [hpf]
      · by_cases h2 : sq = m.toSq
        · subst h2
          simp [updMB_ne _ _ _ h1, hemp]
        · simp [updMB_ne _ _ _ h1, updMB_ne _ _ _ h2]
    · simp only [updHist_ne _ _ _ hg]
      exact hb.2.2.2.2.2.2.1
    · simp only [updHist_ne _ _ _ hg]
      exact hb.2.2.2.2.2.2.2.1
    · simp only [updHist_ne _ _ _ hg]
      exact hb.2.2.2.2.2.2.2.2.1
    · simp only [updHist_ne _ _ _ hg]
  · simp only [Board.move, Board.undo_move, hfl]
    norm_num [MF.QUIET, MF.DOUBLE_PUSH, MF.OO, MF.OOO, MF.EN_PASSANT,
      MF.PR_KNIGHT, MF.PR_BISHOP, MF.PR_ROOK, MF.PR_QUEEN, MF.PC_KNIGHT,
      MF.PC_BISHOP, MF.PC_ROOK, MF.PC_QUEEN, MF.CAPTURE,
      remove_piece_eq, put_piece_eq, hpf, updMB_ne _ _ _ hft]
    refine ⟨?_, ?_, ?_, ?_, ?_, ?_, ?_, ?_, ?_⟩
    · funext c2 k2
      by_cases h1 : c2 = b.player_to_move ∧ k2 = PAWN
      · obtain ⟨rfl, rfl⟩ := h1
        simp only [updBB_eq, updBB_ne _ _ _ _
          (show ¬(b.player_to_move = b.player_to_move ∧ PAWN = BISHOP) by simp)]
        exact clear_set_self (vp_bb_lt hb _ _) hf64 hcellf
      · by_cases h2 : c2 = b.player_to_move ∧ k2 = BISHOP
        · obtain ⟨rfl, rfl⟩ := h2
          simp only [updBB_eq, updBB_ne _ _ _ _
            (show ¬(b.player_to_move = b.player_to_move ∧ BISHOP = PAWN) by simp)]
          exact set_clear_self (vp_bb_lt hb _ _) ht64 (hcellt _ _)
        · simp only [updBB_ne _ _ _ _ h1, updBB_ne _ _ _ _ h2]
    · cases hco : b.player_to_move
      · rw [hco] at hoccf hoc2
        simp only [Board.occof] at hoccf hoc2
        norm_num
        exact clear_set_rt (vp_occ_white_lt hb) hf64 ht64 hoccf hoc2
      · simp
    · cases hco : b.player_to_move
      · simp
      · rw [hco] at hoccf hoc2
        simp only [Board.occof] at hoccf hoc2
        norm_num
        exact clear_set_rt (vp_occ_black_lt hb) hf64 ht64 hoccf hoc2
    · exact clear_set_rt (vp_occ_both_lt hb) hf64 ht64 hbothf hbotht
    · intro sq
      by_cases h1 : sq = m.fromSq
      · subst h1
        simp [hpf]
      · by_cases h2 : sq = m.toSq
        · subst h2
          simp [updMB_ne _ _ _ h1, hemp]
        · simp [updMB_ne _ _ _ h1, updMB_ne _ _ _ h2]
    · simp only [updHist_ne _ _ _ hg]
      exact hb.2.2.2.2.2.2.1
    · simp only [updHist_ne _ _ _ hg]
      exact hb.2.2.2.2.2.2.2.1
    · simp only [updHist_ne _ _ _ hg]
      exact hb.2.2.2.2.2.2.2.2.1
    · simp only [updHist_ne _ _ _ hg]
  · simp only [Board.move, Board.undo_move, hfl]
    norm_num [MF.QUIET, MF.DOUBLE_PUSH, MF.OO, MF.OOO, MF.EN_PASSANT,
      MF.PR_KNIGHT, MF.PR_BISHOP, MF.PR_ROOK, MF.PR_QUEEN, MF.PC_KNIGHT,
      MF.PC_BISHOP, MF.PC_ROOK, MF.PC_QUEEN, MF.CAPTURE,
      remove_piece_eq, put_piece_eq, hpf, updMB_ne _ _ _ hft]
    refine ⟨?_, ?_, ?_, ?_, ?_, ?_, ?_, ?_, ?_⟩
    · funext c2 k2
      by_cases h1 : c2 = b.player_to_move ∧ k2 = PAWN
      · obtain ⟨rfl, rfl⟩ := h1
        simp only [updBB_eq, updBB_ne _ _ _ _
          (show ¬(b.player_to_move = b.player_to_move ∧ PAWN = ROOK) by simp)]
        exact clear_set_self (vp_bb_lt hb _ _) hf64 hcellf
      · by_cases h2 : c2 = b.player_to_move ∧ k2 = ROOK
        · obtain ⟨rfl, rfl⟩ := h2
          simp only [updBB_eq, updBB_ne _ _ _ _
            (show ¬(b.player_to_move = b.player_to_move ∧ ROOK = PAWN) by simp)]
          exact set_clear_self (vp_bb_lt hb _ _) ht64 (hcellt _ _)
        · simp only [updBB_ne _ _ _ _ h1, updBB_ne _ _ _ _ h2]
    · cases hco : b.player_to_move
      · rw [hco] at hoccf hoc2
        simp only [Board.occof] at hoccf hoc2
        norm_num
        exact clear_set_rt (vp_occ_white_lt hb) hf64 ht64 hoccf hoc2
      · simp
    · cases hco : b.player_to_move
      · simp
      · rw [hco] at hoccf hoc2
        simp only [Board.occof] at hoccf hoc2
        norm_num
        exact clear_set_rt (vp_occ_black_lt hb) hf64 ht64 hoccf hoc2
    · exact clear_set_rt (vp_occ_both_lt hb) hf64 ht64 hbothf hbotht
    · intro sq
      by_cases h1 : sq = m.fromSq
      · subst h1
        simp [hpf]
      · by_cases h2 : sq = m.toSq
        · subst h2
          simp [updMB_ne _ _ _ h1, hemp]
        · simp [updMB_ne _ _ _ h1, updMB_ne _ _ _ h2]
    · simp only [updHist_ne _ _ _ hg]
      exact hb.2.2.2.2.2.2.1
    · simp only [updHist_ne _ _ _ hg]
      exact hb.2.2.2.2.2.2.2.1
    · simp only [updHist_ne _ _ _ hg]
      exact hb.2.2.2.2.2.2.2.2.1
    · simp only [updHist_ne _ _ _ hg]
  · simp only [Board.move, Board.undo_move, hfl]
    norm_num [MF.QUIET, MF.DOUBLE_PUSH, MF.OO, MF.OOO, MF.EN_PASSANT,
      MF.PR_KNIGHT, MF.PR_BISHOP, MF.PR_ROOK, MF.PR_QUEEN, MF.PC_KNIGHT,
      MF.PC_BISHOP, MF.PC_ROOK, MF.PC_QUEEN, MF.CAPTURE,
      remove_piece_eq, put_piece_eq, hpf, updMB_ne _ _ _ hft]
    refine ⟨?_, ?_, ?_, ?_, ?_, ?_, ?_, ?_, ?_⟩
    · funext c2 k2
      by_cases h1 : c2 = b.player_to_move ∧ k2 = PAWN
      · obtain ⟨rfl, rfl⟩ := h1
        simp only [updBB_eq, updBB_ne _ _ _ _
          (show ¬(b.player_to_move = b.player_to_move ∧ PAWN = QUEEN) by simp)]
        exact clear_set_self (vp_bb_lt hb _ _) hf64 hcellf
      · by_cases h2 : c2 = b.player_to_move ∧ k2 = QUEEN
        · obtain ⟨rfl, rfl⟩ := h2
          simp only [updBB_eq, updBB_ne _ _ _ _
            (show ¬(b.player_to_move = b.player_to_move ∧ QUEEN = PAWN) by simp)]
          exact set_clear_self (vp_bb_lt hb _ _) ht64 (hcellt _ _)
        · simp only [updBB_ne _ _ _ _ h1, updBB_ne _ _ _ _ h2]
    · cases hco : b.player_to_move
      · rw [hco] at hoccf hoc2
        simp only [Board.occof] at hoccf hoc2
        norm_num
        exact clear_set_rt (vp_occ_white_lt hb) hf64 ht64 hoccf hoc2
      · simp
    · cases hco : b.player_to_move
      · simp
      · rw [hco] at hoccf hoc2
        simp only [Board.occof] at hoccf hoc2
        norm_num
        exact clear_set_rt (vp_occ_black_lt hb) hf64 ht64 hoccf hoc2
    · exact clear_set_rt (vp_occ_both_lt hb) hf64 ht64 hbothf hbotht
    · intro sq
      by_cases h1 : sq = m.fromSq
      · subst h1
        simp [hpf]
      · by_cases h2 : sq = m.toSq
        · subst h2
          simp [updMB_ne _ _ _ h1, hemp]
        · simp [updMB_ne _ _ _ h1, updMB_ne _ _ _ h2]
    · simp only [updHist_ne _ _ _ hg]
      exact hb.2.2.2.2.2.2.1
    · simp only [updHist_ne _ _ _ hg]
      exact hb.2.2.2.2.2.2.2.1
    · simp only [updHist_ne _ _ _ hg]
      exact hb.2.2.2.2.2.2.2.2.1
    · simp only [updHist_ne _ _ _ hg]

/-- Round trip of a capture promotion. -/
theorem rt_pc (b : Board) (hb : ValidPos b) (m : Move)
    (hfl4 : m.flags = MF.PC_KNIGHT ∨ m.flags = MF.PC_BISHOP ∨
      m.flags = MF.PC_ROOK ∨ m.flags = MF.PC_QUEEN)
    (hpawn : (b.mailbox m.fromSq).type = PAWN)
    (hcolm : (b.mailbox m.fromSq).color = b.player_to_move)
    (hvic : (b.mailbox m.toSq).type ≠ NO_PIECE_TYPE)
    (hcolv : (b.mailbox m.toSq).color = b.player_to_move.other) :
    RTEq b ((b.move m).undo_move m) := by
  have hf64 := Move.fromSq_lt m
  have ht64 := Move.toSq_lt m
  have hocc : (b.mailbox m.fromSq).type ≠ NO_PIECE_TYPE := by
    rw [hpawn]; decide
  have hft : m.fromSq ≠ m.toSq := by
    intro h
    rw [h, hcolv] at hcolm
    exact Color.other_ne _ hcolm
  have hcellf : (b.bitboards b.player_to_move PAWN).testBit m.fromSq
      = true := by
    have h := vp_bit_of_mailbox hb hf64 hocc
    rw [hpawn, hcolm] at h
    exact h
  have hcellXt : ∀ k2 : PieceType,
      (b.bitboards b.player_to_move k2).testBit m.toSq = false := by
    intro k2
    apply vp_bits_other hb ht64 hvic
    intro hh
    rw [hcolv] at hh
    exact Color.other_ne _ hh.1.symm
  have hoccf : (b.occof b.player_to_move).testBit m.fromSq = true := by
    have h := vp_occof_true hb hf64 hocc
    rw [hcolm] at h
    exact h
  have hocctu : (b.occof b.player_to_move).testBit m.toSq = false := by
    have h := vp_occof_other_false hb ht64 hvic
    rw [hcolv, Color.other_other] at h
    exact h
  have hoccvt : (b.occof b.player_to_move.other).testBit m.toSq = true := by
    have h := vp_occof_true hb ht64 hvic
    rw [hcolv] at h
    exact h
  have hbothf : b.occ_both.testBit m.fromSq = true :=
    vp_occ_both_true hb hf64 hocc
  have hbotht : b.occ_both.testBit m.toSq = true :=
    vp_occ_both_true hb ht64 hvic
  have hg : b.game_ply ≠ b.game_ply + 1 := by omega
  have hpf : b.mailbox m.fromSq = ⟨PAWN, b.player_to_move⟩ := by
    rw [← hpawn, ← hcolm]
  rcases hpt : b.mailbox m.toSq with ⟨kv, cv⟩
  rw [hpt] at hvic hcolv
  simp only at hvic hcolv
  have hcellv : (b.bitboards cv kv).testBit m.toSq = true := by
    have h := vp_bit_of_mailbox hb ht64 (by rw [hpt]; exact hvic)
    rw [hpt] at h
    exact h
  subst hcolv
  unfold RTEq
  rcases hfl4 with hfl | hfl | hfl | hfl
  · simp only [Board.move, Board.undo_move, hfl]
    norm_num [MF.QUIET, MF.DOUBLE_PUSH, MF.OO, MF.OOO, MF.EN_PASSANT,
      MF.PR_KNIGHT, MF.PR_BISHOP, MF.PR_ROOK, MF.PR_QUEEN, MF.PC_KNIGHT,
      MF.PC_BISHOP, MF.PC_ROOK, MF.PC_QUEEN, MF.CAPTURE,
      remove_piece_eq, put_piece_eq, hpf, hpt, hvic,
      updMB_ne _ _ _ hft, updMB_ne _ _ _ (Ne.symm hft),
      updBB_ne _ _ _ _ (show ¬(b.player_to_move.other = b.player_to_move ∧
        kv = PAWN) from fun hh => Color.other_ne _ hh.1),
      updBB_ne _ _ _ _ (show ¬(b.player_to_move = b.player_to_move.other ∧
        PAWN = kv) from fun hh => Color.other_ne _ hh.1.symm),
      updBB_ne _ _ _ _ (show ¬(b.player_to_move = b.player_to_move.other ∧
        KNIGHT = kv) from fun hh => Color.other_ne _ hh.1.symm),
      updBB_ne _ _ _ _ (show ¬(b.player_to_move.other = b.player_to_move ∧
        kv = KNIGHT) from fun hh => Color.other_ne _ hh.1),
      updBB_ne _ _ _ _ (show ¬(b.player_to_move = b.player_to_move ∧
        KNIGHT = PAWN) by simp),
      updBB_ne _ _ _ _ (show ¬(b.player_to_move = b.player_to_move ∧
        PAWN = KNIGHT) by simp)]
    refine ⟨?_, ?_, ?_, ?_, ?_, ?_, ?_, ?_, ?_⟩
    · funext c2 k2
      by_cases h1 : c2 = b.player_to_move ∧ k2 = PAWN
      · obtain ⟨rfl, rfl⟩ := h1
        simp only [updBB_eq,
          updBB_ne _ _ _ _ (show ¬(b.player_to_move = b.player_to_move.other ∧
            PAWN = kv) from fun hh => Color.other_ne _ hh.1.symm),
          updBB_ne _ _ _ _ (show ¬(b.player_to_move = b.player_to_move ∧
            PAWN = KNIGHT) by simp)]
        exact clear_set_self (vp_bb_lt hb _ _) hf64 hcellf
      · by_cases h2 : c2 = b.player_to_move ∧ k2 = KNIGHT
        · obtain ⟨rfl, rfl⟩ := h2
          simp only [updBB_eq,
            updBB_ne _ _ _ _ (show ¬(b.player_to_move =
              b.player_to_move.other ∧ KNIGHT = kv) from
              fun hh => Color.other_ne _ hh.1.symm),
            updBB_ne _ _ _ _ (show ¬(b.player_to_move = b.player_to_move ∧
              KNIGHT = PAWN) by simp)]
          exact set_clear_self (vp_bb_lt hb _ _) ht64 (hcellXt _)
        · by_cases h3 : c2 = b.player_to_move.other ∧ k2 = kv
          · obtain ⟨rfl, rfl⟩ := h3
            simp only [updBB_eq, updBB_ne _ _ _ _ h1, updBB_ne _ _ _ _ h2]
            exact clear_set_self (vp_bb_lt hb _ _) ht64 hcellv
          · simp only [updBB_ne _ _ _ _ h1, updBB_ne _ _ _ _ h2,
              updBB_ne _ _ _ _ h3]
    · cases hco : b.player_to_move
      · rw [hco] at hoccf hocctu
        simp only [Color.other] at *
        simp only [Board.occof] at hoccf hocctu
        norm_num
        exact clear_set_rt (vp_occ_white_lt hb) hf64 ht64 hoccf hocctu
      · rw [hco] at hoccvt
        simp only [Color.other] at *
        simp only [Board.occof] at hoccvt
        norm_num
        exact clear_set_self (vp_occ_white_lt hb) ht64 hoccvt
    · cases hco : b.player_to_move
      · rw [hco] at hoccvt
        simp only [Color.other] at *
        simp only [Board.occof] at hoccvt
        norm_num
        exact clear_set_self (vp_occ_black_lt hb) ht64 hoccvt
      · rw [hco] at hoccf hocctu
        simp only [Color.other] at *
        simp only [Board.occof] at hoccf hocctu
        norm_num
        exact clear_set_rt (vp_occ_black_lt hb) hf64 ht64 hoccf hocctu
    · exact pc_both_rt (vp_occ_both_lt hb) hf64 ht64 hbothf hbotht
    · intro sq
      by_cases h1 : sq = m.fromSq
      · subst h1
        simp [hpf]
      · by_cases h2 : sq = m.toSq
        · subst h2
          simp [updMB_ne _ _ _ h1, hpt]
        · simp [updMB_ne _ _ _ h1, updMB_ne _ _ _ h2]
    · simp only [updHist_ne _ _ _ hg]
      exact hb.2.2.2.2.2.2.1
    · simp only [updHist_ne _ _ _ hg]
      exact hb.2.2.2.2.2.2.2.1
    · simp only [updHist_ne _ _ _ hg]
      exact hb.2.2.2.2.2.2.2.2.1
    · simp only [updHist_ne _ _ _ hg]
  · simp only [Board.move, Board.undo_move, hfl]
    norm_num [MF.QUIET, MF.DOUBLE_PUSH, MF.OO, MF.OOO, MF.EN_PASSANT,
      MF.PR_KNIGHT, MF.PR_BISHOP, MF.PR_ROOK, MF.PR_QUEEN, MF.PC_KNIGHT,
      MF.PC_BISHOP, MF.PC_ROOK, MF.PC_QUEEN, MF.CAPTURE,
      remove_piece_eq, put_piece_eq, hpf, hpt, hvic,
      updMB_ne _ _ _ hft, updMB_ne _ _ _ (Ne.symm hft),
      updBB_ne _ _ _ _ (show ¬(b.player_to_move.other = b.player_to_move ∧
        kv = PAWN) from fun hh => Color.other_ne _ hh.1),
      updBB_ne _ _ _ _ (show ¬(b.player_to_move = b.player_to_move.other ∧
        PAWN = kv) from fun hh => Color.other_ne _ hh.1.symm),
      updBB_ne _ _ _ _ (show ¬(b.player_to_move = b.player_to_move.other ∧
        BISHOP = kv) from fun hh => Color.other_ne _ hh.1.symm),
      updBB_ne _ _ _ _ (show ¬(b.player_to_move.other = b.player_to_move ∧
        kv = BISHOP) from fun hh => Color.other_ne _ hh.1),
      updBB_ne _ _ _ _ (show ¬(b.player_to_move = b.player_to_move ∧
        BISHOP = PAWN) by simp),
      updBB_ne _ _ _ _ (show ¬(b.player_to_move = b.player_to_move ∧
        PAWN = BISHOP) by simp)]
    refine ⟨?_, ?_, ?_, ?_, ?_, ?_, ?_, ?_, ?_⟩
    · funext c2 k2
      by_cases h1 : c2 = b.player_to_move ∧ k2 = PAWN
      · obtain ⟨rfl, rfl⟩ := h1
        simp only [updBB_eq,
          updBB_ne _ _ _ _ (show ¬(b.player_to_move = b.player_to_move.other ∧
            PAWN = kv) from fun hh => Color.other_ne _ hh.1.symm),
          updBB_ne _ _ _ _ (show ¬(b.player_to_move = b.player_to_move ∧
            PAWN = BISHOP) by simp)]
        exact clear_set_self (vp_bb_lt hb _ _) hf64 hcellf
      · by_cases h2 : c2 = b.player_to_move ∧ k2 = BISHOP
        · obtain ⟨rfl, rfl⟩ := h2
          simp only [updBB_eq,
            updBB_ne _ _ _ _ (show ¬(b.player_to_move =
              b.player_to_move.other ∧ BISHOP = kv) from
              fun hh => Color.other_ne _ hh.1.symm),
            updBB_ne _ _ _ _ (show ¬(b.player_to_move = b.player_to_move ∧
              BISHOP = PAWN) by simp)]
          exact set_clear_self (vp_bb_lt hb _ _) ht64 (hcellXt _)
        · by_cases h3 : c2 = b.player_to_move.other ∧ k2 = kv
          · obtain ⟨rfl, rfl⟩ := h3
            simp only [updBB_eq, updBB_ne _ _ _ _ h1, updBB_ne _ _ _ _ h2]
            exact clear_set_self (vp_bb_lt hb _ _) ht64 hcellv
          · simp only [updBB_ne _ _ _ _ h1, updBB_ne _ _ _ _ h2,
              updBB_ne _ _ _ _ h3]
    · cases hco : b.player_to_move
      · rw [hco] at hoccf hocctu
        simp only [Color.other] at *
        simp only [Board.occof] at hoccf hocctu
        norm_num
        exact clear_set_rt (vp_occ_white_lt hb) hf64 ht64 hoccf hocctu
      · rw [hco] at hoccvt
        simp only [Color.other] at *
        simp only [Board.occof] at hoccvt
        norm_num
        exact clear_set_self (vp_occ_white_lt hb) ht64 hoccvt
    · cases hco : b.player_to_move
      · rw [hco] at hoccvt
        simp only [Color.other] at *
        simp only [Board.occof] at hoccvt
        norm_num
        exact clear_set_self (vp_occ_black_lt hb) ht64 hoccvt
      · rw [hco] at hoccf hocctu
        simp only [Color.other] at *
        simp only [Board.occof] at hoccf hocctu
        norm_num
        exact clear_set_rt (vp_occ_black_lt hb) hf64 ht64 hoccf hocctu
    · exact pc_both_rt (vp_occ_both_lt hb) hf64 ht64 hbothf hbotht
    · intro sq
      by_cases h1 : sq = m.fromSq
      · subst h1
        simp [hpf]
      · by_cases h2 : sq = m.toSq
        · subst h2
          simp [updMB_ne _ _ _ h1, hpt]
        · simp [updMB_ne _ _ _ h1, updMB_ne _ _ _ h2]
    · simp only [updHist_ne _ _ _ hg]
      exact hb.2.2.2.2.2.2.1
    · simp only [updHist_ne _ _ _ hg]
      exact hb.2.2.2.2.2.2.2.1
    · simp only [updHist_ne _ _ _ hg]
      exact hb.2.2.2.2.2.2.2.2.1
    · simp only [updHist_ne _ _ _ hg]
  · simp only [Board.move, Board.undo_move, hfl]
    norm_num [MF.QUIET, MF.DOUBLE_PUSH, MF.OO, MF.OOO, MF.EN_PASSANT,
      MF.PR_KNIGHT, MF.PR_BISHOP, MF.PR_ROOK, MF.PR_QUEEN, MF.PC_KNIGHT,
      MF.PC_BISHOP, MF.PC_ROOK, MF.PC_QUEEN, MF.CAPTURE,
      remove_piece_eq, put_piece_eq, hpf, hpt, hvic,
      updMB_ne _ _ _ hft, updMB_ne _ _ _ (Ne.symm hft),
      updBB_ne _ _ _ _ (show ¬(b.player_to_move.other = b.player_to_move ∧
        kv = PAWN) from fun hh => Color.other_ne _ hh.1),
      updBB_ne _ _ _ _ (show ¬(b.player_to_move = b.player_to_move.other ∧
        PAWN = kv) from fun hh => Color.other_ne _ hh.1.symm),
      updBB_ne _ _ _ _ (show ¬(b.player_to_move = b.player_to_move.other ∧
        ROOK = kv) from fun hh => Color.other_ne _ hh.1.symm),
      updBB_ne _ _ _ _ (show ¬(b.player_to_move.other = b.player_to_move ∧
        kv = ROOK) from fun hh => Color.other_ne _ hh.1),
      updBB_ne _ _ _ _ (show ¬(b.player_to_move = b.player_to_move ∧
        ROOK = PAWN) by simp),
      updBB_ne _ _ _ _ (show ¬(b.player_to_move = b.player_to_move ∧
        PAWN = ROOK) by simp)]
    refine ⟨?_, ?_, ?_, ?_, ?_, ?_, ?_, ?_, ?_⟩
    · funext c2 k2
      by_cases h1 : c2 = b.player_to_move ∧ k2 = PAWN
      · obtain ⟨rfl, rfl⟩ := h1
        simp only [updBB_eq,
          updBB_ne _ _ _ _ (show ¬(b.player_to_move = b.player_to_move.other ∧
            PAWN = kv) from fun hh => Color.other_ne _ hh.1.symm),
          updBB_ne _ _ _ _ (show ¬(b.player_to_move = b.player_to_move ∧
            PAWN = ROOK) by simp)]
        exact clear_set_self (vp_bb_lt hb _ _) hf64 hcellf
      · by_cases h2 : c2 = b.player_to_move ∧ k2 = ROOK
        · obtain ⟨rfl, rfl⟩ := h2
          simp only [updBB_eq,
            updBB_ne _ _ _ _ (show ¬(b.player_to_move =
              b.player_to_move.other ∧ ROOK = kv) from
              fun hh => Color.other_ne _ hh.1.symm),
            updBB_ne _ _ _ _ (show ¬(b.player_to_move = b.player_to_move ∧
              ROOK = PAWN) by simp)]
          exact set_clear_self (vp_bb_lt hb _ _) ht64 (hcellXt _)
        · by_cases h3 : c2 = b.player_to_move.other ∧ k2 = kv
          · obtain ⟨rfl, rfl⟩ := h3
            simp only [updBB_eq, updBB_ne _ _ _ _ h1, updBB_ne _ _ _ _ h2]
            exact clear_set_self (vp_bb_lt hb _ _) ht64 hcellv
          · simp only [updBB_ne _ _ _ _ h1, updBB_ne _ _ _ _ h2,
              updBB_ne _ _ _ _ h3]
    · cases hco : b.player_to_move
      · rw [hco] at hoccf hocctu
        simp only [Color.other] at *
        simp only [Board.occof] at hoccf hocctu
        norm_num
        exact clear_set_rt (vp_occ_white_lt hb) hf64 ht64 hoccf hocctu
      · rw [hco] at hoccvt
        simp only [Color.other] at *
        simp only [Board.occof] at hoccvt
        norm_num
        exact clear_set_self (vp_occ_white_lt hb) ht64 hoccvt
    · cases hco : b.player_to_move
      · rw [hco] at hoccvt
        simp only [Color.other] at *
        simp only [Board.occof] at hoccvt
        norm_num
        exact clear_set_self (vp_occ_black_lt hb) ht64 hoccvt
      · rw [hco] at hoccf hocctu
        simp only [Color.other] at *
        simp only [Board.occof] at hoccf hocctu
        norm_num
        exact clear_set_rt (vp_occ_black_lt hb) hf64 ht64 hoccf hocctu
    · exact pc_both_rt (vp_occ_both_lt hb) hf64 ht64 hbothf hbotht
    · intro sq
      by_cases h1 : sq = m.fromSq
      · subst h1
        simp [hpf]
      · by_cases h2 : sq = m.toSq
        · subst h2
          simp [updMB_ne _ _ _ h1, hpt]
        · simp [updMB_ne _ _ _ h1, updMB_ne _ _ _ h2]
    · simp only [updHist_ne _ _ _ hg]
      exact hb.2.2.2.2.2.2.1
    · simp only [updHist_ne _ _ _ hg]
      exact hb.2.2.2.2.2.2.2.1
    · simp only [updHist_ne _ _ _ hg]
      exact hb.2.2.2.2.2.2.2.2.1
    · simp only [updHist_ne _ _ _ hg]
  · simp only [Board.move, Board.undo_move, hfl]
    norm_num [MF.QUIET, MF.DOUBLE_PUSH, MF.OO, MF.OOO, MF.EN_PASSANT,
      MF.PR_KNIGHT, MF.PR_BISHOP, MF.PR_ROOK, MF.PR_QUEEN, MF.PC_KNIGHT,
      MF.PC_BISHOP, MF.PC_ROOK, MF.PC_QUEEN, MF.CAPTURE,
      remove_piece_eq, put_piece_eq, hpf, hpt, hvic,
      updMB_ne _ _ _ hft, updMB_ne _ _ _ (Ne.symm hft),
      updBB_ne _ _ _ _ (show ¬(b.player_to_move.other = b.player_to_move ∧
        kv = PAWN) from fun hh => Color.other_ne _ hh.1),
      updBB_ne _ _ _ _ (show ¬(b.player_to_move = b.player_to_move.other ∧
        PAWN = kv) from fun hh => Color.other_ne _ hh.1.symm),
      updBB_ne _ _ _ _ (show ¬(b.player_to_move = b.player_to_move.other ∧
        QUEEN = kv) from fun hh => Color.other_ne _ hh.1.symm),
      updBB_ne _ _ _ _ (show ¬(b.player_to_move.other = b.player_to_move ∧
        kv = QUEEN) from fun hh => Color.other_ne _ hh.1),
      updBB_ne _ _ _ _ (show ¬(b.player_to_move = b.player_to_move ∧
        QUEEN = PAWN) by simp),
      updBB_ne _ _ _ _ (show ¬(b.player_to_move = b.player_to_move ∧
        PAWN = QUEEN) by simp)]
    refine ⟨?_, ?_, ?_, ?_, ?_, ?_, ?_, ?_, ?_⟩
    · funext c2 k2
      by_cases h1 : c2 = b.player_to_move ∧ k2 = PAWN
      · obtain ⟨rfl, rfl⟩ := h1
        simp only [updBB_eq,
          updBB_ne _ _ _ _ (show ¬(b.player_to_move = b.player_to_move.other ∧
            PAWN = kv) from fun hh => Color.other_ne _ hh.1.symm),
          updBB_ne _ _ _ _ (show ¬(b.player_to_move = b.player_to_move ∧
            PAWN = QUEEN) by simp)]
        exact clear_set_self (vp_bb_lt hb _ _) hf64 hcellf
      · by_cases h2 : c2 = b.player_to_move ∧ k2 = QUEEN
        · obtain ⟨rfl, rfl⟩ := h2
          simp only [updBB_eq,
            updBB_ne _ _ _ _ (show ¬(b.player_to_move =
              b.player_to_move.other ∧ QUEEN = kv) from
              fun hh => Color.other_ne _ hh.1.symm),
            updBB_ne _ _ _ _ (show ¬(b.player_to_move = b.player_to_move ∧
              QUEEN = PAWN) by simp)]
          exact set_clear_self (vp_bb_lt hb _ _) ht64 (hcellXt _)
        · by_cases h3 : c2 = b.player_to_move.other ∧ k2 = kv
          · obtain ⟨rfl, rfl⟩ := h3
            simp only [updBB_eq, updBB_ne _ _ _ _ h1, updBB_ne _ _ _ _ h2]
            exact clear_set_self (vp_bb_lt hb _ _) ht64 hcellv
          · simp only [updBB_ne _ _ _ _ h1, updBB_ne _ _ _ _ h2,
              updBB_ne _ _ _ _ h3]
    · cases hco : b.player_to_move
      · rw [hco] at hoccf hocctu
        simp only [Color.other] at *
        simp only [Board.occof] at hoccf hocctu
        norm_num
        exact clear_set_rt (vp_occ_white_lt hb) hf64 ht64 hoccf hocctu
      · rw [hco] at hoccvt
        simp only [Color.other] at *
        simp only [Board.occof] at hoccvt
        norm_num
        exact clear_set_self (vp_occ_white_lt hb) ht64 hoccvt
    · cases hco : b.player_to_move
      · rw [hco] at hoccvt
        simp only [Color.other] at *
        simp only [Board.occof] at hoccvt
        norm_num
        exact clear_set_self (vp_occ_black_lt hb) ht64 hoccvt
      · rw [hco] at hoccf hocctu
        simp only [Color.other] at *
        simp only [Board.occof] at hoccf hocctu
        norm_num
        exact clear_set_rt (vp_occ_black_lt hb) hf64 ht64 hoccf hocctu
    · exact pc_both_rt (vp_occ_both_lt hb) hf64 ht64 hbothf hbotht
    · intro sq
      by_cases h1 : sq = m.fromSq
      · subst h1
        simp [hpf]
      · by_cases h2 : sq = m.toSq
        · subst h2
          simp [updMB_ne _ _ _ h1, hpt]
        · simp [updMB_ne _ _ _ h1, updMB_ne _ _ _ h2]
    · simp only [updHist_ne _ _ _ hg]
      exact hb.2.2.2.2.2.2.1
    · simp only [updHist_ne _ _ _ hg]
      exact hb.2.2.2.2.2.2.2.1
    · simp only [updHist_ne _ _ _ hg]
      exact hb.2.2.2.2.2.2.2.2.1
    · simp only [updHist_ne _ _ _ hg]

/-- Round trip of an en-passant capture (WHITE to move). -/
theorem rt_ep_white (b : Board) (hb : ValidPos b) (m : Move)
    (hfl : m.flags = MF.EN_PASSANT)
    (hco : b.player_to_move = WHITE)
    (v : Nat) (hveq : addDir m.toSq (-8 : Int) = v) (hv64 : v < 64)
    (hpf : b.mailbox m.fromSq = ⟨PAWN, WHITE⟩)
    (hemp : (b.mailbox m.toSq).type = NO_PIECE_TYPE)
    (hpv : b.mailbox v = ⟨PAWN, BLACK⟩)
    (hvf : v ≠ m.fromSq) (hvt : v ≠ m.toSq) :
    RTEq b ((b.move m).undo_move m) := by
  have hf64 := Move.fromSq_lt m
  have ht64 := Move.toSq_lt m
  have hocc : (b.mailbox m.fromSq).type ≠ NO_PIECE_TYPE := by
    rw [hpf]; decide
  have hvicv : (b.mailbox v).type ≠ NO_PIECE_TYPE := by
    rw [hpv]; decide
  have hft : m.fromSq ≠ m.toSq := by
    intro h; rw [h] at hocc; exact hocc hemp
  have hcellf : (b.bitboards WHITE PAWN).testBit m.fromSq = true := by
    have h := vp_bit_of_mailbox hb hf64 hocc
    rw [hpf] at h
    exact h
  have hcellv : (b.bitboards BLACK PAWN).testBit v = true := by
    have h := vp_bit_of_mailbox hb hv64 hvicv
    rw [hpv] at h
    exact h
  have hcellt := vp_bits_empty hb ht64 hemp
  have hcellft : (b.bitboards WHITE PAWN).testBit m.toSq = false :=
    hcellt _ _
  have hoccf : (b.occof WHITE).testBit m.fromSq = true := by
    have h := vp_occof_true hb hf64 hocc
    rw [hpf] at h
    exact h
  have hocct : (b.occof WHITE).testBit m.toSq = false :=
    vp_occof_false hb ht64 hemp WHITE
  have hoccv : (b.occof BLACK).testBit v = true := by
    have h := vp_occof_true hb hv64 hvicv
    rw [hpv] at h
    exact h
  have hbothf : b.occ_both.testBit m.fromSq = true :=
    vp_occ_both_true hb hf64 hocc
  have hbotht : b.occ_both.testBit m.toSq = false :=
    vp_occ_both_false hb ht64 hemp
  have hbothv : b.occ_both.testBit v = true :=
    vp_occ_both_true hb hv64 hvicv
  have hg : b.game_ply ≠ b.game_ply + 1 := by omega
  unfold RTEq
  simp only [Board.move, Board.undo_move, Board.make_quiet_move,
    Board.relative_dir, hfl, hco]
  norm_num [MF.QUIET, MF.DOUBLE_PUSH, MF.OO, MF.OOO, MF.EN_PASSANT,
    MF.PR_KNIGHT, MF.PR_BISHOP, MF.PR_ROOK, MF.PR_QUEEN, MF.PC_KNIGHT,
    MF.PC_BISHOP, MF.PC_ROOK, MF.PC_QUEEN, MF.CAPTURE, SOUTH,
    remove_piece_eq, put_piece_eq, hveq, hpf, hpv,
    updMB_ne _ _ _ hft, updMB_ne _ _ _ (Ne.symm hft),
    updMB_ne _ _ _ hvf, updMB_ne _ _ _ hvt,
    updMB_ne _ _ _ (Ne.symm hvf), updMB_ne _ _ _ (Ne.symm hvt),
    Color.other, (show (BLACK = WHITE) = False by simp),
    (show (WHITE = BLACK) = False by simp),
    updBB_ne _ _ _ _ (show ¬(BLACK = WHITE ∧ PAWN = PAWN) by simp),
    updBB_ne _ _ _ _ (show ¬(WHITE = BLACK ∧ PAWN = PAWN) by simp)]
  refine ⟨?_, ?_, ?_, ?_, ?_, ?_, ?_, ?_, ?_⟩
  · funext c2 k2
    by_cases h1 : c2 = WHITE ∧ k2 = PAWN
    · obtain ⟨rfl, rfl⟩ := h1
      simp only [updBB_eq,
        updBB_ne _ _ _ _ (show ¬(WHITE = BLACK ∧ PAWN = PAWN) by simp)]
      exact clear_set_rt (vp_bb_lt hb _ _) hf64 ht64 hcellf hcellft
    · by_cases h2 : c2 = BLACK ∧ k2 = PAWN
      · obtain ⟨rfl, rfl⟩ := h2
        simp only [updBB_eq, updBB_ne _ _ _ _ h1]
        exact clear_set_self (vp_bb_lt hb _ _) hv64 hcellv
      · simp only [updBB_ne _ _ _ _ h1, updBB_ne _ _ _ _ h2]
  · have h1 : Nat.testBit b.occ_white m.fromSq = true := hoccf
    have h2 : Nat.testBit b.occ_white m.toSq = false := hocct
    exact clear_set_rt (vp_occ_white_lt hb) hf64 ht64 h1 h2
  · have h1 : Nat.testBit b.occ_black v = true := hoccv
    exact clear_set_self (vp_occ_black_lt hb) hv64 h1
  · exact ep_both_rt (vp_occ_both_lt hb) hf64 ht64 hv64 hbothf hbotht
      hbothv hvt hvf
  · intro sq
    by_cases hv : sq = v
    · subst hv
      simp [hpv]
    · by_cases h1 : sq = m.fromSq
      · subst h1
        simp [updMB_ne _ _ _ (Ne.symm hvf), hpf]
      · by_cases h2 : sq = m.toSq
        · subst h2
          simp [updMB_ne _ _ _ (Ne.symm hvt), updMB_ne _ _ _ h1, hemp]
        · simp [updMB_ne _ _ _ (fun hh => hv hh : ¬(sq = v)),
            updMB_ne _ _ _ h1, updMB_ne _ _ _ h2]
  · simp only [updHist_ne _ _ _ hg]
    exact hb.2.2.2.2.2.2.1
  · simp only [updHist_ne _ _ _ hg]
    exact hb.2.2.2.2.2.2.2.1
  · simp only [updHist_ne _ _ _ hg]
    exact hb.2.2.2.2.2.2.2.2.1
  · simp only [updHist_ne _ _ _ hg]

/-- Round trip of an en-passant capture (BLACK to move). -/
theorem rt_ep_black (b : Board) (hb : ValidPos b) (m : Move)
    (hfl : m.flags = MF.EN_PASSANT)
    (hco : b.player_to_move = BLACK)
    (v : Nat) (hveq : addDir m.toSq (8 : Int) = v) (hv64 : v < 64)
    (hpf : b.mailbox m.fromSq = ⟨PAWN, BLACK⟩)
    (hemp : (b.mailbox m.toSq).type = NO_PIECE_TYPE)
    (hpv : b.mailbox v = ⟨PAWN, WHITE⟩)
    (hvf : v ≠ m.fromSq) (hvt : v ≠ m.toSq) :
    RTEq b ((b.move m).undo_move m) := by
  have hf64 := Move.fromSq_lt m
  have ht64 := Move.toSq_lt m
  have hocc : (b.mailbox m.fromSq).type ≠ NO_PIECE_TYPE := by
    rw [hpf]; decide
  have hvicv : (b.mailbox v).type ≠ NO_PIECE_TYPE := by
    rw [hpv]; decide
  have hft : m.fromSq ≠ m.toSq := by
    intro h; rw [h] at hocc; exact hocc hemp
  have hcellf : (b.bitboards BLACK PAWN).testBit m.fromSq = true := by
    have h := vp_bit_of_mailbox hb hf64 hocc
    rw [hpf] at h
    exact h
  have hcellv : (b.bitboards WHITE PAWN).testBit v = true := by
    have h := vp_bit_of_mailbox hb hv64 hvicv
    rw [hpv] at h
    exact h
  have hcellt := vp_bits_empty hb ht64 hemp
  have hcellft : (b.bitboards BLACK PAWN).testBit m.toSq = false :=
    hcellt _ _
  have hoccf : (b.occof BLACK).testBit m.fromSq = true := by
    have h := vp_occof_true hb hf64 hocc
    rw [hpf] at h
    exact h
  have hocct : (b.occof BLACK).testBit m.toSq = false :=
    vp_occof_false hb ht64 hemp BLACK
  have hoccv : (b.occof WHITE).testBit v = true := by
    have h := vp_occof_true hb hv64 hvicv
    rw [hpv] at h
    exact h
  have hbothf : b.occ_both.testBit m.fromSq = true :=
    vp_occ_both_true hb hf64 hocc
  have hbotht : b.occ_both.testBit m.toSq = false :=
    vp_occ_both_false hb ht64 hemp
  have hbothv : b.occ_both.testBit v = true :=
    vp_occ_both_true hb hv64 hvicv
  have hg : b.game_ply ≠ b.game_ply + 1 := by omega
  unfold RTEq
  simp only [Board.move, Board.undo_move, Board.make_quiet_move,
    Board.relative_dir, hfl, hco]
  norm_num [MF.QUIET, MF.DOUBLE_PUSH, MF.OO, MF.OOO, MF.EN_PASSANT,
    MF.PR_KNIGHT, MF.PR_BISHOP, MF.PR_ROOK, MF.PR_QUEEN, MF.PC_KNIGHT,
    MF.PC_BISHOP, MF.PC_ROOK, MF.PC_QUEEN, MF.CAPTURE, SOUTH,
    remove_piece_eq, put_piece_eq, hveq, hpf, hpv,
    updMB_ne _ _ _ hft, updMB_ne _ _ _ (Ne.symm hft),
    updMB_ne _ _ _ hvf, updMB_ne _ _ _ hvt,
    updMB_ne _ _ _ (Ne.symm hvf), updMB_ne _ _ _ (Ne.symm hvt),
    Color.other, (show (BLACK = WHITE) = False by simp),
    (show (WHITE = BLACK) = False by simp),
    updBB_ne _ _ _ _ (show ¬(WHITE = BLACK ∧ PAWN = PAWN) by simp),
    updBB_ne _ _ _ _ (show ¬(BLACK = WHITE ∧ PAWN = PAWN) by simp)]
  refine ⟨?_, ?_, ?_, ?_, ?_, ?_, ?_, ?_, ?_⟩
  · funext c2 k2
    by_cases h1 : c2 = BLACK ∧ k2 = PAWN
    · obtain ⟨rfl, rfl⟩ := h1
      simp only [updBB_eq,
        updBB_ne _ _ _ _ (show ¬(BLACK = WHITE ∧ PAWN = PAWN) by simp)]
      exact clear_set_rt (vp_bb_lt hb _ _) hf64 ht64 hcellf hcellft
    · by_cases h2 : c2 = WHITE ∧ k2 = PAWN
      · obtain ⟨rfl, rfl⟩ := h2
        simp only [updBB_eq, updBB_ne _ _ _ _ h1]
        exact clear_set_self (vp_bb_lt hb _ _) hv64 hcellv
      · simp only [updBB_ne _ _ _ _ h1, updBB_ne _ _ _ _ h2]
  · have h1 : Nat.testBit b.occ_white v = true := hoccv
    exact clear_set_self (vp_occ_white_lt hb) hv64 h1
  · have h1 : Nat.testBit b.occ_black m.fromSq = true := hoccf
    have h2 : Nat.testBit b.occ_black m.toSq = false := hocct
    exact clear_set_rt (vp_occ_black_lt hb) hf64 ht64 h1 h2
  · exact ep_both_rt (vp_occ_both_lt hb) hf64 ht64 hv64 hbothf hbotht
      hbothv hvt hvf
  · intro sq
    by_cases hv : sq = v
    · subst hv
      simp [hpv]
    · by_cases h1 : sq = m.fromSq
      · subst h1
        simp [updMB_ne _ _ _ (Ne.symm hvf), hpf]
      · by_cases h2 : sq = m.toSq
        · subst h2
          simp [updMB_ne _ _ _ (Ne.symm hvt), updMB_ne _ _ _ h1, hemp]
        · simp [updMB_ne _ _ _ (fun hh => hv hh : ¬(sq = v)),
            updMB_ne _ _ _ h1, updMB_ne _ _ _ h2]
  · simp only [updHist_ne _ _ _ hg]
    exact hb.2.2.2.2.2.2.1
  · simp only [updHist_ne _ _ _ hg]
    exact hb.2.2.2.2.2.2.2.1
  · simp only [updHist_ne _ _ _ hg]
    exact hb.2.2.2.2.2.2.2.2.1
  · simp only [updHist_ne _ _ _ hg]

/-- Round trip of white king-side castling. -/
theorem rt_oo_white (b : Board) (hb : ValidPos b) (m : Move)
    (hfl : m.flags = MF.OO) (hco : b.player_to_move = WHITE)
    (hke : b.mailbox 4 = ⟨KING, WHITE⟩) (hrh : b.mailbox 7 = ⟨ROOK, WHITE⟩)
    (hrt_emp : (b.mailbox 5).type = NO_PIECE_TYPE)
    (hkt_emp : (b.mailbox 6).type = NO_PIECE_TYPE) :
    RTEq b ((b.move m).undo_move m) := by
  have hg : b.game_ply ≠ b.game_ply + 1 := by omega
  have hKne : (b.mailbox (4 : Nat)).type ≠ NO_PIECE_TYPE := by
    rw [hke]; decide
  have hRne : (b.mailbox (7 : Nat)).type ≠ NO_PIECE_TYPE := by
    rw [hrh]; decide
  have hbKe : (b.bitboards WHITE KING).testBit 4 = true := by
    have h := vp_bit_of_mailbox hb (by decide) hKne
    rw [hke] at h
    exact h
  have hbRh : (b.bitboards WHITE ROOK).testBit 7 = true := by
    have h := vp_bit_of_mailbox hb (by decide) hRne
    rw [hrh] at h
    exact h
  have hbKg : (b.bitboards WHITE KING).testBit 6 = false :=
    vp_bits_empty hb (by decide) hkt_emp _ _
  have hbRf : (b.bitboards WHITE ROOK).testBit 5 = false :=
    vp_bits_empty hb (by decide) hrt_emp _ _
  have hoKe : Nat.testBit b.occ_white 4 = true := by
    have h := vp_occof_true hb (by decide) hKne
    rw [hke] at h
    exact h
  have hoRh : Nat.testBit b.occ_white 7 = true := by
    have h := vp_occof_true hb (by decide) hRne
    rw [hrh] at h
    exact h
  have hoKg : Nat.testBit b.occ_white 6 = false :=
    vp_occof_false hb (by decide) hkt_emp WHITE
  have hoRf : Nat.testBit b.occ_white 5 = false :=
    vp_occof_false hb (by decide) hrt_emp WHITE
  have hbothKe : Nat.testBit b.occ_both 4 = true :=
    vp_occ_both_true hb (by decide) hKne
  have hbothRh : Nat.testBit b.occ_both 7 = true :=
    vp_occ_both_true hb (by decide) hRne
  have hbothKg : Nat.testBit b.occ_both 6 = false :=
    vp_occ_both_false hb (by decide) hkt_emp
  have hbothRf : Nat.testBit b.occ_both 5 = false :=
    vp_occ_both_false hb (by decide) hrt_emp
  unfold RTEq
  simp only [Board.move, Board.undo_move, Board.make_quiet_move, hfl, hco]
  norm_num [MF.QUIET, MF.DOUBLE_PUSH, MF.OO, MF.OOO, MF.EN_PASSANT,
    MF.PR_KNIGHT, MF.PR_BISHOP, MF.PR_ROOK, MF.PR_QUEEN, MF.PC_KNIGHT,
    MF.PC_BISHOP, MF.PC_ROOK, MF.PC_QUEEN, MF.CAPTURE,
    e1, f1, g1, h1,
    remove_piece_eq, put_piece_eq, hke, hrh,
    updMB_ne _ _ _ (show (7 : Nat) ≠ 6 by decide),
    updMB_ne _ _ _ (show (7 : Nat) ≠ 4 by decide),
    updMB_ne _ _ _ (show (6 : Nat) ≠ 5 by decide),
    updMB_ne _ _ _ (show (6 : Nat) ≠ 7 by decide),
    updMB_ne _ _ _ (show (5 : Nat) ≠ 4 by decide),
    updMB_ne _ _ _ (show (5 : Nat) ≠ 6 by decide),
    (show (WHITE = BLACK) = False by simp),
    (show (BLACK = WHITE) = False by simp),
    updBB_ne _ _ _ _ (show ¬(WHITE = WHITE ∧ ROOK = KING) by simp),
    updBB_ne _ _ _ _ (show ¬(WHITE = WHITE ∧ KING = ROOK) by simp)]
  refine ⟨?_, ?_, ?_, ?_, ?_, ?_, ?_, ?_⟩
  · funext c2 k2
    by_cases hx1 : c2 = WHITE ∧ k2 = KING
    · obtain ⟨rfl, rfl⟩ := hx1
      simp only [updBB_eq,
        updBB_ne _ _ _ _ (show ¬(WHITE = WHITE ∧ KING = ROOK) by simp)]
      exact clear_set_rt (vp_bb_lt hb _ _) (by decide) (by decide) hbKe hbKg
    · by_cases hx2 : c2 = WHITE ∧ k2 = ROOK
      · obtain ⟨rfl, rfl⟩ := hx2
        simp only [updBB_eq,
          updBB_ne _ _ _ _ (show ¬(WHITE = WHITE ∧ ROOK = KING) by simp)]
        exact clear_set_rt (vp_bb_lt hb _ _) (by decide) (by decide) hbRh hbRf
      · simp only [updBB_ne _ _ _ _ hx1, updBB_ne _ _ _ _ hx2]
  · exact castle_rt (vp_occ_white_lt hb) (by decide) (by decide) (by decide)
      (by decide) hoKe hoRh hoKg hoRf (by decide) (by decide) (by decide)
      (by decide) (by decide) (by decide)
  · exact castle_rt (vp_occ_both_lt hb) (by decide) (by decide) (by decide)
      (by decide) hbothKe hbothRh hbothKg hbothRf (by decide) (by decide)
      (by decide) (by decide) (by decide) (by decide)
  · intro sq
    by_cases hsKF : sq = 4
    · subst hsKF; simp [updMB, hke]
    · by_cases hsKT : sq = 6
      · subst hsKT; simp [updMB, hkt_emp]
      · by_cases hsRF : sq = 7
        · subst hsRF; simp [updMB, hrh]
        · by_cases hsRT : sq = 5
          · subst hsRT; simp [updMB, hrt_emp]
          · simp [updMB, hsKF, hsKT, hsRF, hsRT]
  · simp only [updHist_ne _ _ _ hg]
    exact hb.2.2.2.2.2.2.1
  · simp only [updHist_ne _ _ _ hg]
    exact hb.2.2.2.2.2.2.2.1
  · simp only [updHist_ne _ _ _ hg]
    exact hb.2.2.2.2.2.2.2.2.1
  · simp only [updHist_ne _ _ _ hg]

/-- Round trip of white queen-side castling. -/
theorem rt_ooo_white (b : Board) (hb : ValidPos b) (m : Move)
    (hfl : m.flags = MF.OOO) (hco : b.player_to_move = WHITE)
    (hke : b.mailbox 4 = ⟨KING, WHITE⟩) (hrh : b.mailbox 0 = ⟨ROOK, WHITE⟩)
    (hrt_emp : (b.mailbox 3).type = NO_PIECE_TYPE)
    (hkt_emp : (b.mailbox 2).type = NO_PIECE_TYPE) :
    RTEq b ((b.move m).undo_move m) := by
  have hg : b.game_ply ≠ b.game_ply + 1 := by omega
  have hKne : (b.mailbox (4 : Nat)).type ≠ NO_PIECE_TYPE := by
    rw [hke]; decide
  have hRne : (b.mailbox (0 : Nat)).type ≠ NO_PIECE_TYPE := by
    rw [hrh]; decide
  have hbKe : (b.bitboards WHITE KING).testBit 4 = true := by
    have h := vp_bit_of_mailbox hb (by decide) hKne
    rw [hke] at h
    exact h
  have hbRh : (b.bitboards WHITE ROOK).testBit 0 = true := by
    have h := vp_bit_of_mailbox hb (by decide) hRne
    rw [hrh] at h
    exact h
  have hbKg : (b.bitboards WHITE KING).testBit 2 = false :=
    vp_bits_empty hb (by decide) hkt_emp _ _
  have hbRf : (b.bitboards WHITE ROOK).testBit 3 = false :=
    vp_bits_empty hb (by decide) hrt_emp _ _
  have hoKe : Nat.testBit b.occ_white 4 = true := by
    have h := vp_occof_true hb (by decide) hKne
    rw [hke] at h
    exact h
  have hoRh : Nat.testBit b.occ_white 0 = true := by
    have h := vp_occof_true hb (by decide) hRne
    rw [hrh] at h
    exact h
  have hoKg : Nat.testBit b.occ_white 2 = false :=
    vp_occof_false hb (by decide) hkt_emp WHITE
  have hoRf : Nat.testBit b.occ_white 3 = false :=
    vp_occof_false hb (by decide) hrt_emp WHITE
  have hbothKe : Nat.testBit b.occ_both 4 = true :=
    vp_occ_both_true hb (by decide) hKne
  have hbothRh : Nat.testBit b.occ_both 0 = true :=
    vp_occ_both_true hb (by decide) hRne
  have hbothKg : Nat.testBit b.occ_both 2 = false :=
    vp_occ_both_false hb (by decide) hkt_emp
  have hbothRf : Nat.testBit b.occ_both 3 = false :=
    vp_occ_both_false hb (by decide) hrt_emp
  unfold RTEq
  simp only [Board.move, Board.undo_move, Board.make_quiet_move, hfl, hco]
  norm_num [MF.QUIET, MF.DOUBLE_PUSH, MF.OO, MF.OOO, MF.EN_PASSANT,
    MF.PR_KNIGHT, MF.PR_BISHOP, MF.PR_ROOK, MF.PR_QUEEN, MF.PC_KNIGHT,
    MF.PC_BISHOP, MF.PC_ROOK, MF.PC_QUEEN, MF.CAPTURE,
    e1, f1, g1, h1, a1, b1, c1, d1, e8, f8, g8, h8, a8, b8, c8, d8,
    remove_piece_eq, put_piece_eq, hke, hrh,
    updMB_ne _ _ _ (show (0 : Nat) ≠ 2 by decide),
    updMB_ne _ _ _ (show (0 : Nat) ≠ 4 by decide),
    updMB_ne _ _ _ (show (2 : Nat) ≠ 3 by decide),
    updMB_ne _ _ _ (show (2 : Nat) ≠ 0 by decide),
    updMB_ne _ _ _ (show (3 : Nat) ≠ 4 by decide),
    updMB_ne _ _ _ (show (3 : Nat) ≠ 2 by decide),
    (show (WHITE = BLACK) = False by simp),
    (show (BLACK = WHITE) = False by simp),
    updBB_ne _ _ _ _ (show ¬(WHITE = WHITE ∧ ROOK = KING) by simp),
    updBB_ne _ _ _ _ (show ¬(WHITE = WHITE ∧ KING = ROOK) by simp)]
  refine ⟨?_, ?_, ?_, ?_, ?_, ?_, ?_, ?_⟩
  · funext c2 k2
    by_cases hx1 : c2 = WHITE ∧ k2 = KING
    · obtain ⟨rfl, rfl⟩ := hx1
      simp only [updBB_eq,
        updBB_ne _ _ _ _ (show ¬(WHITE = WHITE ∧ KING = ROOK) by simp)]
      exact clear_set_rt (vp_bb_lt hb _ _) (by decide) (by decide) hbKe hbKg
    · by_cases hx2 : c2 = WHITE ∧ k2 = ROOK
      · obtain ⟨rfl, rfl⟩ := hx2
        simp only [updBB_eq,
          updBB_ne _ _ _ _ (show ¬(WHITE = WHITE ∧ ROOK = KING) by simp)]
        exact clear_set_rt (vp_bb_lt hb _ _) (by decide) (by decide) hbRh hbRf
      · simp only [updBB_ne _ _ _ _ hx1, updBB_ne _ _ _ _ hx2]
  · exact castle_rt (vp_occ_white_lt hb) (by decide) (by decide) (by decide)
      (by decide) hoKe hoRh hoKg hoRf (by decide) (by decide) (by decide)
      (by decide) (by decide) (by decide)
  · exact castle_rt (vp_occ_both_lt hb) (by decide) (by decide) (by decide)
      (by decide) hbothKe hbothRh hbothKg hbothRf (by decide) (by decide)
      (by decide) (by decide) (by decide) (by decide)
  · intro sq
    by_cases hsKF : sq = 4
    · subst hsKF; simp [updMB, hke]
    · by_cases hsKT : sq = 2
      · subst hsKT; simp [updMB, hkt_emp]
      · by_cases hsRF : sq = 0
        · subst hsRF; simp [updMB, hrh]
        · by_cases hsRT : sq = 3
          · subst hsRT; simp [updMB, hrt_emp]
          · simp [updMB, hsKF, hsKT, hsRF, hsRT]
  · simp only [updHist_ne _ _ _ hg]
    exact hb.2.2.2.2.2.2.1
  · simp only [updHist_ne _ _ _ hg]
    exact hb.2.2.2.2.2.2.2.1
  · simp only [updHist_ne _ _ _ hg]
    exact hb.2.2.2.2.2.2.2.2.1
  · simp only [updHist_ne _ _ _ hg]

/-- Round trip of black king-side castling. -/
theorem rt_oo_black (b : Board) (hb : ValidPos b) (m : Move)
    (hfl : m.flags = MF.OO) (hco : b.player_to_move = BLACK)
    (hke : b.mailbox 60 = ⟨KING, BLACK⟩) (hrh : b.mailbox 63 = ⟨ROOK, BLACK⟩)
    (hrt_emp : (b.mailbox 61).type = NO_PIECE_TYPE)
    (hkt_emp : (b.mailbox 62).type = NO_PIECE_TYPE) :
    RTEq b ((b.move m).undo_move m) := by
  have hg : b.game_ply ≠ b.game_ply + 1 := by omega
  have hKne : (b.mailbox (60 : Nat)).type ≠ NO_PIECE_TYPE := by
    rw [hke]; decide
  have hRne : (b.mailbox (63 : Nat)).type ≠ NO_PIECE_TYPE := by
    rw [hrh]; decide
  have hbKe : (b.bitboards BLACK KING).testBit 60 = true := by
    have h := vp_bit_of_mailbox hb (by decide) hKne
    rw [hke] at h
    exact h
  have hbRh : (b.bitboards BLACK ROOK).testBit 63 = true := by
    have h := vp_bit_of_mailbox hb (by decide) hRne
    rw [hrh] at h
    exact h
  have hbKg : (b.bitboards BLACK KING).testBit 62 = false :=
    vp_bits_empty hb (by decide) hkt_emp _ _
  have hbRf : (b.bitboards BLACK ROOK).testBit 61 = false :=
    vp_bits_empty hb (by decide) hrt_emp _ _
  have hoKe : Nat.testBit b.occ_black 60 = true := by
    have h := vp_occof_true hb (by decide) hKne
    rw [hke] at h
    exact h
  have hoRh : Nat.testBit b.occ_black 63 = true := by
    have h := vp_occof_true hb (by decide) hRne
    rw [hrh] at h
    exact h
  have hoKg : Nat.testBit b.occ_black 62 = false :=
    vp_occof_false hb (by decide) hkt_emp BLACK
  have hoRf : Nat.testBit b.occ_black 61 = false :=
    vp_occof_false hb (by decide) hrt_emp BLACK
  have hbothKe : Nat.testBit b.occ_both 60 = true :=
    vp_occ_both_true hb (by decide) hKne
  have hbothRh : Nat.testBit b.occ_both 63 = true :=
    vp_occ_both_true hb (by decide) hRne
  have hbothKg : Nat.testBit b.occ_both 62 = false :=
    vp_occ_both_false hb (by decide) hkt_emp
  have hbothRf : Nat.testBit b.occ_both 61 = false :=
    vp_occ_both_false hb (by decide) hrt_emp
  unfold RTEq
  simp only [Board.move, Board.undo_move, Board.make_quiet_move, hfl, hco]
  norm_num [MF.QUIET, MF.DOUBLE_PUSH, MF.OO, MF.OOO, MF.EN_PASSANT,
    MF.PR_KNIGHT, MF.PR_BISHOP, MF.PR_ROOK, MF.PR_QUEEN, MF.PC_KNIGHT,
    MF.PC_BISHOP, MF.PC_ROOK, MF.PC_QUEEN, MF.CAPTURE,
    e1, f1, g1, h1, a1, b1, c1, d1, e8, f8, g8, h8, a8, b8, c8, d8,
    remove_piece_eq, put_piece_eq, hke, hrh,
    updMB_ne _ _ _ (show (63 : Nat) ≠ 62 by decide),
    updMB_ne _ _ _ (show (63 : Nat) ≠ 60 by decide),
    updMB_ne _ _ _ (show (62 : Nat) ≠ 61 by decide),
    updMB_ne _ _ _ (show (62 : Nat) ≠ 63 by decide),
    updMB_ne _ _ _ (show (61 : Nat) ≠ 60 by decide),
    updMB_ne _ _ _ (show (61 : Nat) ≠ 62 by decide),
    (show (WHITE = BLACK) = False by simp),
    (show (BLACK = WHITE) = False by simp),
    updBB_ne _ _ _ _ (show ¬(BLACK = BLACK ∧ ROOK = KING) by simp),
    updBB_ne _ _ _ _ (show ¬(BLACK = BLACK ∧ KING = ROOK) by simp)]
  refine ⟨?_, ?_, ?_, ?_, ?_, ?_, ?_, ?_⟩
  · funext c2 k2
    by_cases hx1 : c2 = BLACK ∧ k2 = KING
    · obtain ⟨rfl, rfl⟩ := hx1
      simp only [updBB_eq,
        updBB_ne _ _ _ _ (show ¬(BLACK = BLACK ∧ KING = ROOK) by simp)]
      exact clear_set_rt (vp_bb_lt hb _ _) (by decide) (by decide) hbKe hbKg
    · by_cases hx2 : c2 = BLACK ∧ k2 = ROOK
      · obtain ⟨rfl, rfl⟩ := hx2
        simp only [updBB_eq,
          updBB_ne _ _ _ _ (show ¬(BLACK = BLACK ∧ ROOK = KING) by simp)]
        exact clear_set_rt (vp_bb_lt hb _ _) (by decide) (by decide) hbRh hbRf
      · simp only [updBB_ne _ _ _ _ hx1, updBB_ne _ _ _ _ hx2]
  · exact castle_rt (vp_occ_black_lt hb) (by decide) (by decide) (by decide)
      (by decide) hoKe hoRh hoKg hoRf (by decide) (by decide) (by decide)
      (by decide) (by decide) (by decide)
  · exact castle_rt (vp_occ_both_lt hb) (by decide) (by decide) (by decide)
      (by decide) hbothKe hbothRh hbothKg hbothRf (by decide) (by decide)
      (by decide) (by decide) (by decide) (by decide)
  · intro sq
    by_cases hsKF : sq = 60
    · subst hsKF; simp [updMB, hke]
    · by_cases hsKT : sq = 62
      · subst hsKT; simp [updMB, hkt_emp]
      · by_cases hsRF : sq = 63
        · subst hsRF; simp [updMB, hrh]
        · by_cases hsRT : sq = 61
          · subst hsRT; simp [updMB, hrt_emp]
          · simp [updMB, hsKF, hsKT, hsRF, hsRT]
  · simp only [updHist_ne _ _ _ hg]
    exact hb.2.2.2.2.2.2.1
  · simp only [updHist_ne _ _ _ hg]
    exact hb.2.2.2.2.2.2.2.1
  · simp only [updHist_ne _ _ _ hg]
    exact hb.2.2.2.2.2.2.2.2.1
  · simp only [updHist_ne _ _ _ hg]

/-- Round trip of black queen-side castling. -/
theorem rt_ooo_black (b : Board) (hb : ValidPos b) (m : Move)
    (hfl : m.flags = MF.OOO) (hco : b.player_to_move = BLACK)
    (hke : b.mailbox 60 = ⟨KING, BLACK⟩) (hrh : b.mailbox 56 = ⟨ROOK, BLACK⟩)
    (hrt_emp : (b.mailbox 59).type = NO_PIECE_TYPE)
    (hkt_emp : (b.mailbox 58).type = NO_PIECE_TYPE) :
    RTEq b ((b.move m).undo_move m) := by
  have hg : b.game_ply ≠ b.game_ply + 1 := by omega
  have hKne : (b.mailbox (60 : Nat)).type ≠ NO_PIECE_TYPE := by
    rw [hke]; decide
  have hRne : (b.mailbox (56 : Nat)).type ≠ NO_PIECE_TYPE := by
    rw [hrh]; decide
  have hbKe : (b.bitboards BLACK KING).testBit 60 = true := by
    have h := vp_bit_of_mailbox hb (by decide) hKne
    rw [hke] at h
    exact h
  have hbRh : (b.bitboards BLACK ROOK).testBit 56 = true := by
    have h := vp_bit_of_mailbox hb (by decide) hRne
    rw [hrh] at h
    exact h
  have hbKg : (b.bitboards BLACK KING).testBit 58 = false :=
    vp_bits_empty hb (by decide) hkt_emp _ _
  have hbRf : (b.bitboards BLACK ROOK).testBit 59 = false :=
    vp_bits_empty hb (by decide) hrt_emp _ _
  have hoKe : Nat.testBit b.occ_black 60 = true := by
    have h := vp_occof_true hb (by decide) hKne
    rw [hke] at h
    exact h
  have hoRh : Nat.testBit b.occ_black 56 = true := by
    have h := vp_occof_true hb (by decide) hRne
    rw [hrh] at h
    exact h
  have hoKg : Nat.testBit b.occ_black 58 = false :=
    vp_occof_false hb (by decide) hkt_emp BLACK
  have hoRf : Nat.testBit b.occ_black 59 = false :=
    vp_occof_false hb (by decide) hrt_emp BLACK
  have hbothKe : Nat.testBit b.occ_both 60 = true :=
    vp_occ_both_true hb (by decide) hKne
  have hbothRh : Nat.testBit b.occ_both 56 = true :=
    vp_occ_both_true hb (by decide) hRne
  have hbothKg : Nat.testBit b.occ_both 58 = false :=
    vp_occ_both_false hb (by decide) hkt_emp
  have hbothRf : Nat.testBit b.occ_both 59 = false :=
    vp_occ_both_false hb (by decide) hrt_emp
  unfold RTEq
  simp only [Board.move, Board.undo_move, Board.make_quiet_move, hfl, hco]
  norm_num [MF.QUIET, MF.DOUBLE_PUSH, MF.OO, MF.OOO, MF.EN_PASSANT,
    MF.PR_KNIGHT, MF.PR_BISHOP, MF.PR_ROOK, MF.PR_QUEEN, MF.PC_KNIGHT,
    MF.PC_BISHOP, MF.PC_ROOK, MF.PC_QUEEN, MF.CAPTURE,
    e1, f1, g1, h1, a1, b1, c1, d1, e8, f8, g8, h8, a8, b8, c8, d8,
    remove_piece_eq, put_piece_eq, hke, hrh,
    updMB_ne _ _ _ (show (56 : Nat) ≠ 58 by decide),
    updMB_ne _ _ _ (show (56 : Nat) ≠ 60 by decide),
    updMB_ne _ _ _ (show (58 : Nat) ≠ 59 by decide),
    updMB_ne _ _ _ (show (58 : Nat) ≠ 56 by decide),
    updMB_ne _ _ _ (show (59 : Nat) ≠ 60 by decide),
    updMB_ne _ _ _ (show (59 : Nat) ≠ 58 by decide),
    (show (WHITE = BLACK) = False by simp),
    (show (BLACK = WHITE) = False by simp),
    updBB_ne _ _ _ _ (show ¬(BLACK = BLACK ∧ ROOK = KING) by simp),
    updBB_ne _ _ _ _ (show ¬(BLACK = BLACK ∧ KING = ROOK) by simp)]
  refine ⟨?_, ?_, ?_, ?_, ?_, ?_, ?_, ?_⟩
  · funext c2 k2
    by_cases hx1 : c2 = BLACK ∧ k2 = KING
    · obtain ⟨rfl, rfl⟩ := hx1
      simp only [updBB_eq,
        updBB_ne _ _ _ _ (show ¬(BLACK = BLACK ∧ KING = ROOK) by simp)]
      exact clear_set_rt (vp_bb_lt hb _ _) (by decide) (by decide) hbKe hbKg
    · by_cases hx2 : c2 = BLACK ∧ k2 = ROOK
      · obtain ⟨rfl, rfl⟩ := hx2
        simp only [updBB_eq,
          updBB_ne _ _ _ _ (show ¬(BLACK = BLACK ∧ ROOK = KING) by simp)]
        exact clear_set_rt (vp_bb_lt hb _ _) (by decide) (by decide) hbRh hbRf
      · simp only [updBB_ne _ _ _ _ hx1, updBB_ne _ _ _ _ hx2]
  · exact castle_rt (vp_occ_black_lt hb) (by decide) (by decide) (by decide)
      (by decide) hoKe hoRh hoKg hoRf (by decide) (by decide) (by decide)
      (by decide) (by decide) (by decide)
  · exact castle_rt (vp_occ_both_lt hb) (by decide) (by decide) (by decide)
      (by decide) hbothKe hbothRh hbothKg hbothRf (by decide) (by decide)
      (by decide) (by decide) (by decide) (by decide)
  · intro sq
    by_cases hsKF : sq = 60
    · subst hsKF; simp [updMB, hke]
    · by_cases hsKT : sq = 58
      · subst hsKT; simp [updMB, hkt_emp]
      · by_cases hsRF : sq = 56
        · subst hsRF; simp [updMB, hrh]
        · by_cases hsRT : sq = 59
          · subst hsRT; simp [updMB, hrt_emp]
          · simp [updMB, hsKF, hsKT, hsRF, hsRT]
  · simp only [updHist_ne _ _ _ hg]
    exact hb.2.2.2.2.2.2.1
  · simp only [updHist_ne _ _ _ hg]
    exact hb.2.2.2.2.2.2.2.1
  · simp only [updHist_ne _ _ _ hg]
    exact hb.2.2.2.2.2.2.2.2.1
  · simp only [updHist_ne _ _ _ hg]

/-! From generator membership to the round-trip hypotheses. -/

theorem and_eq_zero_testBit {X Y : Nat} (h : X &&& Y = 0) {i : Nat}
    (hi : X.testBit i = true) : Y.testBit i = false := by
  by_contra hY
  have hYt : Y.testBit i = true := by simpa using hY
  have h1 : (X &&& Y).testBit i = true := by
    simp [Nat.testBit_and, hi, hYt]
  rw [h, Nat.zero_testBit] at h1
  cases h1

theorem sqbb_and_ne {ts : Nat} (hts : ts < 64) {X : Nat}
    (h : sqbb ts &&& X ≠ 0) : X.testBit ts = true := by
  by_contra hX
  have hXf : X.testBit ts = false := by simpa using hX
  apply h
  apply Nat.eq_of_testBit_eq
  intro i
  rw [Nat.testBit_and, testBit_sqbb hts, Nat.zero_testBit]
  by_cases hi : i = ts
  · subst hi
    simp [hXf]
  · simp [hi]

theorem and_compl_self {X Y : Nat} (hY : Y < U64) :
    (X &&& compl64 Y) &&& Y = 0 := by
  apply Nat.eq_of_testBit_eq
  intro i
  rw [Nat.testBit_and, Nat.testBit_and, testBit_compl64, Nat.zero_testBit]
  by_cases hi : i < 64
  · by_cases hYi : Y.testBit i
    · simp [hi, hYi]
    · simp [hi, hYi]
  · simp [hi, testBit_ge_64 hY (le_of_not_lt hi)]

theorem ctz64_sqbb {s : Nat} (hs : s < 64) : ctz64 (sqbb s) = s := by
  revert hs
  revert s
  decide

/-- A set occupancy bit pins down the mailbox color. -/
theorem vp_color_of_occof {b : Board} (hb : ValidPos b) {sq : Nat}
    (hsq : sq < 64) {c : Color} (h : (b.occof c).testBit sq = true) :
    (b.mailbox sq).type ≠ NO_PIECE_TYPE ∧ (b.mailbox sq).color = c := by
  have hu : b.occof c = bbUnion b c := by
    cases c
    · exact hb.2.2.2.1
    · exact hb.2.2.2.2.1
  rw [hu] at h
  simp only [bbUnion, Nat.testBit_or, Bool.or_eq_true] at h
  have hcell : ∃ k : PieceType, (b.bitboards c k).testBit sq = true := by
    rcases h with ((((h | h) | h) | h) | h) | h
    · exact ⟨PAWN, h⟩
    · exact ⟨KNIGHT, h⟩
    · exact ⟨BISHOP, h⟩
    · exact ⟨ROOK, h⟩
    · exact ⟨QUEEN, h⟩
    · exact ⟨KING, h⟩
  obtain ⟨k, hk⟩ := hcell
  have hmb := vp_mailbox_of_bit hb hsq hk
  have hkno : k ≠ NO_PIECE_TYPE := by
    intro hno
    rw [hno, hb.2.1 c] at hk
    rw [Nat.zero_testBit] at hk
    cases hk
  rw [hmb]
  exact ⟨by simpa using hkno, rfl⟩

/-- An empty square (both occupancies clear) has an empty mailbox type. -/
theorem vp_empty_of_occs {b : Board} (hb : ValidPos b) {sq : Nat}
    (hsq : sq < 64) (hw : b.occ_both.testBit sq = false) :
    (b.mailbox sq).type = NO_PIECE_TYPE := by
  by_contra h
  rw [vp_occ_both_true hb hsq h] at hw
  cases hw

/-- Round trip for every move emitted by the shared emission loop. -/
theorem emitLoop_rt (b : Board) (hb : ValidPos b) (fs : Nat) (hfs : fs < 64)
    (hocc : (b.mailbox fs).type ≠ NO_PIECE_TYPE)
    (hcol : (b.mailbox fs).color = b.player_to_move)
    (targets : Bitboard)
    (hnous : ∀ i, i < 64 → targets.testBit i = true →
      (b.occof b.player_to_move).testBit i = false)
    (m : Move) (hm : m ∈ emitLoop b fs targets) :
    RTEq b ((b.move m).undo_move m) := by
  simp only [emitLoop] at hm
  obtain ⟨ts, hts, hmk⟩ := List.mem_map.mp hm
  obtain ⟨ht64, htbit⟩ := mem_squaresOf.mp hts
  by_cases he : (b.occof b.player_to_move.other).testBit ts = true
  · rw [if_pos he] at hmk
    subst hmk
    obtain ⟨hfl, hfrom, hto⟩ :=
      mkMove_fields MF.CAPTURE (by decide) fs hfs ts ht64
    obtain ⟨hvt, hvc⟩ := vp_color_of_occof hb ht64 he
    apply rt_capture b hb _ hfl
    · rw [hfrom]
      exact hocc
    · rw [hto]
      exact hvt
    · rw [hto, hfrom, hvc, hcol]
  · rw [if_neg he] at hmk
    subst hmk
    obtain ⟨hfl, hfrom, hto⟩ :=
      mkMove_fields MF.QUIET (by decide) fs hfs ts ht64
    have hou := hnous ts ht64 htbit
    have hemp : (b.mailbox ts).type = NO_PIECE_TYPE := by
      apply vp_empty_of_occs hb ht64
      rw [hb.2.2.2.2.2.1]
      have hw : b.occ_white.testBit ts = false := by
        cases hpl : b.player_to_move
        · rw [hpl] at hou
          exact hou
        · rw [hpl] at he
          simp only [Color.other] at he
          simpa using he
      have hbk : b.occ_black.testBit ts = false := by
        cases hpl : b.player_to_move
        · rw [hpl] at he
          simp only [Color.other] at he
          simpa using he
        · rw [hpl] at hou
          exact hou
      simp [Nat.testBit_or, hw, hbk]
    apply rt_quiet b hb _ (Or.inl hfl)
    · rw [hfrom]
      exact hocc
    · rw [hto]
      exact hemp

theorem ctz64_spec {bb : Nat} (hbb : bb ≠ 0) (hlt : bb < U64) :
    ctz64 bb < 64 ∧ bb.testBit (ctz64 bb) = true := by
  unfold ctz64
  cases hf : (List.range 64).find? (fun i => bb.testBit i) with
  | none =>
    exfalso
    apply hbb
    apply Nat.eq_of_testBit_eq
    intro i
    rw [Nat.zero_testBit]
    by_cases hi : i < 64
    · have := List.find?_eq_none.mp hf i (List.mem_range.mpr hi)
      simpa using this
    · exact testBit_ge_64 hlt (le_of_not_lt hi)
  | some j =>
    have hj1 := List.find?_some hf
    have hj2 : j ∈ List.range 64 := List.mem_of_find?_eq_some hf
    exact ⟨List.mem_range.mp hj2, by simpa using hj1⟩

/-- Round trip for emission-loop moves whose target set excludes the side to
move's occupancy. -/
theorem emit_compl_rt (b : Board) (hb : ValidPos b) (fs : Nat)
    (k : PieceType)
    (hfs : fs ∈ squaresOf (b.bitboards b.player_to_move k))
    (A : Bitboard) (m : Move)
    (hm : m ∈ emitLoop b fs (A &&& compl64 (b.occof b.player_to_move))) :
    RTEq b ((b.move m).undo_move m) := by
  obtain ⟨hfs64, hbit⟩ := mem_squaresOf.mp hfs
  have hkno : k ≠ NO_PIECE_TYPE := by
    intro hno
    rw [hno, hb.2.1 b.player_to_move, Nat.zero_testBit] at hbit
    cases hbit
  have hmb := vp_mailbox_of_bit hb hfs64 hbit
  apply emitLoop_rt b hb fs hfs64 ?_ ?_ _ ?_ m hm
  · rw [hmb]
    simpa using hkno
  · rw [hmb]
  · intro i hi64 hbi
    exact and_eq_zero_testBit
      (and_compl_self (vp_occof_lt hb b.player_to_move)) hbi

theorem knight_group_rt (b : Board) (hb : ValidPos b) (fs : Nat)
    (hfs : fs ∈ squaresOf (b.bitboards b.player_to_move KNIGHT))
    (m : Move) (hm : m ∈ b.generate_knight_moves fs) :
    RTEq b ((b.move m).undo_move m) :=
  emit_compl_rt b hb fs KNIGHT hfs _ m hm

theorem bishop_group_rt (b : Board) (hb : ValidPos b) (fs : Nat)
    (hfs : fs ∈ squaresOf (b.bitboards b.player_to_move BISHOP))
    (m : Move) (hm : m ∈ b.generate_bishop_moves fs) :
    RTEq b ((b.move m).undo_move m) :=
  emit_compl_rt b hb fs BISHOP hfs _ m hm

theorem rook_group_rt (b : Board) (hb : ValidPos b) (fs : Nat)
    (hfs : fs ∈ squaresOf (b.bitboards b.player_to_move ROOK))
    (m : Move) (hm : m ∈ b.generate_rook_moves fs) :
    RTEq b ((b.move m).undo_move m) :=
  emit_compl_rt b hb fs ROOK hfs _ m hm

theorem queen_group_rt (b : Board) (hb : ValidPos b) (fs : Nat)
    (hfs : fs ∈ squaresOf (b.bitboards b.player_to_move QUEEN))
    (m : Move) (hm : m ∈ b.generate_queen_moves fs) :
    RTEq b ((b.move m).undo_move m) :=
  emit_compl_rt b hb fs QUEEN hfs _ m hm

theorem king_group_rt (b : Board) (hb : ValidPos b) (m : Move)
    (hm : m ∈ b.generate_king_moves
      (ctz64 (b.bitboards b.player_to_move KING))) :
    RTEq b ((b.move m).undo_move m) := by
  have hch : CastleHomeOk b := hb.2.2.2.2.2.2.2.2.2.2.1
  simp only [Board.generate_king_moves] at hm
  rw [List.mem_append] at hm
  rcases hm with hm | hm
  · by_cases hz : b.bitboards b.player_to_move KING = 0
    · rw [hz] at hm
      rw [show ctz64 0 = 64 from by decide] at hm
      rw [show kingAttacks 64 = 0 from by decide] at hm
      rw [Nat.zero_and] at hm
      simp [emitLoop, show squaresOf 0 = [] from by decide] at hm
    · obtain ⟨hc64, hcbit⟩ := ctz64_spec hz (hb.1 _ _)
      exact emit_compl_rt b hb _ KING
        (mem_squaresOf.mpr ⟨hc64, hcbit⟩) _ m hm
  · obtain ⟨h1, h2, h3, h4⟩ := hch
    cases hpl : b.player_to_move
    · rw [hpl] at hm
      rw [if_pos rfl] at hm
      rcases List.mem_append.mp hm with h | h
      · obtain ⟨hc, rfl⟩ := (mem_ite_singleton _ _ _).mp h
        obtain ⟨hrt, hfe, hge, -⟩ := hc
        obtain ⟨hke, hrh⟩ := h1 hrt
        exact rt_oo_white b hb _ (by decide) hpl hke hrh hfe hge
      · obtain ⟨hc, rfl⟩ := (mem_ite_singleton _ _ _).mp h
        obtain ⟨hrt, hbe, hde, hce, -⟩ := hc
        obtain ⟨hke, hra⟩ := h2 hrt
        exact rt_ooo_white b hb _ (by decide) hpl hke hra hde hce
    · rw [hpl] at hm
      rw [if_neg (by decide)] at hm
      rcases List.mem_append.mp hm with h | h
      · obtain ⟨hc, rfl⟩ := (mem_ite_singleton _ _ _).mp h
        obtain ⟨hrt, hfe, hge, -⟩ := hc
        obtain ⟨hke, hrh⟩ := h3 hrt
        exact rt_oo_black b hb _ (by decide) hpl hke hrh hfe hge
      · obtain ⟨hc, rfl⟩ := (mem_ite_singleton _ _ _).mp h
        obtain ⟨hrt, hbe, hde, hce, -⟩ := hc
        obtain ⟨hke, hra⟩ := h4 hrt
        exact rt_ooo_black b hb _ (by decide) hpl hke hra hde hce

/-! Pawn geometry, settled by evaluation over the 64 squares. -/

theorem rank2_iff : ∀ fs, fs < 64 →
    ((sqbb fs &&& 0xFF00 ≠ 0) ↔ (8 ≤ fs ∧ fs < 16)) := by decide

theorem rank7_iff : ∀ fs, fs < 64 →
    ((sqbb fs &&& 0xFF000000000000 ≠ 0) ↔ (48 ≤ fs ∧ fs < 56)) := by decide

theorem pawnPushes_white_single : ∀ fs, fs < 56 → 16 ≤ fs →
    pawnPushes WHITE fs = sqbb (fs + 8) := by decide

theorem pawnPushes_black_single : ∀ fs, fs < 48 → 8 ≤ fs →
    pawnPushes BLACK fs = sqbb (fs - 8) := by decide

theorem addDir_pos (s : Nat) : addDir s 8 = s + 8 := by
  unfold addDir
  omega

theorem addDir_neg (s : Nat) (h : 8 ≤ s) : addDir s (-8) = s - 8 := by
  unfold addDir
  omega

/-- Round trip for every move emitted by the pawn generator. -/
theorem pawn_group_rt (b : Board) (hb : ValidPos b) (fs : Nat)
    (hfs : fs ∈ squaresOf (b.bitboards b.player_to_move PAWN))
    (m : Move) (hm : m ∈ b.generate_pawn_moves fs) :
    RTEq b ((b.move m).undo_move m) := by
  obtain ⟨hfs64, hbit⟩ := mem_squaresOf.mp hfs
  have hmb := vp_mailbox_of_bit hb hfs64 hbit
  have hocc : (b.mailbox fs).type ≠ NO_PIECE_TYPE := by
    rw [hmb]; simp
  have hrank : 8 ≤ fs ∧ fs < 56 := by
    have hp := hb.2.2.2.2.2.2.2.2.2.2.2 fs hfs64
    constructor
    · by_contra hlt
      exact hp (Or.inl (by omega)) (by rw [hmb])
    · by_contra hge
      exact hp (Or.inr (by omega)) (by rw [hmb])
  have hemp_of : ∀ t, t < 64 → sqbb t &&& b.occ_both = 0 →
      (b.mailbox t).type = NO_PIECE_TYPE := by
    intro t ht h0
    apply vp_empty_of_occs hb ht
    exact and_eq_zero_testBit h0 (by rw [testBit_sqbb ht]; simp)
  have hepok : EpOk b := hb.2.2.2.2.2.2.2.2.2.1
  cases hpl : b.player_to_move
  · rw [hpl] at hmb
    simp only [Board.generate_pawn_moves, hpl, Board.relative_dir, NORTH,
      Color.other, eq_self_iff_true, true_and, if_true,
      (show (WHITE = BLACK) = False by simp), false_and, or_false] at hm
    rw [List.mem_append] at hm
    rcases hm with hm | hm
    · by_cases hr2 : sqbb fs &&& 0xFF00 ≠ 0
      · rw [if_pos hr2] at hm
        have hfsr := (rank2_iff fs hfs64).mp hr2
        rw [addDir_pos fs, addDir_pos (fs + 8)] at hm
        by_cases hff : sqbb (fs + 8) &&& b.occ_both = 0
        · rw [if_pos hff] at hm
          rcases List.mem_cons.mp hm with rfl | hm2
          · obtain ⟨hfl, hfrom, hto⟩ :=
              mkMove_fields MF.QUIET (by decide) fs hfs64 (fs + 8) (by omega)
            apply rt_quiet b hb _ (Or.inl hfl)
            · rw [hfrom]; exact hocc
            · rw [hto]; exact hemp_of _ (by omega) hff
          · by_cases hss : sqbb (fs + 8 + 8) &&& b.occ_both = 0
            · rw [if_pos hss] at hm2
              rcases List.mem_singleton.mp hm2 with rfl
              obtain ⟨hfl, hfrom, hto⟩ :=
                mkMove_fields MF.DOUBLE_PUSH (by decide) fs hfs64
                  (fs + 8 + 8) (by omega)
              apply rt_quiet b hb _ (Or.inr hfl)
              · rw [hfrom]; exact hocc
              · rw [hto]; exact hemp_of _ (by omega) hss
            · rw [if_neg hss] at hm2
              simp at hm2
        · rw [if_neg hff] at hm
          simp at hm
      · rw [if_neg hr2] at hm
        by_cases hr7 : sqbb fs &&& 0xFF000000000000 ≠ 0
        · rw [if_pos hr7] at hm
          have hfsr := (rank7_iff fs hfs64).mp hr7
          rw [pawnPushes_white_single fs (by omega) (by omega)] at hm
          by_cases hpe : sqbb (fs + 8) &&& b.occ_both = 0
          · rw [if_pos hpe] at hm
            rw [addDir_pos fs] at hm
            have hemp := hemp_of (fs + 8) (by omega) hpe
            simp only [List.mem_cons, List.mem_singleton,
              List.not_mem_nil, or_false] at hm
            rcases hm with rfl | rfl | rfl | rfl
            · obtain ⟨hfl, hfrom, hto⟩ := mkMove_fields MF.PR_KNIGHT
                (by decide) fs hfs64 (fs + 8) (by omega)
              apply rt_promo b hb _ (Or.inl hfl)
              · rw [hfrom, hmb]
              · rw [hfrom, hmb, hpl]
              · rw [hto]; exact hemp
            · obtain ⟨hfl, hfrom, hto⟩ := mkMove_fields MF.PR_BISHOP
                (by decide) fs hfs64 (fs + 8) (by omega)
              apply rt_promo b hb _ (Or.inr (Or.inl hfl))
              · rw [hfrom, hmb]
              · rw [hfrom, hmb, hpl]
              · rw [hto]; exact hemp
            · obtain ⟨hfl, hfrom, hto⟩ := mkMove_fields MF.PR_ROOK
                (by decide) fs hfs64 (fs + 8) (by omega)
              apply rt_promo b hb _ (Or.inr (Or.inr (Or.inl hfl)))
              · rw [hfrom, hmb]
              · rw [hfrom, hmb, hpl]
              · rw [hto]; exact hemp
            · obtain ⟨hfl, hfrom, hto⟩ := mkMove_fields MF.PR_QUEEN
                (by decide) fs hfs64 (fs + 8) (by omega)
              apply rt_promo b hb _ (Or.inr (Or.inr (Or.inr hfl)))
              · rw [hfrom, hmb]
              · rw [hfrom, hmb, hpl]
              · rw [hto]; exact hemp
          · rw [if_neg hpe] at hm
            simp at hm
        · rw [if_neg hr7] at hm
          have e1 : ¬(8 ≤ fs ∧ fs < 16) :=
            fun hx => hr2 ((rank2_iff fs hfs64).mpr hx)
          have e2 : ¬(48 ≤ fs ∧ fs < 56) :=
            fun hx => hr7 ((rank7_iff fs hfs64).mpr hx)
          rw [pawnPushes_white_single fs (by omega) (by omega),
            ctz64_sqbb (show fs + 8 < 64 by omega)] at hm
          by_cases hpe : sqbb (fs + 8) &&& b.occ_both = 0
          · rw [if_pos hpe] at hm
            rcases List.mem_singleton.mp hm with rfl
            obtain ⟨hfl, hfrom, hto⟩ :=
              mkMove_fields MF.QUIET (by decide) fs hfs64 (fs + 8) (by omega)
            apply rt_quiet b hb _ (Or.inl hfl)
            · rw [hfrom]; exact hocc
            · rw [hto]; exact hemp_of _ (by omega) hpe
          · rw [if_neg hpe] at hm
            simp at hm
    · by_cases hr7 : sqbb fs &&& 0xFF000000000000 ≠ 0
      · rw [if_pos hr7] at hm
        obtain ⟨ts, hts, hmem⟩ := List.mem_flatMap.mp hm
        obtain ⟨ht64, htbit⟩ := mem_squaresOf.mp hts
        by_cases hen : sqbb ts &&& b.occof BLACK ≠ 0
        · rw [if_pos hen] at hmem
          have hob : (b.occof BLACK).testBit ts = true := sqbb_and_ne ht64 hen
          obtain ⟨hvt, hvc⟩ := vp_color_of_occof hb ht64 hob
          simp only [List.mem_cons, List.mem_singleton,
            List.not_mem_nil, or_false] at hmem
          rcases hmem with rfl | rfl | rfl | rfl
          · obtain ⟨hfl, hfrom, hto⟩ := mkMove_fields MF.PC_KNIGHT
              (by decide) fs hfs64 ts ht64
            apply rt_pc b hb _ (Or.inl hfl)
            · rw [hfrom, hmb]
            · rw [hfrom, hmb, hpl]
            · rw [hto]; exact hvt
            · rw [hto, hvc, hpl]; rfl
          · obtain ⟨hfl, hfrom, hto⟩ := mkMove_fields MF.PC_BISHOP
              (by decide) fs hfs64 ts ht64
            apply rt_pc b hb _ (Or.inr (Or.inl hfl))
            · rw [hfrom, hmb]
            · rw [hfrom, hmb, hpl]
            · rw [hto]; exact hvt
            · rw [hto, hvc, hpl]; rfl
          · obtain ⟨hfl, hfrom, hto⟩ := mkMove_fields MF.PC_ROOK
              (by decide) fs hfs64 ts ht64
            apply rt_pc b hb _ (Or.inr (Or.inr (Or.inl hfl)))
            · rw [hfrom, hmb]
            · rw [hfrom, hmb, hpl]
            · rw [hto]; exact hvt
            · rw [hto, hvc, hpl]; rfl
          · obtain ⟨hfl, hfrom, hto⟩ := mkMove_fields MF.PC_QUEEN
              (by decide) fs hfs64 ts ht64
            apply rt_pc b hb _ (Or.inr (Or.inr (Or.inr hfl)))
            · rw [hfrom, hmb]
            · rw [hfrom, hmb, hpl]
            · rw [hto]; exact hvt
            · rw [hto, hvc, hpl]; rfl
        · rw [if_neg hen] at hmem
          simp at hmem
      · rw [if_neg hr7] at hm
        obtain ⟨ts, hts, hmem⟩ := List.mem_flatMap.mp hm
        obtain ⟨ht64, htbit⟩ := mem_squaresOf.mp hts
        by_cases hen : sqbb ts &&& b.occof BLACK ≠ 0
        · rw [if_pos hen] at hmem
          rcases List.mem_singleton.mp hmem with rfl
          have hob : (b.occof BLACK).testBit ts = true := sqbb_and_ne ht64 hen
          obtain ⟨hvt, hvc⟩ := vp_color_of_occof hb ht64 hob
          obtain ⟨hfl, hfrom, hto⟩ :=
            mkMove_fields MF.CAPTURE (by decide) fs hfs64 ts ht64
          apply rt_capture b hb _ hfl
          · rw [hfrom]; exact hocc
          · rw [hto]; exact hvt
          · rw [hto, hfrom, hvc, hmb]; rfl
        · rw [if_neg hen] at hmem
          by_cases hep2 : sqbb ts &&& sqbb (b.history b.game_ply).epsq ≠ 0
          · rw [if_pos hep2] at hmem
            rcases List.mem_singleton.mp hmem with rfl
            rcases hepok with h64 | hbl | hwh
            · rw [h64] at hep2
              rw [show sqbb NO_SQUARE = 0 from by decide] at hep2
              simp at hep2
            · rw [hpl] at hbl
              exact absurd hbl.1 (by decide)
            · obtain ⟨-, h40, h48, hpv, hepemp⟩ := hwh
              have hts_ep : (b.history b.game_ply).epsq = ts := by
                have hbitep := sqbb_and_ne ht64 hep2
                rw [testBit_sqbb (show (b.history b.game_ply).epsq < 64
                  by omega)] at hbitep
                exact (of_decide_eq_true hbitep).symm
              rw [hts_ep] at h40 h48 hpv hepemp
              obtain ⟨hfl, hfrom, hto⟩ :=
                mkMove_fields MF.EN_PASSANT (by decide) fs hfs64 ts ht64
              have hvfne : ts - 8 ≠ fs := by
                intro heq
                rw [heq] at hpv
                rw [hmb] at hpv
                cases hpv
              apply rt_ep_white b hb _ hfl hpl (ts - 8) ?_ (by omega) ?_ ?_
                ?_ ?_ ?_
              · rw [hto]
                exact addDir_neg ts (by omega)
              · rw [hfrom]; exact hmb
              · rw [hto]; exact hepemp
              · exact hpv
              · rw [hfrom]; exact hvfne
              · rw [hto]; omega
          · rw [if_neg hep2] at hmem
            simp at hmem
  · rw [hpl] at hmb
    simp only [Board.generate_pawn_moves, hpl, Board.relative_dir, NORTH,
      Color.other, eq_self_iff_true, true_and, if_true, if_false,
      (show (BLACK = WHITE) = False by simp), false_and, false_or] at hm
    rw [List.mem_append] at hm
    rcases hm with hm | hm
    · by_cases hr7 : sqbb fs &&& 0xFF000000000000 ≠ 0
      · rw [if_pos hr7] at hm
        have hfsr := (rank7_iff fs hfs64).mp hr7
        rw [addDir_neg fs (by omega), addDir_neg (fs - 8) (by omega)] at hm
        by_cases hff : sqbb (fs - 8) &&& b.occ_both = 0
        · rw [if_pos hff] at hm
          rcases List.mem_cons.mp hm with rfl | hm2
          · obtain ⟨hfl, hfrom, hto⟩ :=
              mkMove_fields MF.QUIET (by decide) fs hfs64 (fs - 8) (by omega)
            apply rt_quiet b hb _ (Or.inl hfl)
            · rw [hfrom]; exact hocc
            · rw [hto]; exact hemp_of _ (by omega) hff
          · by_cases hss : sqbb (fs - 8 - 8) &&& b.occ_both = 0
            · rw [if_pos hss] at hm2
              rcases List.mem_singleton.mp hm2 with rfl
              obtain ⟨hfl, hfrom, hto⟩ :=
                mkMove_fields MF.DOUBLE_PUSH (by decide) fs hfs64
                  (fs - 8 - 8) (by omega)
              apply rt_quiet b hb _ (Or.inr hfl)
              · rw [hfrom]; exact hocc
              · rw [hto]; exact hemp_of _ (by omega) hss
            · rw [if_neg hss] at hm2
              simp at hm2
        · rw [if_neg hff] at hm
          simp at hm
      · rw [if_neg hr7] at hm
        by_cases hr2 : sqbb fs &&& 0xFF00 ≠ 0
        · rw [if_pos hr2] at hm
          have hfsr := (rank2_iff fs hfs64).mp hr2
          rw [pawnPushes_black_single fs (by omega) (by omega)] at hm
          by_cases hpe : sqbb (fs - 8) &&& b.occ_both = 0
          · rw [if_pos hpe] at hm
            rw [addDir_neg fs (by omega)] at hm
            have hemp := hemp_of (fs - 8) (by omega) hpe
            simp only [List.mem_cons, List.mem_singleton,
              List.not_mem_nil, or_false] at hm
            rcases hm with rfl | rfl | rfl | rfl
            · obtain ⟨hfl, hfrom, hto⟩ := mkMove_fields MF.PR_KNIGHT
                (by decide) fs hfs64 (fs - 8) (by omega)
              apply rt_promo b hb _ (Or.inl hfl)
              · rw [hfrom, hmb]
              · rw [hfrom, hmb, hpl]
              · rw [hto]; exact hemp
            · obtain ⟨hfl, hfrom, hto⟩ := mkMove_fields MF.PR_BISHOP
                (by decide) fs hfs64 (fs - 8) (by omega)
              apply rt_promo b hb _ (Or.inr (Or.inl hfl))
              · rw [hfrom, hmb]
              · rw [hfrom, hmb, hpl]
              · rw [hto]; exact hemp
            · obtain ⟨hfl, hfrom, hto⟩ := mkMove_fields MF.PR_ROOK
                (by decide) fs hfs64 (fs - 8) (by omega)
              apply rt_promo b hb _ (Or.inr (Or.inr (Or.inl hfl)))
              · rw [hfrom, hmb]
              · rw [hfrom, hmb, hpl]
              · rw [hto]; exact hemp
            · obtain ⟨hfl, hfrom, hto⟩ := mkMove_fields MF.PR_QUEEN
                (by decide) fs hfs64 (fs - 8) (by omega)
              apply rt_promo b hb _ (Or.inr (Or.inr (Or.inr hfl)))
              · rw [hfrom, hmb]
              · rw [hfrom, hmb, hpl]
              · rw [hto]; exact hemp
          · rw [if_neg hpe] at hm
            simp at hm
        · rw [if_neg hr2] at hm
          have e1 : ¬(8 ≤ fs ∧ fs < 16) :=
            fun hx => hr2 ((rank2_iff fs hfs64).mpr hx)
          have e2 : ¬(48 ≤ fs ∧ fs < 56) :=
            fun hx => hr7 ((rank7_iff fs hfs64).mpr hx)
          rw [pawnPushes_black_single fs (by omega) (by omega),
            ctz64_sqbb (show fs - 8 < 64 by omega)] at hm
          by_cases hpe : sqbb (fs - 8) &&& b.occ_both = 0
          · rw [if_pos hpe] at hm
            rcases List.mem_singleton.mp hm with rfl
            obtain ⟨hfl, hfrom, hto⟩ :=
              mkMove_fields MF.QUIET (by decide) fs hfs64 (fs - 8) (by omega)
            apply rt_quiet b hb _ (Or.inl hfl)
            · rw [hfrom]; exact hocc
            · rw [hto]; exact hemp_of _ (by omega) hpe
          · rw [if_neg hpe] at hm
            simp at hm
    · by_cases hr2 : sqbb fs &&& 0xFF00 ≠ 0
      · rw [if_pos hr2] at hm
        obtain ⟨ts, hts, hmem⟩ := List.mem_flatMap.mp hm
        obtain ⟨ht64, htbit⟩ := mem_squaresOf.mp hts
        by_cases hen : sqbb ts &&& b.occof WHITE ≠ 0
        · rw [if_pos hen] at hmem
          have hob : (b.occof WHITE).testBit ts = true := sqbb_and_ne ht64 hen
          obtain ⟨hvt, hvc⟩ := vp_color_of_occof hb ht64 hob
          simp only [List.mem_cons, List.mem_singleton,
            List.not_mem_nil, or_false] at hmem
          rcases hmem with rfl | rfl | rfl | rfl
          · obtain ⟨hfl, hfrom, hto⟩ := mkMove_fields MF.PC_KNIGHT
              (by decide) fs hfs64 ts ht64
            apply rt_pc b hb _ (Or.inl hfl)
            · rw [hfrom, hmb]
            · rw [hfrom, hmb, hpl]
            · rw [hto]; exact hvt
            · rw [hto, hvc, hpl]; rfl
          · obtain ⟨hfl, hfrom, hto⟩ := mkMove_fields MF.PC_BISHOP
              (by decide) fs hfs64 ts ht64
            apply rt_pc b hb _ (Or.inr (Or.inl hfl))
            · rw [hfrom, hmb]
            · rw [hfrom, hmb, hpl]
            · rw [hto]; exact hvt
            · rw [hto, hvc, hpl]; rfl
          · obtain ⟨hfl, hfrom, hto⟩ := mkMove_fields MF.PC_ROOK
              (by decide) fs hfs64 ts ht64
            apply rt_pc b hb _ (Or.inr (Or.inr (Or.inl hfl)))
            · rw [hfrom, hmb]
            · rw [hfrom, hmb, hpl]
            · rw [hto]; exact hvt
            · rw [hto, hvc, hpl]; rfl
          · obtain ⟨hfl, hfrom, hto⟩ := mkMove_fields MF.PC_QUEEN
              (by decide) fs hfs64 ts ht64
            apply rt_pc b hb _ (Or.inr (Or.inr (Or.inr hfl)))
            · rw [hfrom, hmb]
            · rw [hfrom, hmb, hpl]
            · rw [hto]; exact hvt
            · rw [hto, hvc, hpl]; rfl
        · rw [if_neg hen] at hmem
          simp at hmem
      · rw [if_neg hr2] at hm
        obtain ⟨ts, hts, hmem⟩ := List.mem_flatMap.mp hm
        obtain ⟨ht64, htbit⟩ := mem_squaresOf.mp hts
        by_cases hen : sqbb ts &&& b.occof WHITE ≠ 0
        · rw [if_pos hen] at hmem
          rcases List.mem_singleton.mp hmem with rfl
          have hob : (b.occof WHITE).testBit ts = true := sqbb_and_ne ht64 hen
          obtain ⟨hvt, hvc⟩ := vp_color_of_occof hb ht64 hob
          obtain ⟨hfl, hfrom, hto⟩ :=
            mkMove_fields MF.CAPTURE (by decide) fs hfs64 ts ht64
          apply rt_capture b hb _ hfl
          · rw [hfrom]; exact hocc
          · rw [hto]; exact hvt
          · rw [hto, hfrom, hvc, hmb]; rfl
        · rw [if_neg hen] at hmem
          by_cases hep2 : sqbb ts &&& sqbb (b.history b.game_ply).epsq ≠ 0
          · rw [if_pos hep2] at hmem
            rcases List.mem_singleton.mp hmem with rfl
            rcases hepok with h64 | hbl | hwh
            · rw [h64] at hep2
              rw [show sqbb NO_SQUARE = 0 from by decide] at hep2
              simp at hep2
            · obtain ⟨-, h16, h24, hpv, hepemp⟩ := hbl
              have hts_ep : (b.history b.game_ply).epsq = ts := by
                have hbitep := sqbb_and_ne ht64 hep2
                rw [testBit_sqbb (show (b.history b.game_ply).epsq < 64
                  by omega)] at hbitep
                exact (of_decide_eq_true hbitep).symm
              rw [hts_ep] at h16 h24 hpv hepemp
              obtain ⟨hfl, hfrom, hto⟩ :=
                mkMove_fields MF.EN_PASSANT (by decide) fs hfs64 ts ht64
              have hvfne : ts + 8 ≠ fs := by
                intro heq
                rw [heq] at hpv
                rw [hmb] at hpv
                cases hpv
              apply rt_ep_black b hb _ hfl hpl (ts + 8) ?_ (by omega) ?_ ?_
                ?_ ?_ ?_
              · rw [hto]
                exact addDir_pos ts
              · rw [hfrom]; exact hmb
              · rw [hto]; exact hepemp
              · exact hpv
              · rw [hfrom]; exact hvfne
              · rw [hto]; omega
            · rw [hpl] at hwh
              exact absurd hwh.1 (by decide)
          · rw [if_neg hep2] at hmem
            simp at hmem

/-- Round trip for every pseudo-legal move. -/
theorem pseudo_rt (b : Board) (hb : ValidPos b) (m : Move)
    (hm : m ∈ b.generate_pseudo_legal_moves) :
    RTEq b ((b.move m).undo_move m) := by
  simp only [Board.generate_pseudo_legal_moves] at hm
  rcases List.mem_append.mp hm with h5 | hk
  · rcases List.mem_append.mp h5 with h4 | hq
    · rcases List.mem_append.mp h4 with h3 | hr
      · rcases List.mem_append.mp h3 with h2 | hbp
        · rcases List.mem_append.mp h2 with hp | hn
          · obtain ⟨fs, hfs, hmem⟩ := List.mem_flatMap.mp hp
            exact pawn_group_rt b hb fs hfs m hmem
          · obtain ⟨fs, hfs, hmem⟩ := List.mem_flatMap.mp hn
            exact knight_group_rt b hb fs hfs m hmem
        · obtain ⟨fs, hfs, hmem⟩ := List.mem_flatMap.mp hbp
          exact bishop_group_rt b hb fs hfs m hmem
      · obtain ⟨fs, hfs, hmem⟩ := List.mem_flatMap.mp hr
        exact rook_group_rt b hb fs hfs m hmem
    · obtain ⟨fs, hfs, hmem⟩ := List.mem_flatMap.mp hq
      exact queen_group_rt b hb fs hfs m hmem
  · exact king_group_rt b hb m hk

/-- **C3 (amended).**  For every position satisfying the FEN-reachable
invariants and every legal move in it, `Board::move` followed by
`Board::undo_move` restores the bitboards, the occupancy boards, the side
to move, the castling rights, the en-passant target, the halfmove clock,
the fullmove counter, the game ply, and the mailbox piece types — but not
the whole mailbox: `remove_piece` resets only the `type` byte of an
emptied square, so the `color` byte of a vacated square keeps the color
of the piece that passed through (counterexample below). -/
theorem c3_round_trip (b : Board) (hb : ValidPos b) (m : Move)
    (hm : m ∈ b.get_legal_moves) :
    RTEq b ((b.move m).undo_move m) := by
  simp only [Board.get_legal_moves] at hm
  exact pseudo_rt b hb m (List.mem_filter.mp hm).1

/-- **C3 (counterexample).**  The round trip is not bit-identical on the
mailbox: after black's legal knight move b8c6 from the black-to-move start
position is made and unmade, the mailbox byte pair of the (empty) square
c6 reads `(NO_PIECE_TYPE, BLACK)` where it read `(NO_PIECE_TYPE, WHITE)`
before. -/
theorem c3_counterexample :
    mkMove 57 42 MF.QUIET ∈ blackStartBoard.get_legal_moves ∧
    ((blackStartBoard.move (mkMove 57 42 MF.QUIET)).undo_move
      (mkMove 57 42 MF.QUIET)).mailbox 42 ≠ blackStartBoard.mailbox 42 := by
  constructor
  · decide
  · decide

/-- The amended C3 at a concrete input: the start position is a valid
position, b1c3 is legal in it, and the round trip restores every component
`RTEq` lists. -/
theorem c3_witness :
    ValidPos startBoard ∧
    mkMove 1 18 MF.QUIET ∈ startBoard.get_legal_moves ∧
    RTEq startBoard ((startBoard.move (mkMove 1 18 MF.QUIET)).undo_move
      (mkMove 1 18 MF.QUIET)) :=
  ⟨by decide, by decide, c3_round_trip startBoard (by decide) _ (by decide)⟩


end Chess
